import Mathlib

/-!
Colour quantization by k-means: a shallow embedding of the repository.

Two variants of the program are embedded: the multi-threaded one
(`src/cpp-mt/ColorQuantization/ColorQuantization.cpp`, namespace `MT`) and the
single-threaded one (`src/cpp/ColorQuantization/ColorQuantization.cpp`,
namespace `ST`).

Modelling conventions.

* `unsigned char` buffers are lists of naturals; a pointer into the image is
  the byte offset from `options.image`.
* `unsigned int` arithmetic that can wrap is written with `u32`, the conversion
  of a centroid index to `int` with `to_int`.  The predicate `in_range` collects
  the sizes for which nothing wraps.
* `float` arithmetic is embedded twice.  In the namespaces `MT` and `ST` the
  values are exact rationals: rounding is not modelled, and the threshold
  `0.01f` is the rational 1/100; what is proved of these definitions holds over
  exact arithmetic.  The two places where values outside the rationals arise
  are modelled explicitly: the result of a division (`FloatX`, with infinities
  and NaN for a zero divisor, as in IEEE 754) and the result of `sqrt` (`FVal`,
  a symbolic square root compared exactly).  `abs` is the floating-point
  overload that `<math.h>` provides in C++.
* In the namespaces `MTF` and `STF` the same functions are embedded with every
  `float` operation rounded to binary32 (`f32`: round to nearest, ties to even,
  subnormal numbers included; `f32_sqrt` for `sqrt`; the threshold is
  `f32 (1 / 100)`, the constant `0.01f`).  A `float` is the rational it
  denotes.  Overflow to an infinity is not modelled; it cannot occur for
  colours in [0,255] and sums of bytes.  Conversions of integers to `float`
  are rounded as well (`f32` of the count).
* An access outside an array is undefined behaviour in C++; here a read
  outside a list yields a default value and a write outside a list does
  nothing.  The theorems about computed values state the size conditions under
  which every access is inside its array; the theorems about the control flow
  of the loop and about the set of bytes that are written hold for every input
  of the model.
* `init_centroids` draws from `rand()`; the centroids it produces are the
  parameter `centroids0` of `kmeans`.  The function `init_centroids` itself
  takes the values returned by the successive calls of `std::rand()` as the
  parameter `rand` and the constant `RAND_MAX` as the parameter `rand_max`;
  `kmeans_with_init` is `kmeans` together with this call.  The array
  `clusters` is allocated uninitialised in the multi-threaded variant; its
  initial content is the parameter `clusters0`.
* The busy-wait barrier of the multi-threaded variant is modelled by running
  the workers one after the other in the order of their thread ids; the
  workers write disjoint entries of `clusters` and read nothing that another
  worker writes.
* `kmeans` yields the whole final state: how the call ended (`Outcome`), the
  pixel buffer, the centroids, the assignment, and a trace with the value of
  `anyChanged` of every pass it executed.
-/

set_option linter.unusedVariables false

namespace ColorQuantization

/-! ## Machine arithmetic -/

/-- Wrap-around of `unsigned int` arithmetic (32 bits). -/
def u32 (n : Nat) : Nat := n % 4294967296

/-- Conversion of an `unsigned int` to `int` (two's complement, 32 bits). -/
def to_int (n : Nat) : Int :=
  if u32 n < 2147483648 then (u32 n : Int) else (u32 n : Int) - 4294967296

/-- Truncation toward zero, the rounding of a float-to-integer conversion. -/
def truncf (q : ℚ) : Int := if 0 ≤ q then ⌊q⌋ else ⌈q⌉

/-- Conversion `static_cast<unsigned char>(q)` of a float: truncation toward
zero (the value is kept modulo 256 where it does not fit in a byte). -/
def to_uchar (q : ℚ) : Nat := (truncf q % 256).toNat

/-- Result of a float division: a finite value, an infinity or NaN. -/
inductive FloatX where
  | fin (q : ℚ)
  | pinf
  | ninf
  | nan
  deriving DecidableEq

/-- IEEE division `a / b` of two finite floats: a non-zero value divided by
zero is an infinity, zero divided by zero is NaN. -/
def fdiv (a b : ℚ) : FloatX :=
  if b = 0 then
    if a = 0 then FloatX.nan else if 0 < a then FloatX.pinf else FloatX.ninf
  else FloatX.fin (a / b)

/-- Floating-point `abs`. -/
def FloatX.abs : FloatX → FloatX
  | FloatX.fin q => FloatX.fin |q|
  | FloatX.pinf => FloatX.pinf
  | FloatX.ninf => FloatX.pinf
  | FloatX.nan => FloatX.nan

/-- Comparison `x > t` with a finite `t`; false when `x` is NaN. -/
def FloatX.gt (x : FloatX) (t : ℚ) : Bool :=
  match x with
  | FloatX.fin q => decide (t < q)
  | FloatX.pinf => true
  | FloatX.ninf => false
  | FloatX.nan => false

/-- Exact value of a float that is either a rational or the square root of a
rational. -/
inductive FVal where
  | rat (q : ℚ)
  | sqrt (q : ℚ)
  deriving DecidableEq

/-- Comparison `x < y` of two such values over the reals; the square root of
a negative number is NaN and compares false. -/
def FVal.lt : FVal → FVal → Bool
  | FVal.rat a, FVal.rat b => decide (a < b)
  | FVal.sqrt a, FVal.sqrt b => decide (0 ≤ a ∧ a < b)
  | FVal.rat a, FVal.sqrt b => decide (0 ≤ b ∧ (a < 0 ∨ a * a < b))
  | FVal.sqrt a, FVal.rat b => decide (0 ≤ a ∧ 0 < b ∧ a < b * b)

/-! ## Data model -/

/-- Read of `image[off]`. -/
def byte_at (image : List Nat) (off : Nat) : Nat := image.getD off 0

/-- Offset `4 * point_idx` of a pixel, computed in `unsigned int`. -/
def point_off (point_idx : Nat) : Nat := u32 (4 * point_idx)

/-- Squared Euclidean distance over (R,G,B) between a colour and the pixel at
byte offset `off`. -/
def sq_dist (r g b : ℚ) (image : List Nat) (off : Nat) : ℚ :=
  (r - (byte_at image off : ℚ)) ^ 2 + (g - (byte_at image (off + 1) : ℚ)) ^ 2 +
    (b - (byte_at image (off + 2) : ℚ)) ^ 2

/-- Nearest-centroid property of an index `m` for keys `key 0 .. key (K-1)`:
`m` is in range, minimises the key, and is the lowest minimiser. -/
def IsLowestArgmin (key : Nat → ℚ) (K : Nat) (m : Int) : Prop :=
  0 ≤ m ∧ m < (K : Int) ∧ (∀ j, j < K → key m.toNat ≤ key j) ∧
    ∀ j : Nat, (j : Int) < m → key m.toNat < key j

/-- Update of the array element `a[i]` by an `int` index. -/
def modify_at_int {α : Type} (a : List α) (i : Int) (f : α → α) : List α :=
  if 0 ≤ i then a.modify f i.toNat else a

/-- One channel test of the convergence check of `update_centroids`:
`abs((new - prev) / prev) > threshold`. -/
def rel_change_exceeds (new prev threshold : ℚ) : Bool :=
  FloatX.gt (FloatX.abs (fdiv (new - prev) prev)) threshold

/-- How a call of `kmeans` ends: it returns `last_iteration`, or it throws
`std::runtime_error("Did not converge")`. -/
inductive Outcome where
  | returned (last_iteration : Nat)
  | did_not_converge
  deriving DecidableEq

/-- The three stores `point[0] = r; point[1] = g; point[2] = b` of the final
loop of `kmeans`, with the float colour converted to bytes. -/
def store_rgb (image : List Nat) (point : Nat) (r g b : ℚ) : List Nat :=
  ((image.set point (to_uchar r)).set (point + 1) (to_uchar g)).set (point + 2) (to_uchar b)

namespace MT

/-- Options of a run; `image` is the RGBA byte buffer, `image_len` the number
of pixels. -/
structure QuantizeOptions where
  image : List Nat
  image_len : Nat
  cluster_count : Nat
  iteration_limit : Nat
  thread_count : Nat
  deriving DecidableEq

/-- Sizes for which the index arithmetic of the program does not wrap: the
buffer holds `image_len` RGBA pixels, its byte offsets fit in 32 bits, a
centroid index fits in an `int` and the thread count in an `unsigned int`. -/
def QuantizeOptions.in_range (o : QuantizeOptions) : Prop :=
  o.image.length = 4 * o.image_len ∧ 4 * o.image_len ≤ 4294967296 ∧
    o.cluster_count ≤ 2147483648 ∧ o.thread_count < 4294967296

/-- Centroid of the multi-threaded variant. -/
structure Centroid where
  count : Nat
  r : ℚ
  g : ℚ
  b : ℚ
  prev_r : ℚ
  prev_g : ℚ
  prev_b : ℚ
  deriving DecidableEq

instance : Inhabited Centroid := ⟨⟨0, 0, 0, 0, 0, 0, 0⟩⟩

/-- Read of `centroids[i]` by an `unsigned int` index. -/
def centroid_at (centroids : List Centroid) (i : Nat) : Centroid := centroids.getD i default

/-- Read of `centroids[i]` by an `int` index. -/
def centroid_at_int (centroids : List Centroid) (i : Int) : Centroid :=
  if 0 ≤ i then centroids.getD i.toNat default else default

/-- The function `distance_from_centroid`: the square root of the squared
distance between the centroid and the pixel at `point`. -/
def distance_from_centroid (centroid : Centroid) (image : List Nat) (point : Nat) : FVal :=
  let r : ℚ := byte_at image point
  let g : ℚ := byte_at image (point + 1)
  let b : ℚ := byte_at image (point + 2)
  FVal.sqrt ((centroid.r - r) * (centroid.r - r) + (centroid.g - g) * (centroid.g - g) +
    (centroid.b - b) * (centroid.b - b))

/-- One iteration of the loop over `centroid_idx` in `chunk`; the state is
`(min_distance, min_idx)`. -/
def min_step (centroids : List Centroid) (image : List Nat) (point : Nat)
    (st : FVal × Int) (centroid_idx : Nat) : FVal × Int :=
  let distance := distance_from_centroid (centroid_at centroids centroid_idx) image point
  if st.2 < 0 || FVal.lt distance st.1 then (distance, to_int centroid_idx) else st

/-- The value `min_idx` that `chunk` stores in `clusters[point_idx]`. -/
def chunk_min_idx (options : QuantizeOptions) (centroids : List Centroid) (point_idx : Nat) : Int :=
  ((List.range options.cluster_count).foldl
    (min_step centroids options.image (point_off point_idx)) (FVal.rat (-1), -1)).2

/-- The pixel indices visited by one activation of the worker `thread_id` in
`chunk`: the `for` loop from `thread_id * points_per_thread` up to
`(thread_id + 1) * points_per_thread`, left by `break` at the first index that
is not below `image_len`. -/
def chunk_points (thread_id : Nat) (options : QuantizeOptions) : List Nat :=
  let points_per_thread := u32 (options.image_len / options.thread_count + 1)
  let first := u32 (thread_id * points_per_thread)
  let last := u32 ((thread_id + 1) * points_per_thread)
  (List.range' first (last - first)).takeWhile (fun point_idx => decide (point_idx < options.image_len))

/-- One activation of the worker `thread_id` in `chunk` (from its signal being
raised until it lowers it): `clusters[point_idx] = min_idx` for each visited
pixel. -/
def chunk (thread_id : Nat) (options : QuantizeOptions) (centroids : List Centroid)
    (clusters : List Int) : List Int :=
  (chunk_points thread_id options).foldl
    (fun clusters point_idx => clusters.set point_idx (chunk_min_idx options centroids point_idx))
    clusters

/-- The assignment phase of one iteration of `kmeans`: every worker is
signalled and the loop waits until all of them are done. -/
def assignment_phase (options : QuantizeOptions) (centroids : List Centroid)
    (clusters : List Int) : List Int :=
  (List.range options.thread_count).foldl
    (fun clusters thread_id => chunk thread_id options centroids clusters) clusters

/-- First loop of `update_centroids`, for one centroid: the colour is saved in
`prev_*`, then colour and count are reset to zero. -/
def reset (c : Centroid) : Centroid :=
  { count := 0, r := 0, g := 0, b := 0, prev_r := c.r, prev_g := c.g, prev_b := c.b }

/-- Second loop of `update_centroids`, for one pixel: its channels are added
to the centroid `clusters[i]`, whose count is incremented. -/
def accumulate (options : QuantizeOptions) (clusters : List Int) (centroids : List Centroid)
    (i : Nat) : List Centroid :=
  let point := point_off i
  let centroid_idx := clusters.getD i 0
  modify_at_int centroids centroid_idx (fun c =>
    { c with r := c.r + (byte_at options.image point : ℚ),
             g := c.g + (byte_at options.image (point + 1) : ℚ),
             b := c.b + (byte_at options.image (point + 2) : ℚ),
             count := c.count + 1 })

/-- Third loop of `update_centroids`, the division: performed only under the
guard `count > 0`. -/
def divide (c : Centroid) : Centroid :=
  if c.count > 0 then
    { c with r := c.r / (c.count : ℚ), g := c.g / (c.count : ℚ), b := c.b / (c.count : ℚ) }
  else c

/-- Third loop of `update_centroids`, the test of centroid `c` against the
threshold. -/
def exceeds (threshold : ℚ) (c : Centroid) : Bool :=
  rel_change_exceeds c.r c.prev_r threshold || rel_change_exceeds c.g c.prev_g threshold ||
    rel_change_exceeds c.b c.prev_b threshold

/-- One iteration of the third loop of `update_centroids`; the state is the
centroid array and `anyChanged`. -/
def finish_step (threshold : ℚ) (st : List Centroid × Bool) (i : Nat) : List Centroid × Bool :=
  let centroids := st.1.modify divide i
  if st.2 then (centroids, st.2)
  else if exceeds threshold (centroid_at centroids i) then (centroids, true)
  else (centroids, st.2)

/-- The function `update_centroids`: the new centroid array and the returned
`anyChanged`. -/
def update_centroids (centroids : List Centroid) (clusters : List Int)
    (options : QuantizeOptions) : List Centroid × Bool :=
  let threshold : ℚ := 1 / 100
  let centroids := (List.range options.cluster_count).foldl
    (fun centroids i => centroids.modify reset i) centroids
  let centroids := (List.range options.image_len).foldl (accumulate options clusters) centroids
  (List.range options.cluster_count).foldl (finish_step threshold) (centroids, false)

/-- State of the k-means loop of `kmeans`.  `trace` records the value of
`anyChanged` of every pass executed so far, in order; it is not a variable of
the program. -/
structure LoopState where
  centroids : List Centroid
  clusters : List Int
  converged : Bool
  last_iteration : Nat
  trace : List Bool

/-- One pass of the k-means loop: assignment phase, then `update_centroids`. -/
def pass (options : QuantizeOptions) (centroids : List Centroid) (clusters : List Int) :
    (List Centroid × List Int) × Bool :=
  let clusters := assignment_phase options centroids clusters
  let upd := update_centroids centroids clusters options
  ((upd.1, clusters), upd.2)

/-- The k-means loop of `kmeans`, `for (iteration = 0; iteration < iteration_limit; iteration++)`
with its `break`; `remaining` is `iteration_limit - iteration`. -/
def kmeans_loop (options : QuantizeOptions) : Nat → Nat → LoopState → LoopState
  | 0, _, s => s
  | remaining + 1, iteration, s =>
    let p := pass options s.centroids s.clusters
    let anyChanged := p.2
    if !anyChanged then
      { centroids := p.1.1, clusters := p.1.2, converged := true,
        last_iteration := iteration + 1, trace := s.trace ++ [anyChanged] }
    else
      kmeans_loop options remaining (iteration + 1)
        { centroids := p.1.1, clusters := p.1.2, converged := s.converged,
          last_iteration := s.last_iteration, trace := s.trace ++ [anyChanged] }

/-- The final loop of `kmeans`: every pixel receives the colour of the
centroid `centroids[clusters[i]]`. -/
def write_back (options : QuantizeOptions) (centroids : List Centroid) (clusters : List Int) :
    List Nat :=
  (List.range options.image_len).foldl
    (fun image i =>
      let centroid := centroid_at_int centroids (clusters.getD i 0)
      store_rgb image (point_off i) centroid.r centroid.g centroid.b)
    options.image

/-- What a call of `kmeans` leaves behind: how it ended, the pixel buffer, and
the final centroids, assignment and trace of the loop. -/
structure Result where
  outcome : Outcome
  image : List Nat
  centroids : List Centroid
  clusters : List Int
  trace : List Bool

/-- The function `kmeans`, from the centroids produced by `init_centroids`
and the initial content of the array `clusters`. -/
def kmeans (options : QuantizeOptions) (centroids0 : List Centroid) (clusters0 : List Int) :
    Result :=
  let s := kmeans_loop options options.iteration_limit 0
    { centroids := centroids0, clusters := clusters0, converged := false,
      last_iteration := 0, trace := [] }
  if !s.converged then
    { outcome := Outcome.did_not_converge, image := options.image, centroids := s.centroids,
      clusters := s.clusters, trace := s.trace }
  else
    { outcome := Outcome.returned s.last_iteration,
      image := write_back options s.centroids s.clusters,
      centroids := s.centroids, clusters := s.clusters, trace := s.trace }

/-- Centroids and assignment after `k` passes of the loop body, whether or not
the loop would have stopped earlier. -/
def state_after (options : QuantizeOptions) (centroids0 : List Centroid) (clusters0 : List Int) :
    Nat → List Centroid × List Int
  | 0 => (centroids0, clusters0)
  | k + 1 =>
    (pass options (state_after options centroids0 clusters0 k).1
      (state_after options centroids0 clusters0 k).2).1

/-- The value of `anyChanged` reported by pass number `k + 1`. -/
def changed_at (options : QuantizeOptions) (centroids0 : List Centroid) (clusters0 : List Int)
    (k : Nat) : Bool :=
  (pass options (state_after options centroids0 clusters0 k).1
    (state_after options centroids0 clusters0 k).2).2

end MT

namespace ST

/-- Options of a run; `image` is the RGBA byte buffer, `image_len` the number
of pixels. -/
structure QuantizeOptions where
  image : List Nat
  image_len : Nat
  cluster_count : Nat
  iteration_limit : Nat
  deriving DecidableEq

/-- Sizes for which the index arithmetic of the program does not wrap: the
buffer holds `image_len` RGBA pixels, its byte offsets fit in 32 bits and a
centroid index fits in an `int`. -/
def QuantizeOptions.in_range (o : QuantizeOptions) : Prop :=
  o.image.length = 4 * o.image_len ∧ 4 * o.image_len ≤ 4294967296 ∧
    o.cluster_count ≤ 2147483648

/-- Centroid of the single-threaded variant: the entries `[0]`, `[1]`, `[2]`
of its float array. -/
structure Centroid where
  c0 : ℚ
  c1 : ℚ
  c2 : ℚ
  deriving DecidableEq

instance : Inhabited Centroid := ⟨⟨0, 0, 0⟩⟩

/-- Read of `centroids[i]`. -/
def centroid_at (centroids : List Centroid) (i : Nat) : Centroid := centroids.getD i default

/-- The function `distance_from_centroid`: the squared distance between the
centroid and the pixel at `point`. -/
def distance_from_centroid (centroid : Centroid) (image : List Nat) (point : Nat) : ℚ :=
  let r : ℚ := byte_at image point
  let g : ℚ := byte_at image (point + 1)
  let b : ℚ := byte_at image (point + 2)
  (centroid.c0 - r) * (centroid.c0 - r) + (centroid.c1 - g) * (centroid.c1 - g) +
    (centroid.c2 - b) * (centroid.c2 - b)

/-- One iteration of the loop over `centroid_idx` in `kmeans`; the state is
`(min_distance, min_idx)`. -/
def min_step (centroids : List Centroid) (image : List Nat) (point : Nat)
    (st : ℚ × Int) (centroid_idx : Nat) : ℚ × Int :=
  let distance := distance_from_centroid (centroid_at centroids centroid_idx) image point
  if st.2 < 0 || decide (distance < st.1) then (distance, to_int centroid_idx) else st

/-- The value `min_idx` computed by `kmeans` for the pixel `point_idx`. -/
def kmeans_min_idx (options : QuantizeOptions) (centroids : List Centroid) (point_idx : Nat) : Int :=
  ((List.range options.cluster_count).foldl
    (min_step centroids options.image (point_off point_idx)) (-1, -1)).2

/-- The function `init_clusters`: every cluster vector is cleared. -/
def init_clusters (clusters : List (List Nat)) (options : QuantizeOptions) : List (List Nat) :=
  (List.range options.cluster_count).foldl (fun clusters i => clusters.modify (fun _ => []) i)
    clusters

/-- The loop over `point_idx` in `kmeans`: the pointer to every pixel is pushed
on the vector of its nearest centroid. -/
def assign_points (options : QuantizeOptions) (centroids : List Centroid)
    (clusters : List (List Nat)) : List (List Nat) :=
  (List.range options.image_len).foldl
    (fun clusters point_idx =>
      let point := point_off point_idx
      let min_idx := kmeans_min_idx options centroids point_idx
      modify_at_int clusters min_idx (fun v => v ++ [point]))
    clusters

/-- The sum of one channel over the pixels of a cluster vector, as computed by
the loop over `j` in `update_centroids`. -/
def channel_sum (image : List Nat) (members : List Nat) (channel : Nat) : ℚ :=
  members.foldl (fun acc point => acc + (byte_at image (point + channel) : ℚ)) 0

/-- The new value of one channel in `update_centroids`: the sum, divided by the
size of the cluster vector under the guard `size() > 0`. -/
def new_channel (image : List Nat) (members : List Nat) (channel : Nat) : ℚ :=
  if members.length > 0 then channel_sum image members channel / (members.length : ℚ)
  else channel_sum image members channel

/-- One iteration of the loop over `i` in `update_centroids`; the state is the
centroid array and `anyChanged`. -/
def update_step (options : QuantizeOptions) (clusters : List (List Nat)) (threshold : ℚ)
    (st : List Centroid × Bool) (i : Nat) : List Centroid × Bool :=
  let old := centroid_at st.1 i
  let members := clusters.getD i []
  let new_r := new_channel options.image members 0
  let new_g := new_channel options.image members 1
  let new_b := new_channel options.image members 2
  let centroids := st.1.set i { c0 := new_r, c1 := new_g, c2 := new_b }
  (centroids, st.2 || rel_change_exceeds new_r old.c0 threshold ||
    rel_change_exceeds new_g old.c1 threshold || rel_change_exceeds new_b old.c2 threshold)

/-- The function `update_centroids`: the new centroid array and the returned
`anyChanged`. -/
def update_centroids (centroids : List Centroid) (clusters : List (List Nat))
    (options : QuantizeOptions) : List Centroid × Bool :=
  let threshold : ℚ := 1 / 100
  (List.range options.cluster_count).foldl (update_step options clusters threshold)
    (centroids, false)

/-- State of the k-means loop of `kmeans`.  `trace` records the value of
`anyChanged` of every pass executed so far, in order; it is not a variable of
the program. -/
structure LoopState where
  centroids : List Centroid
  clusters : List (List Nat)
  converged : Bool
  last_iteration : Nat
  trace : List Bool

/-- One pass of the k-means loop: `init_clusters`, the assignment loop, then
`update_centroids`. -/
def pass (options : QuantizeOptions) (centroids : List Centroid) (clusters : List (List Nat)) :
    (List Centroid × List (List Nat)) × Bool :=
  let clusters := assign_points options centroids (init_clusters clusters options)
  let upd := update_centroids centroids clusters options
  ((upd.1, clusters), upd.2)

/-- The k-means loop of `kmeans`, `for (iteration = 0; iteration < iteration_limit; iteration++)`
with its `break`; `remaining` is `iteration_limit - iteration`. -/
def kmeans_loop (options : QuantizeOptions) : Nat → LoopState → LoopState
  | 0, s => s
  | remaining + 1, s =>
    let last_iteration := s.last_iteration + 1
    let p := pass options s.centroids s.clusters
    let anyChanged := p.2
    if !anyChanged then
      { centroids := p.1.1, clusters := p.1.2, converged := true,
        last_iteration := last_iteration, trace := s.trace ++ [anyChanged] }
    else
      kmeans_loop options remaining
        { centroids := p.1.1, clusters := p.1.2, converged := s.converged,
          last_iteration := last_iteration, trace := s.trace ++ [anyChanged] }

/-- The final loops of `kmeans`: every pixel of the cluster vector `i` receives
the colour of `centroids[i]`. -/
def write_back (options : QuantizeOptions) (centroids : List Centroid)
    (clusters : List (List Nat)) : List Nat :=
  (List.range options.cluster_count).foldl
    (fun image i =>
      (clusters.getD i []).foldl
        (fun image point =>
          store_rgb image point (centroid_at centroids i).c0 (centroid_at centroids i).c1
            (centroid_at centroids i).c2)
        image)
    options.image

/-- What a call of `kmeans` leaves behind: how it ended, the pixel buffer, and
the final centroids, cluster vectors and trace of the loop. -/
structure Result where
  outcome : Outcome
  image : List Nat
  centroids : List Centroid
  clusters : List (List Nat)
  trace : List Bool

/-- The function `kmeans`, from the centroids produced by `init_centroids`. -/
def kmeans (options : QuantizeOptions) (centroids0 : List Centroid) : Result :=
  let clusters := init_clusters (List.replicate options.cluster_count []) options
  let s := kmeans_loop options options.iteration_limit
    { centroids := centroids0, clusters := clusters, converged := false,
      last_iteration := 0, trace := [] }
  if !s.converged then
    { outcome := Outcome.did_not_converge, image := options.image, centroids := s.centroids,
      clusters := s.clusters, trace := s.trace }
  else
    { outcome := Outcome.returned s.last_iteration,
      image := write_back options s.centroids s.clusters,
      centroids := s.centroids, clusters := s.clusters, trace := s.trace }

/-- Centroids and cluster vectors after `k` passes of the loop body, whether or
not the loop would have stopped earlier. -/
def state_after (options : QuantizeOptions) (centroids0 : List Centroid) :
    Nat → List Centroid × List (List Nat)
  | 0 => (centroids0, init_clusters (List.replicate options.cluster_count []) options)
  | k + 1 =>
    (pass options (state_after options centroids0 k).1 (state_after options centroids0 k).2).1

/-- The value of `anyChanged` reported by pass number `k + 1`. -/
def changed_at (options : QuantizeOptions) (centroids0 : List Centroid) (k : Nat) : Bool :=
  (pass options (state_after options centroids0 k).1 (state_after options centroids0 k).2).2

end ST

/-! ## Definitions used by the statements and proofs -/

/-- Reference form of the minimum search over keys `key 0, key 1, ...`. -/
def arg_step (key : Nat → ℚ) (st : ℚ × Int) (j : Nat) : ℚ × Int :=
  if st.2 < 0 || decide (key j < st.1) then (key j, (j : Int)) else st

/-- The radicand of the distance of the multi-threaded variant. -/
def MT.radicand (centroids : List MT.Centroid) (image : List Nat) (point : Nat) (j : Nat) : ℚ :=
  sq_dist (MT.centroid_at centroids j).r (MT.centroid_at centroids j).g
    (MT.centroid_at centroids j).b image point

instance (o : MT.QuantizeOptions) : Decidable o.in_range := by
  unfold MT.QuantizeOptions.in_range
  infer_instance

instance (o : ST.QuantizeOptions) : Decidable o.in_range := by
  unfold ST.QuantizeOptions.in_range
  infer_instance

/-- A small run of the multi-threaded variant: three RGBA pixels, two
clusters, two worker threads. -/
def example_mt_options : MT.QuantizeOptions :=
  { image := [0, 0, 0, 255, 1, 1, 1, 255, 9, 9, 9, 255], image_len := 3, cluster_count := 2,
    iteration_limit := 5, thread_count := 2 }

/-- The same run for the single-threaded variant. -/
def example_st_options : ST.QuantizeOptions :=
  { image := [0, 0, 0, 255, 1, 1, 1, 255, 9, 9, 9, 255], image_len := 3, cluster_count := 2,
    iteration_limit := 5 }

/-- Initial centroids of the small run, multi-threaded variant. -/
def example_mt_centroids : List MT.Centroid :=
  [⟨0, 1, 1, 1, 0, 0, 0⟩, ⟨0, 9, 9, 9, 0, 0, 0⟩]

/-- Initial centroids of the small run, single-threaded variant. -/
def example_st_centroids : List ST.Centroid := [⟨1, 1, 1⟩, ⟨9, 9, 9⟩]

/-- Pixels assigned to the centroid `j` by the assignment array `clusters`. -/
def MT.members (options : QuantizeOptions) (clusters : List Int) (j : Nat) : List Nat :=
  (List.range options.image_len).filter (fun i => decide (clusters.getD i 0 = (j : Int)))

/-- Sum of one channel (0, 1 or 2) over the pixels with the given indices. -/
def channel_total (image : List Nat) (pixels : List Nat) (channel : Nat) : ℚ :=
  (pixels.map (fun i => (byte_at image (4 * i + channel) : ℚ))).sum

/-- Arithmetic mean of one channel over the pixels with the given indices. -/
def channel_mean (image : List Nat) (pixels : List Nat) (channel : Nat) : ℚ :=
  channel_total image pixels channel / (pixels.length : ℚ)

/-- Closed form of the centroid `j` after `update_centroids`, from the centroid
`c` before the update: sums over the assigned pixels, then the guarded
division. -/
def MT.updated (options : QuantizeOptions) (clusters : List Int) (c : MT.Centroid) (j : Nat) :
    MT.Centroid :=
  MT.divide
    { count := (MT.members options clusters j).length,
      r := channel_total options.image (MT.members options clusters j) 0,
      g := channel_total options.image (MT.members options clusters j) 1,
      b := channel_total options.image (MT.members options clusters j) 2,
      prev_r := c.r, prev_g := c.g, prev_b := c.b }

/-- The update of a centroid by the pixel `i` in the second loop of
`update_centroids`. -/
def MT.add_pixel (options : QuantizeOptions) (i : Nat) (c : MT.Centroid) : MT.Centroid :=
  { c with r := c.r + (byte_at options.image (point_off i) : ℚ),
           g := c.g + (byte_at options.image (point_off i + 1) : ℚ),
           b := c.b + (byte_at options.image (point_off i + 2) : ℚ),
           count := c.count + 1 }

/-- The centroid array between the second and the third loop of
`update_centroids`. -/
def MT.accumulated (centroids : List MT.Centroid) (clusters : List Int)
    (options : QuantizeOptions) : List MT.Centroid :=
  (List.range options.image_len).foldl (MT.accumulate options clusters)
    ((List.range options.cluster_count).foldl (fun centroids i => centroids.modify MT.reset i)
      centroids)

/-- Closed form of the centroid `j` after `update_centroids`. -/
def ST.updated (options : QuantizeOptions) (clusters : List (List Nat)) (j : Nat) : ST.Centroid :=
  { c0 := ST.new_channel options.image (clusters.getD j []) 0,
    c1 := ST.new_channel options.image (clusters.getD j []) 1,
    c2 := ST.new_channel options.image (clusters.getD j []) 2 }

/-- The test of `update_centroids` for one centroid, between its new and its
old colour. -/
def ST.exceeds (threshold : ℚ) (new old : ST.Centroid) : Bool :=
  rel_change_exceeds new.c0 old.c0 threshold || rel_change_exceeds new.c1 old.c1 threshold ||
    rel_change_exceeds new.c2 old.c2 threshold

/-- Pixels whose nearest centroid is `j`, in the order of the assignment loop. -/
def ST.members (options : ST.QuantizeOptions) (centroids : List ST.Centroid) (j : Nat) : List Nat :=
  (List.range options.image_len).filter
    (fun i => decide (ST.kmeans_min_idx options centroids i = (j : Int)))

/-- Arithmetic mean of one channel over the pixels a cluster vector points to. -/
def ST.channel_mean (image : List Nat) (members : List Nat) (channel : Nat) : ℚ :=
  (members.map (fun point => (byte_at image (point + channel) : ℚ))).sum / (members.length : ℚ)

/-- The relative change `|new - previous| / previous` of a channel, as the
float division computes it. -/
def relative_change (new prev : ℚ) : FloatX := fdiv |new - prev| prev

/-- Two option records of the multi-threaded variant that describe the same
pixel buffer and cluster count; limit and thread count may differ. -/
def MT.same_input (o o' : MT.QuantizeOptions) : Prop :=
  o'.image = o.image ∧ o'.image_len = o.image_len ∧ o'.cluster_count = o.cluster_count

/-- An assignment of the three example pixels: the first two to centroid 0,
the third to centroid 1. -/
def example_clusters : List Int := [0, 0, 1]

/-- The cluster vectors of the same assignment, single-threaded variant. -/
def example_st_clusters : List (List Nat) := [[0, 4], [8]]

/-- The byte that the final loop of `kmeans` stores in channel `c` (0, 1 or 2)
of a pixel that receives the colour `(r, g, b)`. -/
def pixel_byte (r g b : ℚ) (c : Nat) : Nat :=
  if c = 0 then to_uchar r else if c = 1 then to_uchar g else to_uchar b

/-- A sequence of stores of a colour at a byte offset, performed in order. -/
def store_all (image : List Nat) (writes : List (Nat × ℚ × ℚ × ℚ)) : List Nat :=
  writes.foldl (fun image w => store_rgb image w.1 w.2.1 w.2.2.1 w.2.2.2) image

/-- The (R,G,B) bytes of pixel `i` of an RGBA buffer. -/
def pixel_rgb (image : List Nat) (i : Nat) : Nat × Nat × Nat :=
  (byte_at image (4 * i), byte_at image (4 * i + 1), byte_at image (4 * i + 2))

/-- The colour of a centroid converted to bytes. -/
def MT.byte_colour (c : MT.Centroid) : Nat × Nat × Nat :=
  (to_uchar c.r, to_uchar c.g, to_uchar c.b)

/-- The colour of a centroid converted to bytes. -/
def ST.byte_colour (c : ST.Centroid) : Nat × Nat × Nat :=
  (to_uchar c.c0, to_uchar c.c1, to_uchar c.c2)

/-- The stores of the final loop of the multi-threaded `kmeans`, in order. -/
def MT.writes (options : MT.QuantizeOptions) (centroids : List MT.Centroid)
    (clusters : List Int) : List (Nat × ℚ × ℚ × ℚ) :=
  (List.range options.image_len).map (fun i =>
    (point_off i, (MT.centroid_at_int centroids (clusters.getD i 0)).r,
      (MT.centroid_at_int centroids (clusters.getD i 0)).g,
      (MT.centroid_at_int centroids (clusters.getD i 0)).b))

/-- The stores of the final loops of the single-threaded `kmeans`, in order. -/
def ST.writes (options : ST.QuantizeOptions) (centroids : List ST.Centroid)
    (clusters : List (List Nat)) : List (Nat × ℚ × ℚ × ℚ) :=
  (List.range options.cluster_count).flatMap (fun j =>
    (clusters.getD j []).map (fun point =>
      (point, (ST.centroid_at centroids j).c0, (ST.centroid_at centroids j).c1,
        (ST.centroid_at centroids j).c2)))

/-- A run on five grey RGBA pixels with three clusters and two worker threads. -/
def grey_mt_options : MT.QuantizeOptions :=
  { image := [0, 0, 0, 255, 1, 1, 1, 255, 1, 1, 1, 255, 100, 100, 100, 255, 200, 200, 200, 255],
    image_len := 5, cluster_count := 3, iteration_limit := 10, thread_count := 2 }

/-- The same run for the single-threaded variant. -/
def grey_st_options : ST.QuantizeOptions :=
  { image := [0, 0, 0, 255, 1, 1, 1, 255, 1, 1, 1, 255, 100, 100, 100, 255, 200, 200, 200, 255],
    image_len := 5, cluster_count := 3, iteration_limit := 10 }

/-- Initial centroids of the grey run: the colours of pixels 1, 3 and 4. -/
def grey_mt_centroids : List MT.Centroid :=
  [⟨0, 1, 1, 1, 0, 0, 0⟩, ⟨0, 100, 100, 100, 0, 0, 0⟩, ⟨0, 200, 200, 200, 0, 0, 0⟩]

/-- Initial centroids of the grey run, single-threaded variant. -/
def grey_st_centroids : List ST.Centroid := [⟨1, 1, 1⟩, ⟨100, 100, 100⟩, ⟨200, 200, 200⟩]

/-- Initial content of the array `clusters` in the grey run. -/
def grey_clusters0 : List Int := [0, 0, 0, 0, 0]

/-- The grey run with a single worker thread instead of two. -/
def grey_mt_options_single : MT.QuantizeOptions :=
  { image := [0, 0, 0, 255, 1, 1, 1, 255, 1, 1, 1, 255, 100, 100, 100, 255, 200, 200, 200, 255],
    image_len := 5, cluster_count := 3, iteration_limit := 10, thread_count := 1 }

/-! ## Initialisation of the centroids -/

/-- Wrap-around of a value into the range of `int` (two's complement, 32
bits). -/
def int32 (z : Int) : Int := (z + 2147483648) % 4294967296 - 2147483648

/-- Conversion `static_cast<int>(q)` of a float: truncation toward zero (the
value is kept modulo 2^32 where it does not fit in an `int`). -/
def float_to_int (q : ℚ) : Int := int32 (truncf q)

/-- Read of `image[i]` by an `int` index. -/
def byte_at_int (image : List Nat) (i : Int) : Nat :=
  if 0 ≤ i then byte_at image i.toNat else 0

/-- The value `randIndex` of `init_centroids`,
`static_cast<int>(4 * (1.0f * std::rand() / RAND_MAX) * (options.image_len - 1))`,
for the value `rand_value` returned by `std::rand()`; `image_len - 1` is
computed in `unsigned int`. -/
def rand_index (rand_max rand_value image_len : Nat) : Int :=
  float_to_int (4 * (1 * (rand_value : ℚ) / (rand_max : ℚ)) *
    ((u32 (image_len + 4294967295) : Nat) : ℚ))

/-- The function `init_centroids` of the multi-threaded variant; `rand i` is
the value returned by the call of `std::rand()` for centroid `i`.  The members
not named in the initialiser (`count`, `prev_r`, `prev_g`, `prev_b`) are
zero. -/
def MT.init_centroids (options : MT.QuantizeOptions) (rand_max : Nat) (rand : Nat → Nat) :
    List MT.Centroid :=
  (List.range options.cluster_count).map (fun i =>
    let randIndex := rand_index rand_max (rand i) options.image_len
    { count := 0,
      r := (byte_at_int options.image randIndex : ℚ),
      g := (byte_at_int options.image (randIndex + 1) : ℚ),
      b := (byte_at_int options.image (randIndex + 2) : ℚ),
      prev_r := 0, prev_g := 0, prev_b := 0 })

/-- The function `init_centroids` of the single-threaded variant.  Each
centroid is allocated as `new float[options.cluster_count]` with three
initialisers: with fewer than three clusters the first allocation throws
`std::bad_array_new_length`, which is the result `none`. -/
def ST.init_centroids (options : ST.QuantizeOptions) (rand_max : Nat) (rand : Nat → Nat) :
    Option (List ST.Centroid) :=
  if 0 < options.cluster_count ∧ options.cluster_count < 3 then none
  else
    some ((List.range options.cluster_count).map (fun i =>
      let randIndex := rand_index rand_max (rand i) options.image_len
      { c0 := (byte_at_int options.image randIndex : ℚ),
        c1 := (byte_at_int options.image (randIndex + 1) : ℚ),
        c2 := (byte_at_int options.image (randIndex + 2) : ℚ) }))

/-- The function `kmeans` of the multi-threaded variant with its call of
`init_centroids`. -/
def MT.kmeans_with_init (options : MT.QuantizeOptions) (rand_max : Nat) (rand : Nat → Nat)
    (clusters0 : List Int) : MT.Result :=
  MT.kmeans options (MT.init_centroids options rand_max rand) clusters0

/-- The function `kmeans` of the single-threaded variant with its call of
`init_centroids`; `none` when `init_centroids` throws. -/
def ST.kmeans_with_init (options : ST.QuantizeOptions) (rand_max : Nat) (rand : Nat → Nat) :
    Option ST.Result :=
  (ST.init_centroids options rand_max rand).map (ST.kmeans options)

/-! ## Further definitions used by the statements and proofs -/

/-- A buffer of two RGBA pixels whose bytes are all different, with three
clusters. -/
def two_pixel_mt_options : MT.QuantizeOptions :=
  { image := [10, 20, 30, 40, 50, 60, 70, 80], image_len := 2, cluster_count := 3,
    iteration_limit := 10, thread_count := 2 }

/-- The same buffer for the single-threaded variant. -/
def two_pixel_st_options : ST.QuantizeOptions :=
  { image := [10, 20, 30, 40, 50, 60, 70, 80], image_len := 2, cluster_count := 3,
    iteration_limit := 10 }

/-- Centroids of the example run whose first centroid is black. -/
def black_mt_centroids : List MT.Centroid :=
  [⟨0, 0, 0, 0, 0, 0, 0⟩, ⟨0, 9, 9, 9, 0, 0, 0⟩]

/-- The same centroids for the single-threaded variant. -/
def black_st_centroids : List ST.Centroid := [⟨0, 0, 0⟩, ⟨9, 9, 9⟩]

/-- An empty configuration of the multi-threaded variant: no pixel, no cluster,
one worker thread, one iteration allowed. -/
def empty_mt_options : MT.QuantizeOptions :=
  { image := [], image_len := 0, cluster_count := 0, iteration_limit := 1, thread_count := 1 }

/-- An empty configuration of the single-threaded variant. -/
def empty_st_options : ST.QuantizeOptions :=
  { image := [], image_len := 0, cluster_count := 0, iteration_limit := 1 }

/-- The grey run with an iteration limit of 1. -/
def grey_mt_options_limit1 : MT.QuantizeOptions :=
  { image := [0, 0, 0, 255, 1, 1, 1, 255, 1, 1, 1, 255, 100, 100, 100, 255, 200, 200, 200, 255],
    image_len := 5, cluster_count := 3, iteration_limit := 1, thread_count := 2 }

/-- The grey run with an iteration limit of 1, single-threaded variant. -/
def grey_st_options_limit1 : ST.QuantizeOptions :=
  { image := [0, 0, 0, 255, 1, 1, 1, 255, 1, 1, 1, 255, 100, 100, 100, 255, 200, 200, 200, 255],
    image_len := 5, cluster_count := 3, iteration_limit := 1 }

/-- Three RGBA pixels (0,0,0), (1,1,1), (1,1,1) with a single cluster. -/
def single_mt_options : MT.QuantizeOptions :=
  { image := [0, 0, 0, 255, 1, 1, 1, 255, 1, 1, 1, 255], image_len := 3, cluster_count := 1,
    iteration_limit := 10, thread_count := 2 }

/-- The same run with an iteration limit of 1. -/
def single_mt_options_limit1 : MT.QuantizeOptions :=
  { image := [0, 0, 0, 255, 1, 1, 1, 255, 1, 1, 1, 255], image_len := 3, cluster_count := 1,
    iteration_limit := 1, thread_count := 2 }

/-- The colour of a centroid of the multi-threaded variant as a centroid of the
single-threaded variant. -/
def MT.colour (c : MT.Centroid) : ST.Centroid := { c0 := c.r, c1 := c.g, c2 := c.b }

/-- The options of the single-threaded variant for the same input. -/
def MT.single_threaded (o : MT.QuantizeOptions) : ST.QuantizeOptions :=
  { image := o.image, image_len := o.image_len, cluster_count := o.cluster_count,
    iteration_limit := o.iteration_limit }

/-- The cluster vectors of the single-threaded variant that hold the same
assignment as the array `clusters` of the multi-threaded variant. -/
def MT.cluster_vectors (o : MT.QuantizeOptions) (clusters : List Int) : List (List Nat) :=
  (List.range o.cluster_count).map (fun j => (MT.members o clusters j).map point_off)

/-- Two option records of the multi-threaded variant with the same pixel and
cluster counts whose buffers hold the same R, G and B bytes; the fourth byte of
a pixel, the limit and the thread count may differ. -/
def MT.same_rgb (o o' : MT.QuantizeOptions) : Prop :=
  o'.image_len = o.image_len ∧ o'.cluster_count = o.cluster_count ∧
    ∀ i c, i < o.image_len → c < 3 →
      byte_at o'.image (4 * i + c) = byte_at o.image (4 * i + c)

/-- The image of four RGBA pixels with the colours (0,0,0), (0,0,0),
(255,255,255), (255,255,255), fully opaque, with two clusters, an iteration
limit of 3 and one worker thread. -/
def two_tone_mt_options : MT.QuantizeOptions :=
  { image := [0, 0, 0, 255, 0, 0, 0, 255, 255, 255, 255, 255, 255, 255, 255, 255],
    image_len := 4, cluster_count := 2, iteration_limit := 3, thread_count := 1 }

/-- Two initial centroids with the grey colours `(x,x,x)` and `(y,y,y)`, as
`init_centroids` stores them (count and previous colour zero). -/
def two_tone_centroids (x y : ℚ) : List MT.Centroid :=
  [⟨0, x, x, x, 0, 0, 0⟩, ⟨0, y, y, y, 0, 0, 0⟩]

/-- Initial content of the array `clusters` in the runs on the two-tone image. -/
def two_tone_clusters0 : List Int := [0, 0, 0, 0]

/-- The clustering cost of the multi-threaded variant: the sum over the pixels
of the squared (R,G,B) distance between the pixel and the centroid that the
array `clusters` assigns it to. -/
def MT.cost (options : MT.QuantizeOptions) (centroids : List MT.Centroid)
    (clusters : List Int) : ℚ :=
  ((List.range options.image_len).map (fun i =>
    sq_dist (MT.centroid_at_int centroids (clusters.getD i 0)).r
      (MT.centroid_at_int centroids (clusters.getD i 0)).g
      (MT.centroid_at_int centroids (clusters.getD i 0)).b options.image (4 * i))).sum

/-- The clustering cost of the single-threaded variant: the sum over the
cluster vectors of the squared (R,G,B) distances between the pixels a vector
points to and the centroid of the vector. -/
def ST.cost (options : ST.QuantizeOptions) (centroids : List ST.Centroid)
    (clusters : List (List Nat)) : ℚ :=
  ((List.range options.cluster_count).map (fun j =>
    ((clusters.getD j []).map (fun point =>
      sq_dist (ST.centroid_at centroids j).c0 (ST.centroid_at centroids j).c1
        (ST.centroid_at centroids j).c2 options.image point)).sum)).sum

/-! ## Binary32 arithmetic -/

/-- The power `2 ^ e` for an integer exponent. -/
def pow2 (e : Int) : ℚ :=
  if 0 ≤ e then ((2 ^ e.toNat : Nat) : ℚ) else 1 / ((2 ^ (-e).toNat : Nat) : ℚ)

/-- Number of halvings that bring `n` below 2, at most `fuel` of them. -/
def halvings : Nat → Nat → Nat
  | 0, _ => 0
  | fuel + 1, n => if 2 ≤ n then halvings fuel (n / 2) + 1 else 0

/-- The integer part of the binary logarithm of `n ≥ 1`. -/
def nat_log2 (n : Nat) : Nat := halvings n n

/-- The integer `k` with `2 ^ k ≤ |q| < 2 ^ (k + 1)`, for `q ≠ 0`. -/
def floor_log2 (q : ℚ) : Int :=
  if pow2 ((nat_log2 q.num.natAbs : Int) - (nat_log2 q.den : Int)) ≤ |q| then
    (nat_log2 q.num.natAbs : Int) - (nat_log2 q.den : Int)
  else (nat_log2 q.num.natAbs : Int) - (nat_log2 q.den : Int) - 1

/-- Rounding of a rational to the nearest integer, a tie going to the even
integer. -/
def round_half_even (x : ℚ) : Int :=
  if x - (⌊x⌋ : ℚ) < 1 / 2 then ⌊x⌋
  else if 1 / 2 < x - (⌊x⌋ : ℚ) then ⌊x⌋ + 1
  else if ⌊x⌋ % 2 = 0 then ⌊x⌋ else ⌊x⌋ + 1

/-- The exponent of the unit in the last place of the binary32 numbers of the
magnitude of `q`: 24 significant bits, and 2^-149 in the subnormal range. -/
def f32_exponent (q : ℚ) : Int := max (floor_log2 q - 23) (-149)

/-- Rounding to binary32 (IEEE 754 single precision, round to nearest, ties to
even): the value of a `float` operation whose exact result is `q`.  Overflow is
not modelled: the result is the one of the program for `|q| < 2^128`. -/
def f32 (q : ℚ) : ℚ :=
  if q = 0 then 0
  else (round_half_even (q / pow2 (f32_exponent q)) : ℚ) * pow2 (f32_exponent q)

/-- Bit-by-bit integer square root: the bits below position `bits` are added
to `acc` as long as the square stays at most `n`. -/
def isqrt_bits (n : Nat) : Nat → Nat → Nat
  | 0, acc => acc
  | bits + 1, acc =>
    if (acc + 2 ^ bits) * (acc + 2 ^ bits) ≤ n then isqrt_bits n bits (acc + 2 ^ bits)
    else isqrt_bits n bits acc

/-- The integer part of the square root of `n`. -/
def isqrt (n : Nat) : Nat := isqrt_bits n (nat_log2 n / 2 + 1) 0

/-- The binary32 `sqrt`: the square root of `q ≥ 0` rounded to binary32 (round
to nearest, ties to even), for `q` zero or at least 2^-149. -/
def f32_sqrt (q : ℚ) : ℚ :=
  if q ≤ 0 then 0
  else
    let e : Int := floor_log2 q / 2 - 23
    let s : ℚ := q / pow2 (2 * e)
    let m : Nat := isqrt ⌊s⌋.toNat
    let half : ℚ := (m : ℚ) + 1 / 2
    let rounded : Nat :=
      if s < half * half then m
      else if half * half < s then m + 1
      else if m % 2 = 0 then m else m + 1
    (rounded : ℚ) * pow2 e

/-- The binary32 division `a / b` of two finite floats: the rounded quotient,
an infinity or NaN for a zero divisor. -/
def f32_div (a b : ℚ) : FloatX :=
  if b = 0 then
    if a = 0 then FloatX.nan else if 0 < a then FloatX.pinf else FloatX.ninf
  else FloatX.fin (f32 (a / b))

/-- One channel test of the convergence check of `update_centroids`,
`abs((new - prev) / prev) > threshold`, in binary32. -/
def f32_rel_change_exceeds (new prev threshold : ℚ) : Bool :=
  FloatX.gt (FloatX.abs (f32_div (f32 (new - prev)) prev)) threshold

/-- The sum of one channel (0, 1 or 2) over the pixels with the given indices,
accumulated in binary32 in the order of the list, from `acc`. -/
def f32_total (image : List Nat) (pixels : List Nat) (channel : Nat) (acc : ℚ) : ℚ :=
  pixels.foldl (fun acc i => f32 (acc + (byte_at image (4 * i + channel) : ℚ))) acc

/-! ## The multi-threaded variant in binary32 arithmetic -/

/-- The function `distance_from_centroid` with every `float` operation rounded
to binary32. -/
def MTF.distance_from_centroid (centroid : MT.Centroid) (image : List Nat) (point : Nat) : ℚ :=
  let r : ℚ := byte_at image point
  let g : ℚ := byte_at image (point + 1)
  let b : ℚ := byte_at image (point + 2)
  f32_sqrt (f32 (f32 (f32 (f32 (centroid.r - r) * f32 (centroid.r - r)) +
      f32 (f32 (centroid.g - g) * f32 (centroid.g - g))) +
    f32 (f32 (centroid.b - b) * f32 (centroid.b - b))))

/-- One iteration of the loop over `centroid_idx` in `chunk`; the state is
`(min_distance, min_idx)`. -/
def MTF.min_step (centroids : List MT.Centroid) (image : List Nat) (point : Nat)
    (st : ℚ × Int) (centroid_idx : Nat) : ℚ × Int :=
  let distance := MTF.distance_from_centroid (MT.centroid_at centroids centroid_idx) image point
  if st.2 < 0 || decide (distance < st.1) then (distance, to_int centroid_idx) else st

/-- The value `min_idx` that `chunk` stores in `clusters[point_idx]`. -/
def MTF.chunk_min_idx (options : MT.QuantizeOptions) (centroids : List MT.Centroid)
    (point_idx : Nat) : Int :=
  ((List.range options.cluster_count).foldl
    (MTF.min_step centroids options.image (point_off point_idx)) (-1, -1)).2

/-- One activation of the worker `thread_id` in `chunk`. -/
def MTF.chunk (thread_id : Nat) (options : MT.QuantizeOptions) (centroids : List MT.Centroid)
    (clusters : List Int) : List Int :=
  (MT.chunk_points thread_id options).foldl
    (fun clusters point_idx => clusters.set point_idx (MTF.chunk_min_idx options centroids point_idx))
    clusters

/-- The assignment phase of one iteration of `kmeans`. -/
def MTF.assignment_phase (options : MT.QuantizeOptions) (centroids : List MT.Centroid)
    (clusters : List Int) : List Int :=
  (List.range options.thread_count).foldl
    (fun clusters thread_id => MTF.chunk thread_id options centroids clusters) clusters

/-- Second loop of `update_centroids`, for one pixel: `r += point[0]` and so
on, each sum rounded to binary32. -/
def MTF.accumulate (options : MT.QuantizeOptions) (clusters : List Int)
    (centroids : List MT.Centroid) (i : Nat) : List MT.Centroid :=
  let point := point_off i
  let centroid_idx := clusters.getD i 0
  modify_at_int centroids centroid_idx (fun c =>
    { c with r := f32 (c.r + (byte_at options.image point : ℚ)),
             g := f32 (c.g + (byte_at options.image (point + 1) : ℚ)),
             b := f32 (c.b + (byte_at options.image (point + 2) : ℚ)),
             count := c.count + 1 })

/-- Third loop of `update_centroids`, the division `r /= count` under the
guard `count > 0`: the count is converted to `float`, the quotient rounded. -/
def MTF.divide (c : MT.Centroid) : MT.Centroid :=
  if c.count > 0 then
    { c with r := f32 (c.r / f32 (c.count : ℚ)), g := f32 (c.g / f32 (c.count : ℚ)),
             b := f32 (c.b / f32 (c.count : ℚ)) }
  else c

/-- Third loop of `update_centroids`, the test of centroid `c` against the
threshold. -/
def MTF.exceeds (threshold : ℚ) (c : MT.Centroid) : Bool :=
  f32_rel_change_exceeds c.r c.prev_r threshold ||
    f32_rel_change_exceeds c.g c.prev_g threshold ||
    f32_rel_change_exceeds c.b c.prev_b threshold

/-- One iteration of the third loop of `update_centroids`. -/
def MTF.finish_step (threshold : ℚ) (st : List MT.Centroid × Bool) (i : Nat) :
    List MT.Centroid × Bool :=
  let centroids := st.1.modify MTF.divide i
  if st.2 then (centroids, st.2)
  else if MTF.exceeds threshold (MT.centroid_at centroids i) then (centroids, true)
  else (centroids, st.2)

/-- The function `update_centroids` in binary32; the threshold is the `float`
constant `0.01f`. -/
def MTF.update_centroids (centroids : List MT.Centroid) (clusters : List Int)
    (options : MT.QuantizeOptions) : List MT.Centroid × Bool :=
  let threshold : ℚ := f32 (1 / 100)
  let centroids := (List.range options.cluster_count).foldl
    (fun centroids i => centroids.modify MT.reset i) centroids
  let centroids := (List.range options.image_len).foldl (MTF.accumulate options clusters) centroids
  (List.range options.cluster_count).foldl (MTF.finish_step threshold) (centroids, false)

/-- One pass of the k-means loop in binary32. -/
def MTF.pass (options : MT.QuantizeOptions) (centroids : List MT.Centroid) (clusters : List Int) :
    (List MT.Centroid × List Int) × Bool :=
  let clusters := MTF.assignment_phase options centroids clusters
  let upd := MTF.update_centroids centroids clusters options
  ((upd.1, clusters), upd.2)

/-- The k-means loop of `kmeans` in binary32. -/
def MTF.kmeans_loop (options : MT.QuantizeOptions) : Nat → Nat → MT.LoopState → MT.LoopState
  | 0, _, s => s
  | remaining + 1, iteration, s =>
    let p := MTF.pass options s.centroids s.clusters
    let anyChanged := p.2
    if !anyChanged then
      { centroids := p.1.1, clusters := p.1.2, converged := true,
        last_iteration := iteration + 1, trace := s.trace ++ [anyChanged] }
    else
      MTF.kmeans_loop options remaining (iteration + 1)
        { centroids := p.1.1, clusters := p.1.2, converged := s.converged,
          last_iteration := s.last_iteration, trace := s.trace ++ [anyChanged] }

/-- The function `kmeans` in binary32, from the centroids produced by
`init_centroids` and the initial content of the array `clusters`. -/
def MTF.kmeans (options : MT.QuantizeOptions) (centroids0 : List MT.Centroid)
    (clusters0 : List Int) : MT.Result :=
  let s := MTF.kmeans_loop options options.iteration_limit 0
    { centroids := centroids0, clusters := clusters0, converged := false,
      last_iteration := 0, trace := [] }
  if !s.converged then
    { outcome := Outcome.did_not_converge, image := options.image, centroids := s.centroids,
      clusters := s.clusters, trace := s.trace }
  else
    { outcome := Outcome.returned s.last_iteration,
      image := MT.write_back options s.centroids s.clusters,
      centroids := s.centroids, clusters := s.clusters, trace := s.trace }

/-! ## The single-threaded variant in binary32 arithmetic -/

/-- The function `distance_from_centroid` with every `float` operation rounded
to binary32. -/
def STF.distance_from_centroid (centroid : ST.Centroid) (image : List Nat) (point : Nat) : ℚ :=
  let r : ℚ := byte_at image point
  let g : ℚ := byte_at image (point + 1)
  let b : ℚ := byte_at image (point + 2)
  f32 (f32 (f32 (f32 (centroid.c0 - r) * f32 (centroid.c0 - r)) +
      f32 (f32 (centroid.c1 - g) * f32 (centroid.c1 - g))) +
    f32 (f32 (centroid.c2 - b) * f32 (centroid.c2 - b)))

/-- One iteration of the loop over `centroid_idx` in `kmeans`. -/
def STF.min_step (centroids : List ST.Centroid) (image : List Nat) (point : Nat)
    (st : ℚ × Int) (centroid_idx : Nat) : ℚ × Int :=
  let distance := STF.distance_from_centroid (ST.centroid_at centroids centroid_idx) image point
  if st.2 < 0 || decide (distance < st.1) then (distance, to_int centroid_idx) else st

/-- The value `min_idx` computed by `kmeans` for the pixel `point_idx`. -/
def STF.kmeans_min_idx (options : ST.QuantizeOptions) (centroids : List ST.Centroid)
    (point_idx : Nat) : Int :=
  ((List.range options.cluster_count).foldl
    (STF.min_step centroids options.image (point_off point_idx)) (-1, -1)).2

/-- The loop over `point_idx` in `kmeans`. -/
def STF.assign_points (options : ST.QuantizeOptions) (centroids : List ST.Centroid)
    (clusters : List (List Nat)) : List (List Nat) :=
  (List.range options.image_len).foldl
    (fun clusters point_idx =>
      let point := point_off point_idx
      let min_idx := STF.kmeans_min_idx options centroids point_idx
      modify_at_int clusters min_idx (fun v => v ++ [point]))
    clusters

/-- The sum of one channel over the pixels of a cluster vector, `new_r += ...`
with every sum rounded to binary32. -/
def STF.channel_sum (image : List Nat) (members : List Nat) (channel : Nat) : ℚ :=
  members.foldl (fun acc point => f32 (acc + (byte_at image (point + channel) : ℚ))) 0

/-- The new value of one channel in `update_centroids`: the sum, divided by
the size of the cluster vector (converted to `float`) under the guard
`size() > 0`. -/
def STF.new_channel (image : List Nat) (members : List Nat) (channel : Nat) : ℚ :=
  if members.length > 0 then
    f32 (STF.channel_sum image members channel / f32 (members.length : ℚ))
  else STF.channel_sum image members channel

/-- One iteration of the loop over `i` in `update_centroids`. -/
def STF.update_step (options : ST.QuantizeOptions) (clusters : List (List Nat)) (threshold : ℚ)
    (st : List ST.Centroid × Bool) (i : Nat) : List ST.Centroid × Bool :=
  let old := ST.centroid_at st.1 i
  let members := clusters.getD i []
  let new_r := STF.new_channel options.image members 0
  let new_g := STF.new_channel options.image members 1
  let new_b := STF.new_channel options.image members 2
  let centroids := st.1.set i { c0 := new_r, c1 := new_g, c2 := new_b }
  (centroids, st.2 || f32_rel_change_exceeds new_r old.c0 threshold ||
    f32_rel_change_exceeds new_g old.c1 threshold ||
    f32_rel_change_exceeds new_b old.c2 threshold)

/-- The function `update_centroids` in binary32; the threshold is the `float`
constant `0.01f`. -/
def STF.update_centroids (centroids : List ST.Centroid) (clusters : List (List Nat))
    (options : ST.QuantizeOptions) : List ST.Centroid × Bool :=
  let threshold : ℚ := f32 (1 / 100)
  (List.range options.cluster_count).foldl (STF.update_step options clusters threshold)
    (centroids, false)

/-! ## Definitions used by the statements and proofs about binary32 arithmetic -/

/-- Six grey RGBA pixels 18, 65, 52, 74, 168, 13 with two clusters. -/
def six_grey_mt_options : MT.QuantizeOptions :=
  { image := [18, 18, 18, 255, 65, 65, 65, 255, 52, 52, 52, 255, 74, 74, 74, 255,
      168, 168, 168, 255, 13, 13, 13, 255],
    image_len := 6, cluster_count := 2, iteration_limit := 10, thread_count := 2 }

/-- The same six grey pixels for the single-threaded variant. -/
def six_grey_st_options : ST.QuantizeOptions :=
  { image := [18, 18, 18, 255, 65, 65, 65, 255, 52, 52, 52, 255, 74, 74, 74, 255,
      168, 168, 168, 255, 13, 13, 13, 255],
    image_len := 6, cluster_count := 2, iteration_limit := 10 }

/-- Six grey RGBA pixels 183, 25, 72, 108, 57, 203 with two clusters. -/
def second_grey_mt_options : MT.QuantizeOptions :=
  { image := [183, 183, 183, 255, 25, 25, 25, 255, 72, 72, 72, 255, 108, 108, 108, 255,
      57, 57, 57, 255, 203, 203, 203, 255],
    image_len := 6, cluster_count := 2, iteration_limit := 10, thread_count := 2 }

/-- The centroids of the run on the pixels 183, 25, 72, 108, 57, 203 from the
initial colours 183 and 25, after the first pass in binary32: the floats
nearest to 494/3 and 154/3. -/
def second_grey_mt_centroids : List MT.Centroid :=
  [⟨3, 10791595 / 65536, 10791595 / 65536, 10791595 / 65536, 183, 183, 183⟩,
    ⟨3, 13456725 / 262144, 13456725 / 262144, 13456725 / 262144, 25, 25, 25⟩]

/-- Five grey RGBA pixels 20, 20, 20, 20, 21 with one cluster. -/
def five_grey_mt_options : MT.QuantizeOptions :=
  { image := [20, 20, 20, 255, 20, 20, 20, 255, 20, 20, 20, 255, 20, 20, 20, 255,
      21, 21, 21, 255],
    image_len := 5, cluster_count := 1, iteration_limit := 10, thread_count := 2 }

/-- The update of a centroid by the pixel `i` in the second loop of
`update_centroids`, in binary32. -/
def MTF.add_pixel (options : MT.QuantizeOptions) (i : Nat) (c : MT.Centroid) : MT.Centroid :=
  { c with r := f32 (c.r + (byte_at options.image (point_off i) : ℚ)),
           g := f32 (c.g + (byte_at options.image (point_off i + 1) : ℚ)),
           b := f32 (c.b + (byte_at options.image (point_off i + 2) : ℚ)),
           count := c.count + 1 }

/-- Closed form of the centroid `j` after `update_centroids` in binary32, from
the centroid `c` before the update: the channel sums accumulated in binary32
over the assigned pixels in increasing order, then the guarded division. -/
def MTF.updated (options : MT.QuantizeOptions) (clusters : List Int) (c : MT.Centroid) (j : Nat) :
    MT.Centroid :=
  MTF.divide
    { count := (MT.members options clusters j).length,
      r := f32_total options.image (MT.members options clusters j) 0 0,
      g := f32_total options.image (MT.members options clusters j) 1 0,
      b := f32_total options.image (MT.members options clusters j) 2 0,
      prev_r := c.r, prev_g := c.g, prev_b := c.b }

/-- Closed form of the centroid `j` after `update_centroids` in binary32,
single-threaded variant. -/
def STF.updated (options : ST.QuantizeOptions) (clusters : List (List Nat)) (j : Nat) :
    ST.Centroid :=
  { c0 := STF.new_channel options.image (clusters.getD j []) 0,
    c1 := STF.new_channel options.image (clusters.getD j []) 1,
    c2 := STF.new_channel options.image (clusters.getD j []) 2 }

/-- The test of `update_centroids` for one centroid in binary32, between its
new and its old colour. -/
def STF.exceeds (threshold : ℚ) (new old : ST.Centroid) : Bool :=
  f32_rel_change_exceeds new.c0 old.c0 threshold ||
    f32_rel_change_exceeds new.c1 old.c1 threshold ||
    f32_rel_change_exceeds new.c2 old.c2 threshold

/-- Initial centroids of the run on the six grey pixels: the colours of pixels
3 and 2. -/
def six_grey_mt_centroids0 : List MT.Centroid :=
  [⟨0, 74, 74, 74, 0, 0, 0⟩, ⟨0, 52, 52, 52, 0, 0, 0⟩]

/-- The centroids of the run on the six grey pixels after the first pass in
binary32: the floats nearest to 307/3 and 83/3. -/
def six_grey_mt_centroids : List MT.Centroid :=
  [⟨3, 13413035 / 131072, 13413035 / 131072, 13413035 / 131072, 74, 74, 74⟩,
    ⟨3, 14505301 / 524288, 14505301 / 524288, 14505301 / 524288, 52, 52, 52⟩]

/-- The same centroids for the single-threaded variant. -/
def six_grey_st_centroids : List ST.Centroid :=
  [⟨13413035 / 131072, 13413035 / 131072, 13413035 / 131072⟩,
    ⟨14505301 / 524288, 14505301 / 524288, 14505301 / 524288⟩]

/-- A channel value that is a binary32 number in the range [0,255] of a
colour. -/
def f32_channel (x : ℚ) : Prop := f32 x = x ∧ 0 ≤ x ∧ x ≤ 255

instance (x : ℚ) : Decidable (f32_channel x) := by
  unfold f32_channel
  infer_instance

/-- Every centroid holds a colour whose channels are binary32 numbers in
[0,255]. -/
def MT.f32_colours (centroids : List MT.Centroid) : Prop :=
  ∀ c ∈ centroids, f32_channel c.r ∧ f32_channel c.g ∧ f32_channel c.b

instance (centroids : List MT.Centroid) : Decidable (MT.f32_colours centroids) := by
  unfold MT.f32_colours
  infer_instance

/-- Every centroid holds a colour whose channels are binary32 numbers in
[0,255]. -/
def ST.f32_colours (centroids : List ST.Centroid) : Prop :=
  ∀ c ∈ centroids, f32_channel c.c0 ∧ f32_channel c.c1 ∧ f32_channel c.c2

instance (centroids : List ST.Centroid) : Decidable (ST.f32_colours centroids) := by
  unfold ST.f32_colours
  infer_instance

/-- The five grey pixels 20, 20, 20, 20, 21 for the single-threaded variant. -/
def five_grey_st_options : ST.QuantizeOptions :=
  { image := [20, 20, 20, 255, 20, 20, 20, 255, 20, 20, 20, 255, 20, 20, 20, 255,
      21, 21, 21, 255],
    image_len := 5, cluster_count := 1, iteration_limit := 10 }

/-- The centroid of a single-cluster run after one update in binary32, from
the centroid `c` before it: every channel is the binary32 quotient of the sum
of the channel over all pixels, accumulated in binary32 in pixel order, by the
pixel count converted to `float`; the old colour is in `prev_*`. -/
def MTF.mean_centroid (options : MT.QuantizeOptions) (c : MT.Centroid) : MT.Centroid :=
  { count := options.image_len,
    r := f32 (f32_total options.image (List.range options.image_len) 0 0 /
      f32 (options.image_len : ℚ)),
    g := f32 (f32_total options.image (List.range options.image_len) 1 0 /
      f32 (options.image_len : ℚ)),
    b := f32 (f32_total options.image (List.range options.image_len) 2 0 /
      f32 (options.image_len : ℚ)),
    prev_r := c.r, prev_g := c.g, prev_b := c.b }

/-- The convergence test of the first update of a single-cluster run in
binary32: for some channel, `abs((mean - initial) / initial) > 0.01f`, where
`mean` is the channel of `mean_centroid` and `initial` the one of the initial
centroid `c`. -/
def MTF.first_update_changes (options : MT.QuantizeOptions) (c : MT.Centroid) : Bool :=
  MTF.exceeds (f32 (1 / 100)) (MTF.mean_centroid options c)

/-! ## Theorems -/

theorem foldl_congr_mem {α β : Type} (f g : α → β → α) (l : List β)
    (h : ∀ s, ∀ x ∈ l, f s x = g s x) (s : α) : l.foldl f s = l.foldl g s := by
  induction l generalizing s with
  | nil => rfl
  | cons x xs ih =>
    simp only [List.foldl_cons]
    rw [h s x (List.mem_cons_self _ _)]
    exact ih (fun s y hy => h s y (List.mem_cons_of_mem _ hy)) _

theorem arg_fold_spec (key : Nat → ℚ) (n : Nat) :
    ((List.range (n + 1)).foldl (arg_step key) (-1, -1)).1 =
        key ((List.range (n + 1)).foldl (arg_step key) (-1, -1)).2.toNat ∧
      IsLowestArgmin key (n + 1) ((List.range (n + 1)).foldl (arg_step key) (-1, -1)).2 := by
  induction n with
  | zero =>
    simp [List.range_succ, arg_step, IsLowestArgmin]
  | succ n ih =>
    rw [List.range_succ, List.foldl_append]
    obtain ⟨h1, h0, hlt, hmin, hlow⟩ := ih
    generalize (List.range (n + 1)).foldl (arg_step key) (-1, -1) = st at *
    obtain ⟨d, m⟩ := st
    simp only at h1 h0 hlt hmin hlow
    simp only [List.foldl_cons, List.foldl_nil, arg_step]
    have hm : ¬ m < 0 := by omega
    by_cases hk : key (n + 1) < d
    · simp only [hm, hk, decide_True, decide_False, Bool.false_or, if_true]
      refine ⟨by simp, by omega, by push_cast; omega, ?_, ?_⟩
      · intro j hj
        simp only [Int.toNat_ofNat]
        rcases Nat.lt_succ_iff_lt_or_eq.mp hj with h | h
        · have := hmin j h
          rw [← h1] at this
          exact le_of_lt (lt_of_lt_of_le hk this)
        · rw [h]
      · intro j hj
        simp only [Int.toNat_ofNat]
        have hj' : j < n + 1 := by omega
        have := hmin j hj'
        rw [← h1] at this
        exact lt_of_lt_of_le hk this
    · simp only [hm, hk, decide_False, Bool.false_or, if_false]
      refine ⟨h1, h0, by push_cast; omega, ?_, hlow⟩
      intro j hj
      rcases Nat.lt_succ_iff_lt_or_eq.mp hj with h | h
      · exact hmin j h
      · simp only [Bool.false_eq_true, if_false]
        rw [h, ← h1]; exact not_lt.mp hk

theorem to_int_of_lt (j : Nat) (h : j < 2147483648) : to_int j = (j : Int) := by
  have h2 : j % 4294967296 = j := Nat.mod_eq_of_lt (by omega)
  simp [to_int, u32, h2, h]

theorem point_off_of_le (i N : Nat) (hi : i < N) (hN : 4 * N ≤ 4294967296) :
    point_off i = 4 * i := by
  unfold point_off u32
  exact Nat.mod_eq_of_lt (by omega)

theorem ST.min_step_eq_arg_step (centroids : List ST.Centroid) (image : List Nat) (point : Nat)
    (st : ℚ × Int) (j : Nat) (hj : j < 2147483648) :
    ST.min_step centroids image point st j =
      arg_step (fun j => ST.distance_from_centroid (ST.centroid_at centroids j) image point) st j := by
  simp only [ST.min_step, arg_step, to_int_of_lt j hj]

theorem ST.st_min_idx_eq (options : QuantizeOptions) (centroids : List ST.Centroid) (point_idx : Nat)
    (hK : options.cluster_count ≤ 2147483648) :
    ST.kmeans_min_idx options centroids point_idx =
      ((List.range options.cluster_count).foldl
        (arg_step (fun j => ST.distance_from_centroid (ST.centroid_at centroids j) options.image
          (point_off point_idx))) (-1, -1)).2 := by
  unfold ST.kmeans_min_idx
  rw [foldl_congr_mem]
  intro s x hx
  exact ST.min_step_eq_arg_step _ _ _ _ _ (by have := List.mem_range.mp hx; omega)

theorem MT.distance_eq (c : MT.Centroid) (image : List Nat) (point : Nat) :
    MT.distance_from_centroid c image point = FVal.sqrt (sq_dist c.r c.g c.b image point) := by
  simp only [MT.distance_from_centroid, sq_dist]
  congr 1
  ring

theorem sq_dist_nonneg (r g b : ℚ) (image : List Nat) (off : Nat) : 0 ≤ sq_dist r g b image off := by
  unfold sq_dist
  positivity

theorem MT.min_fold_sim (centroids : List MT.Centroid) (image : List Nat) (point : Nat)
    (l : List Nat) (hl : ∀ j ∈ l, j < 2147483648) (s : FVal × Int) (s' : ℚ × Int)
    (h2 : s.2 = s'.2) (h1 : s.2 < 0 ∨ s.1 = FVal.sqrt s'.1) :
    (l.foldl (MT.min_step centroids image point) s).2 =
      (l.foldl (arg_step (MT.radicand centroids image point)) s').2 := by
  induction l generalizing s s' with
  | nil => simpa using h2
  | cons j js ih =>
    simp only [List.foldl_cons]
    have hj := hl j (List.mem_cons_self _ _)
    apply ih (fun x hx => hl x (List.mem_cons_of_mem _ hx))
    · obtain ⟨d, m⟩ := s
      obtain ⟨d', m'⟩ := s'
      simp only at h1 h2
      subst h2
      simp only [MT.min_step, arg_step, MT.distance_eq, to_int_of_lt j hj]
      by_cases hm : m < 0
      · simp [hm]
      · have hd : d = FVal.sqrt d' := by tauto
        subst hd
        have h0 := sq_dist_nonneg (MT.centroid_at centroids j).r (MT.centroid_at centroids j).g
          (MT.centroid_at centroids j).b image point
        simp only [hm, decide_False, Bool.false_or, FVal.lt, h0, true_and, MT.radicand]
        split <;> simp
    · obtain ⟨d, m⟩ := s
      obtain ⟨d', m'⟩ := s'
      simp only at h1 h2
      subst h2
      simp only [MT.min_step, arg_step, MT.distance_eq, to_int_of_lt j hj]
      by_cases hm : m < 0
      · simp [hm, MT.radicand]
      · have hd : d = FVal.sqrt d' := by tauto
        subst hd
        have h0 := sq_dist_nonneg (MT.centroid_at centroids j).r (MT.centroid_at centroids j).g
          (MT.centroid_at centroids j).b image point
        simp only [hm, decide_False, Bool.false_or, FVal.lt, h0, true_and, MT.radicand]
        split <;> simp

theorem MT.min_idx_eq (options : QuantizeOptions) (centroids : List MT.Centroid) (point_idx : Nat)
    (hK : options.cluster_count ≤ 2147483648) :
    MT.chunk_min_idx options centroids point_idx =
      ((List.range options.cluster_count).foldl
        (arg_step (MT.radicand centroids options.image (point_off point_idx))) (-1, -1)).2 := by
  unfold MT.chunk_min_idx
  apply MT.min_fold_sim
  · intro j hj
    have := List.mem_range.mp hj
    omega
  · rfl
  · left; decide

theorem ST.st_distance_eq (c : ST.Centroid) (image : List Nat) (point : Nat) :
    ST.distance_from_centroid c image point = sq_dist c.c0 c.c1 c.c2 image point := by
  simp only [ST.distance_from_centroid, sq_dist]
  ring

theorem foldl_set_length {α : Type} (f : Nat → α) (idxs : List Nat) (l : List α) :
    (idxs.foldl (fun l j => l.set j (f j)) l).length = l.length := by
  induction idxs generalizing l with
  | nil => rfl
  | cons j js ih => simp [ih]

theorem foldl_set_getElem? {α : Type} (f : Nat → α) (idxs : List Nat) (l : List α) (i : Nat) :
    (idxs.foldl (fun l j => l.set j (f j)) l)[i]? =
      if i ∈ idxs then (l[i]?).map (fun _ => f i) else l[i]? := by
  induction idxs generalizing l with
  | nil => simp
  | cons j js ih =>
    simp only [List.foldl_cons, ih, List.mem_cons]
    by_cases hij : i = j
    · subst hij
      by_cases hi : i < l.length
      · simp [List.getElem?_set, hi]
      · have hn : l[i]? = none := List.getElem?_eq_none (by omega)
        simp [List.getElem?_set, hi, hn]
    · have hji : ¬ j = i := fun h => hij h.symm
      by_cases hm : i ∈ js
      · simp [hij, hm, List.getElem?_set, hji]
      · simp [hij, hm, List.getElem?_set, hji]

theorem takeWhile_lt_range' (N n a : Nat) :
    (List.range' a n).takeWhile (fun i => decide (i < N)) = List.range' a (min n (N - a)) := by
  induction n generalizing a with
  | zero => simp
  | succ n ih =>
    rw [List.range'_succ, List.takeWhile_cons]
    by_cases h : a < N
    · simp only [h, decide_True, if_true, ih]
      have : min (n + 1) (N - a) = min n (N - (a + 1)) + 1 := by omega
      rw [this, List.range'_succ]
    · simp only [h, decide_False, Bool.false_eq_true, if_false]
      have : min (n + 1) (N - a) = 0 := by omega
      rw [this]; rfl

theorem MT.points_per_thread_bounds (N T : Nat) (hN : 4 * N ≤ 4294967296) (hT : 1 ≤ T)
    (hT2 : T < 4294967296) :
    u32 (N / T + 1) = N / T + 1 ∧ N < T * (N / T + 1) ∧ T * (N / T + 1) < 4294967296 := by
  have hdiv : N / T ≤ N := Nat.div_le_self N T
  have h1 : u32 (N / T + 1) = N / T + 1 := by
    unfold u32
    exact Nat.mod_eq_of_lt (by omega)
  have h2 : T * (N / T) + N % T = N := Nat.div_add_mod N T
  have h3 : N % T < T := Nat.mod_lt N (by omega)
  have h4 : T * (N / T + 1) = T * (N / T) + T := by ring
  refine ⟨h1, by omega, ?_⟩
  rw [h4]
  have h5 : T * (N / T) ≤ N := Nat.mul_div_le N T
  by_cases hTN : T ≤ N
  · omega
  · have : N / T = 0 := Nat.div_eq_of_lt (by omega)
    rw [this]
    omega

theorem MT.chunk_points_eq (options : QuantizeOptions) (hr : options.in_range)
    (hT : 1 ≤ options.thread_count) (t : Nat) (ht : t < options.thread_count) :
    MT.chunk_points t options =
      List.range' (t * (options.image_len / options.thread_count + 1))
        (min (options.image_len / options.thread_count + 1)
          (options.image_len - t * (options.image_len / options.thread_count + 1))) := by
  obtain ⟨_, hN, _, hT2⟩ := hr
  obtain ⟨hp, _, hlt⟩ := MT.points_per_thread_bounds options.image_len options.thread_count hN hT hT2
  have hle : (t + 1) * (options.image_len / options.thread_count + 1) ≤
      options.thread_count * (options.image_len / options.thread_count + 1) :=
    Nat.mul_le_mul_right _ (by omega)
  have hle2 : t * (options.image_len / options.thread_count + 1) ≤
      (t + 1) * (options.image_len / options.thread_count + 1) :=
    Nat.mul_le_mul_right _ (by omega)
  have hfirst : u32 (t * (options.image_len / options.thread_count + 1)) =
      t * (options.image_len / options.thread_count + 1) := by
    unfold u32
    exact Nat.mod_eq_of_lt (by omega)
  have hlast : u32 ((t + 1) * (options.image_len / options.thread_count + 1)) =
      (t + 1) * (options.image_len / options.thread_count + 1) := by
    unfold u32
    exact Nat.mod_eq_of_lt (by omega)
  simp only [MT.chunk_points, hp, hfirst, hlast, takeWhile_lt_range']
  have : (t + 1) * (options.image_len / options.thread_count + 1) -
      t * (options.image_len / options.thread_count + 1) =
      options.image_len / options.thread_count + 1 := by
    rw [Nat.add_mul, Nat.one_mul]; omega
  rw [this]

theorem MT.chunk_points_lt (options : QuantizeOptions) (t i : Nat)
    (hi : i ∈ MT.chunk_points t options) : i < options.image_len := by
  unfold MT.chunk_points at hi
  simp only [takeWhile_lt_range'] at hi
  rw [List.mem_range'_1] at hi
  omega

theorem MT.cover_arith (N T i : Nat) (hT : 1 ≤ T) (hi : i < N) :
    i / (N / T + 1) < T ∧ i / (N / T + 1) * (N / T + 1) ≤ i ∧
      i < i / (N / T + 1) * (N / T + 1) +
        min (N / T + 1) (N - i / (N / T + 1) * (N / T + 1)) := by
  obtain ⟨p, hp⟩ : ∃ p, p = N / T + 1 := ⟨_, rfl⟩
  rw [← hp]
  have hppos : 0 < p := by rw [hp]; exact Nat.succ_pos _
  have h2 : T * (N / T) + N % T = N := Nat.div_add_mod N T
  have h3 : N % T < T := Nat.mod_lt N (by omega)
  have h4 : T * p = T * (N / T) + T := by rw [hp]; ring
  have h5 : p * (i / p) + i % p = i := Nat.div_add_mod i p
  have h6 : i % p < p := Nat.mod_lt i hppos
  have h7 : i / p * p = p * (i / p) := Nat.mul_comm _ _
  refine ⟨?_, by omega, by omega⟩
  rw [Nat.div_lt_iff_lt_mul hppos]
  omega

theorem MT.chunk_points_cover (options : QuantizeOptions) (hr : options.in_range)
    (hT : 1 ≤ options.thread_count) (i : Nat) (hi : i < options.image_len) :
    ∃ t, t < options.thread_count ∧ i ∈ MT.chunk_points t options := by
  obtain ⟨h1, h2, h3⟩ := MT.cover_arith options.image_len options.thread_count i hT hi
  refine ⟨_, h1, ?_⟩
  rw [MT.chunk_points_eq options hr hT _ h1, List.mem_range'_1]
  exact ⟨h2, h3⟩

theorem MT.chunk_getElem? (options : QuantizeOptions) (centroids : List MT.Centroid)
    (clusters : List Int) (t i : Nat) :
    (MT.chunk t options centroids clusters)[i]? =
      if i ∈ MT.chunk_points t options then
        (clusters[i]?).map (fun _ => MT.chunk_min_idx options centroids i)
      else clusters[i]? := by
  unfold MT.chunk
  exact foldl_set_getElem? (fun j => MT.chunk_min_idx options centroids j) _ _ _

theorem MT.chunk_length (options : QuantizeOptions) (centroids : List MT.Centroid)
    (clusters : List Int) (t : Nat) :
    (MT.chunk t options centroids clusters).length = clusters.length := by
  unfold MT.chunk
  exact foldl_set_length (fun j => MT.chunk_min_idx options centroids j) _ _

theorem MT.workers_getElem? (options : QuantizeOptions) (centroids : List MT.Centroid)
    (ts : List Nat) (clusters : List Int) (i : Nat) :
    (ts.foldl (fun clusters thread_id => MT.chunk thread_id options centroids clusters)
        clusters)[i]? =
      if ∃ t ∈ ts, i ∈ MT.chunk_points t options then
        (clusters[i]?).map (fun _ => MT.chunk_min_idx options centroids i)
      else clusters[i]? := by
  induction ts generalizing clusters with
  | nil => simp
  | cons t ts ih =>
    simp only [List.foldl_cons, ih, MT.chunk_getElem?, List.mem_cons, exists_eq_or_imp]
    by_cases h1 : i ∈ MT.chunk_points t options <;>
      by_cases h2 : ∃ a ∈ ts, i ∈ MT.chunk_points a options <;>
      cases clusters[i]? <;> simp [h1, h2]

theorem MT.workers_length (options : QuantizeOptions) (centroids : List MT.Centroid)
    (ts : List Nat) (clusters : List Int) :
    (ts.foldl (fun clusters thread_id => MT.chunk thread_id options centroids clusters)
        clusters).length = clusters.length := by
  induction ts generalizing clusters with
  | nil => rfl
  | cons t ts ih => simp [ih, MT.chunk_length]

theorem MT.assignment_phase_length (options : QuantizeOptions) (centroids : List MT.Centroid)
    (clusters : List Int) :
    (MT.assignment_phase options centroids clusters).length = clusters.length :=
  MT.workers_length options centroids _ clusters

/-- With at least one worker, the assignment phase stores the nearest centroid
of every pixel, whatever the array held before and whatever the number of
workers. -/
theorem MT.assignment_phase_eq (options : QuantizeOptions) (centroids : List MT.Centroid)
    (clusters : List Int) (hr : options.in_range) (hT : 1 ≤ options.thread_count)
    (hlen : clusters.length = options.image_len) :
    MT.assignment_phase options centroids clusters =
      (List.range options.image_len).map (MT.chunk_min_idx options centroids) := by
  apply List.ext_getElem?
  intro i
  unfold MT.assignment_phase
  rw [MT.workers_getElem?]
  by_cases hi : i < options.image_len
  · obtain ⟨t, ht, hmem⟩ := MT.chunk_points_cover options hr hT i hi
    have hex : ∃ t ∈ List.range options.thread_count, i ∈ MT.chunk_points t options :=
      ⟨t, List.mem_range.mpr ht, hmem⟩
    rw [if_pos hex]
    have h1 : clusters[i]? = some clusters[i] := List.getElem?_eq_getElem (by omega)
    rw [h1, List.getElem?_map, List.getElem?_range hi]
    rfl
  · have hex : ¬ ∃ t ∈ List.range options.thread_count, i ∈ MT.chunk_points t options := by
      rintro ⟨t, _, hmem⟩
      exact hi (MT.chunk_points_lt options t i hmem)
    rw [if_neg hex]
    rw [List.getElem?_eq_none (by omega), List.getElem?_eq_none (by simp; omega)]

theorem foldl_modify_getElem? {α : Type} (f : α → α) (idxs : List Nat) (hnd : idxs.Nodup)
    (l : List α) (j : Nat) :
    (idxs.foldl (fun l i => l.modify f i) l)[j]? =
      if j ∈ idxs then (l[j]?).map f else l[j]? := by
  induction idxs generalizing l with
  | nil => simp
  | cons i is ih =>
    obtain ⟨hi, hnd'⟩ := List.nodup_cons.mp hnd
    simp only [List.foldl_cons, ih hnd', List.mem_cons, List.getElem?_modify]
    by_cases hji : j = i
    · subst hji
      simp [hi]
    · have hij : ¬ i = j := fun h => hji h.symm
      by_cases hm : j ∈ is <;> simp [hji, hij, hm]

theorem foldl_modify_length {α : Type} (f : α → α) (idxs : List Nat) (l : List α) :
    (idxs.foldl (fun l i => l.modify f i) l).length = l.length := by
  induction idxs generalizing l with
  | nil => rfl
  | cons i is ih => simp [ih]

theorem foldl_modify_range {α : Type} (f : α → α) (l : List α) :
    (List.range l.length).foldl (fun l i => l.modify f i) l = l.map f := by
  apply List.ext_getElem?
  intro j
  rw [foldl_modify_getElem? f _ (List.nodup_range _), List.getElem?_map]
  by_cases hj : j < l.length
  · simp [hj]
  · simp [hj, List.getElem?_eq_none (Nat.le_of_not_lt hj)]

theorem modify_at_int_length {α : Type} (a : List α) (i : Int) (f : α → α) :
    (modify_at_int a i f).length = a.length := by
  unfold modify_at_int
  split <;> simp

theorem modify_at_int_getElem? {α : Type} (a : List α) (i : Int) (f : α → α) (j : Nat) :
    (modify_at_int a i f)[j]? = if i = (j : Int) then (a[j]?).map f else a[j]? := by
  unfold modify_at_int
  by_cases h0 : 0 ≤ i
  · rw [if_pos h0, List.getElem?_modify]
    by_cases hij : i = (j : Int)
    · subst hij
      simp
    · have : ¬ i.toNat = j := by omega
      simp [hij, this]
  · have : ¬ i = (j : Int) := by omega
    simp [h0, this]

/-- A loop that updates, for each `i` of `idxs`, the element at index `k i`
with `g i`: the element `j` receives the updates of the `i` with `k i = j`, in
order. -/
theorem foldl_modify_at_int_getElem? {α : Type} (k : Nat → Int) (g : Nat → α → α)
    (idxs : List Nat) (a : List α) (j : Nat) :
    (idxs.foldl (fun a i => modify_at_int a (k i) (g i)) a)[j]? =
      (a[j]?).map (fun c =>
        (idxs.filter (fun i => decide (k i = (j : Int)))).foldl (fun c i => g i c) c) := by
  induction idxs generalizing a with
  | nil => simp
  | cons i is ih =>
    simp only [List.foldl_cons, ih, modify_at_int_getElem?, List.filter_cons]
    by_cases h : k i = (j : Int)
    · cases a[j]? <;> simp [h]
    · cases a[j]? <;> simp [h]

theorem foldl_modify_at_int_length {α : Type} (k : Nat → Int) (g : Nat → α → α)
    (idxs : List Nat) (a : List α) :
    (idxs.foldl (fun a i => modify_at_int a (k i) (g i)) a).length = a.length := by
  induction idxs generalizing a with
  | nil => rfl
  | cons i is ih => simp [ih, modify_at_int_length]

theorem MT.accumulate_eq (options : QuantizeOptions) (clusters : List Int) :
    MT.accumulate options clusters =
      fun centroids i => modify_at_int centroids (clusters.getD i 0) (MT.add_pixel options i) := by
  rfl

theorem MT.foldl_add_pixel (options : QuantizeOptions) (hN : 4 * options.image_len ≤ 4294967296)
    (ms : List Nat) (hms : ∀ i ∈ ms, i < options.image_len) (c : MT.Centroid) :
    ms.foldl (fun c i => MT.add_pixel options i c) c =
      { count := c.count + ms.length,
        r := c.r + channel_total options.image ms 0,
        g := c.g + channel_total options.image ms 1,
        b := c.b + channel_total options.image ms 2,
        prev_r := c.prev_r, prev_g := c.prev_g, prev_b := c.prev_b } := by
  induction ms generalizing c with
  | nil => simp [channel_total]
  | cons i is ih =>
    have hi := hms i (List.mem_cons_self _ _)
    rw [List.foldl_cons, ih (fun x hx => hms x (List.mem_cons_of_mem _ hx))]
    simp only [MT.add_pixel, point_off_of_le i _ hi hN, channel_total, List.map_cons,
      List.sum_cons, List.length_cons, Nat.add_zero]
    congr 1
    · omega
    · ring
    · ring
    · ring

theorem MT.members_lt (options : QuantizeOptions) (clusters : List Int) (j i : Nat)
    (h : i ∈ MT.members options clusters j) : i < options.image_len := by
  unfold MT.members at h
  exact List.mem_range.mp (List.mem_filter.mp h).1

theorem MT.finish_step_fst (threshold : ℚ) (st : List MT.Centroid × Bool) (i : Nat) :
    (MT.finish_step threshold st i).1 = st.1.modify MT.divide i := by
  simp only [MT.finish_step]
  split_ifs <;> rfl

theorem MT.finish_fold_fst (threshold : ℚ) (l : List Nat) (st : List MT.Centroid × Bool) :
    (l.foldl (MT.finish_step threshold) st).1 =
      l.foldl (fun cs i => cs.modify MT.divide i) st.1 := by
  induction l generalizing st with
  | nil => rfl
  | cons i is ih => rw [List.foldl_cons, List.foldl_cons, ih, MT.finish_step_fst]

theorem any_congr_mem {α : Type} (l : List α) (p q : α → Bool) (h : ∀ x ∈ l, p x = q x) :
    l.any p = l.any q := by
  induction l with
  | nil => rfl
  | cons x xs ih =>
    simp only [List.any_cons]
    rw [h x (List.mem_cons_self _ _), ih (fun y hy => h y (List.mem_cons_of_mem _ hy))]

theorem MT.divide_default : MT.divide default = default := by
  decide

theorem MT.centroid_at_modify_divide (cs : List MT.Centroid) (i j : Nat) :
    MT.centroid_at (cs.modify MT.divide i) j =
      if i = j then MT.divide (MT.centroid_at cs j) else MT.centroid_at cs j := by
  unfold MT.centroid_at
  rw [List.getD_eq_getElem?_getD, List.getD_eq_getElem?_getD, List.getElem?_modify]
  by_cases h : i = j
  · subst h
    cases hc : cs[i]? <;> simp [MT.divide_default]
  · simp [h]

theorem MT.finish_step_snd (threshold : ℚ) (st : List MT.Centroid × Bool) (i : Nat) :
    (MT.finish_step threshold st i).2 =
      (st.2 || MT.exceeds threshold (MT.divide (MT.centroid_at st.1 i))) := by
  simp only [MT.finish_step, MT.centroid_at_modify_divide, if_true]
  split_ifs with h1 h2
  · simp [h1]
  · simp [h2]
  · simp [h1, h2]

theorem MT.finish_fold_snd (threshold : ℚ) (l : List Nat) (hnd : l.Nodup)
    (st : List MT.Centroid × Bool) :
    (l.foldl (MT.finish_step threshold) st).2 =
      (st.2 || l.any (fun i => MT.exceeds threshold (MT.divide (MT.centroid_at st.1 i)))) := by
  induction l generalizing st with
  | nil => simp
  | cons i is ih =>
    obtain ⟨hi, hnd'⟩ := List.nodup_cons.mp hnd
    rw [List.foldl_cons, ih hnd', MT.finish_step_snd, MT.finish_step_fst, List.any_cons,
      Bool.or_assoc]
    congr 2
    apply any_congr_mem
    intro k hk
    have : ¬ i = k := fun h => hi (h ▸ hk)
    rw [MT.centroid_at_modify_divide, if_neg this]

theorem MT.accumulated_getElem? (centroids : List MT.Centroid) (clusters : List Int)
    (options : QuantizeOptions) (hlen : centroids.length = options.cluster_count)
    (hN : 4 * options.image_len ≤ 4294967296) (j : Nat) :
    (MT.accumulated centroids clusters options)[j]? =
      (centroids[j]?).map (fun c =>
        { count := (MT.members options clusters j).length,
          r := channel_total options.image (MT.members options clusters j) 0,
          g := channel_total options.image (MT.members options clusters j) 1,
          b := channel_total options.image (MT.members options clusters j) 2,
          prev_r := c.r, prev_g := c.g, prev_b := c.b }) := by
  unfold MT.accumulated
  rw [← hlen, foldl_modify_range, MT.accumulate_eq, foldl_modify_at_int_getElem?,
    List.getElem?_map, Option.map_map]
  congr 1
  funext c
  simp only [Function.comp]
  rw [show (List.filter (fun i => decide (clusters.getD i 0 = (j : Int)))
      (List.range options.image_len)) = MT.members options clusters j from rfl]
  rw [MT.foldl_add_pixel options hN _ (fun i hi => MT.members_lt options clusters j i hi)]
  simp [MT.reset]

theorem MT.update_centroids_unfold (centroids : List MT.Centroid) (clusters : List Int)
    (options : QuantizeOptions) :
    MT.update_centroids centroids clusters options =
      (List.range options.cluster_count).foldl (MT.finish_step (1 / 100))
        (MT.accumulated centroids clusters options, false) := by
  rfl

theorem MT.update_centroids_length (centroids : List MT.Centroid) (clusters : List Int)
    (options : QuantizeOptions) :
    (MT.update_centroids centroids clusters options).1.length = centroids.length := by
  rw [MT.update_centroids_unfold, MT.finish_fold_fst, foldl_modify_length]
  unfold MT.accumulated
  rw [MT.accumulate_eq, foldl_modify_at_int_length, foldl_modify_length]

theorem MT.update_centroids_getElem? (centroids : List MT.Centroid) (clusters : List Int)
    (options : QuantizeOptions) (hlen : centroids.length = options.cluster_count)
    (hN : 4 * options.image_len ≤ 4294967296) (j : Nat) :
    (MT.update_centroids centroids clusters options).1[j]? =
      (centroids[j]?).map (fun c => MT.updated options clusters c j) := by
  rw [MT.update_centroids_unfold, MT.finish_fold_fst,
    foldl_modify_getElem? _ _ (List.nodup_range _), MT.accumulated_getElem? _ _ _ hlen hN]
  by_cases hj : j < options.cluster_count
  · rw [if_pos (List.mem_range.mpr hj), Option.map_map]
    rfl
  · rw [if_neg (fun h => hj (List.mem_range.mp h)),
      List.getElem?_eq_none (by omega)]
    rfl

theorem MT.update_centroids_snd (centroids : List MT.Centroid) (clusters : List Int)
    (options : QuantizeOptions) (hlen : centroids.length = options.cluster_count)
    (hN : 4 * options.image_len ≤ 4294967296) :
    (MT.update_centroids centroids clusters options).2 =
      (List.range options.cluster_count).any (fun j =>
        MT.exceeds (1 / 100) (MT.updated options clusters (MT.centroid_at centroids j) j)) := by
  rw [MT.update_centroids_unfold, MT.finish_fold_snd _ _ (List.nodup_range _), Bool.false_or]
  apply any_congr_mem
  intro j hj
  have hj' : j < centroids.length := by have := List.mem_range.mp hj; omega
  congr 1
  unfold MT.centroid_at
  rw [List.getD_eq_getElem?_getD, MT.accumulated_getElem? _ _ _ hlen hN,
    List.getD_eq_getElem?_getD, List.getElem?_eq_getElem hj']
  rfl

theorem ST.update_step_fst (options : QuantizeOptions) (clusters : List (List Nat))
    (threshold : ℚ) (st : List ST.Centroid × Bool) (i : Nat) :
    (ST.update_step options clusters threshold st i).1 =
      st.1.set i (ST.updated options clusters i) := by
  rfl

theorem ST.update_step_snd (options : QuantizeOptions) (clusters : List (List Nat))
    (threshold : ℚ) (st : List ST.Centroid × Bool) (i : Nat) :
    (ST.update_step options clusters threshold st i).2 =
      (st.2 || ST.exceeds threshold (ST.updated options clusters i) (ST.centroid_at st.1 i)) := by
  simp only [ST.update_step, ST.exceeds, ST.updated, Bool.or_assoc]

theorem ST.update_fold_fst (options : QuantizeOptions) (clusters : List (List Nat))
    (threshold : ℚ) (l : List Nat) (st : List ST.Centroid × Bool) :
    (l.foldl (ST.update_step options clusters threshold) st).1 =
      l.foldl (fun cs i => cs.set i (ST.updated options clusters i)) st.1 := by
  induction l generalizing st with
  | nil => rfl
  | cons i is ih => rw [List.foldl_cons, List.foldl_cons, ih, ST.update_step_fst]

theorem ST.st_centroid_at_set_ne (cs : List ST.Centroid) (i k : Nat) (c : ST.Centroid)
    (h : ¬ i = k) : ST.centroid_at (cs.set i c) k = ST.centroid_at cs k := by
  unfold ST.centroid_at
  rw [List.getD_eq_getElem?_getD, List.getD_eq_getElem?_getD, List.getElem?_set_ne h]

theorem ST.update_fold_snd (options : QuantizeOptions) (clusters : List (List Nat))
    (threshold : ℚ) (l : List Nat) (hnd : l.Nodup) (st : List ST.Centroid × Bool) :
    (l.foldl (ST.update_step options clusters threshold) st).2 =
      (st.2 || l.any (fun i =>
        ST.exceeds threshold (ST.updated options clusters i) (ST.centroid_at st.1 i))) := by
  induction l generalizing st with
  | nil => simp
  | cons i is ih =>
    obtain ⟨hi, hnd'⟩ := List.nodup_cons.mp hnd
    rw [List.foldl_cons, ih hnd', ST.update_step_snd, ST.update_step_fst, List.any_cons,
      Bool.or_assoc]
    congr 2
    apply any_congr_mem
    intro k hk
    have : ¬ i = k := fun h => hi (h ▸ hk)
    rw [ST.st_centroid_at_set_ne _ _ _ _ this]

theorem ST.st_update_centroids_length (centroids : List ST.Centroid) (clusters : List (List Nat))
    (options : QuantizeOptions) :
    (ST.update_centroids centroids clusters options).1.length = centroids.length := by
  unfold ST.update_centroids
  rw [ST.update_fold_fst]
  exact foldl_set_length (fun i => ST.updated options clusters i) _ _

theorem ST.st_update_centroids_getElem? (centroids : List ST.Centroid) (clusters : List (List Nat))
    (options : QuantizeOptions) (hlen : centroids.length = options.cluster_count) (j : Nat) :
    (ST.update_centroids centroids clusters options).1[j]? =
      (centroids[j]?).map (fun _ => ST.updated options clusters j) := by
  unfold ST.update_centroids
  rw [ST.update_fold_fst]
  have := foldl_set_getElem? (fun i => ST.updated options clusters i)
    (List.range options.cluster_count) centroids j
  simp only at this ⊢
  rw [this]
  by_cases hj : j < options.cluster_count
  · rw [if_pos (List.mem_range.mpr hj)]
  · rw [if_neg (fun h => hj (List.mem_range.mp h)), List.getElem?_eq_none (by omega)]
    rfl

theorem ST.st_update_centroids_snd (centroids : List ST.Centroid) (clusters : List (List Nat))
    (options : QuantizeOptions) :
    (ST.update_centroids centroids clusters options).2 =
      (List.range options.cluster_count).any (fun j =>
        ST.exceeds (1 / 100) (ST.updated options clusters j) (ST.centroid_at centroids j)) := by
  unfold ST.update_centroids
  rw [ST.update_fold_snd _ _ _ _ (List.nodup_range _), Bool.false_or]

theorem ST.channel_sum_eq (image : List Nat) (members : List Nat) (channel : Nat) :
    ST.channel_sum image members channel =
      (members.map (fun point => (byte_at image (point + channel) : ℚ))).sum := by
  unfold ST.channel_sum
  have h : ∀ (acc : ℚ), members.foldl (fun acc point => acc + (byte_at image (point + channel) : ℚ))
      acc = acc + (members.map (fun point => (byte_at image (point + channel) : ℚ))).sum := by
    induction members with
    | nil => simp
    | cons p ps ih =>
      intro acc
      rw [List.foldl_cons, ih, List.map_cons, List.sum_cons]
      ring
  rw [h, zero_add]

theorem ST.init_clusters_eq (clusters : List (List Nat)) (options : QuantizeOptions)
    (hlen : clusters.length = options.cluster_count) :
    ST.init_clusters clusters options = List.replicate options.cluster_count [] := by
  unfold ST.init_clusters
  rw [← hlen, foldl_modify_range]
  exact List.map_const' clusters []

theorem foldl_push (f : Nat → Nat) (l : List Nat) (v : List Nat) :
    l.foldl (fun v i => v ++ [f i]) v = v ++ l.map f := by
  induction l generalizing v with
  | nil => simp
  | cons i is ih => rw [List.foldl_cons, ih, List.map_cons, List.append_assoc]; rfl

theorem ST.assign_points_getElem? (options : QuantizeOptions) (centroids : List ST.Centroid)
    (clusters : List (List Nat)) (j : Nat) :
    (ST.assign_points options centroids clusters)[j]? =
      (clusters[j]?).map (fun v => v ++ (ST.members options centroids j).map point_off) := by
  unfold ST.assign_points
  have := foldl_modify_at_int_getElem? (fun i => ST.kmeans_min_idx options centroids i)
    (fun i (v : List Nat) => v ++ [point_off i]) (List.range options.image_len) clusters j
  simp only at this ⊢
  rw [this]
  congr 1
  funext v
  rw [foldl_push]
  rfl

theorem ST.assign_points_length (options : QuantizeOptions) (centroids : List ST.Centroid)
    (clusters : List (List Nat)) :
    (ST.assign_points options centroids clusters).length = clusters.length := by
  unfold ST.assign_points
  exact foldl_modify_at_int_length (fun i => ST.kmeans_min_idx options centroids i)
    (fun i (v : List Nat) => v ++ [point_off i]) _ _

/-- The cluster vectors after `init_clusters` and the assignment loop: vector
`j` holds the pointers of the pixels whose nearest centroid is `j`. -/
theorem ST.assigned_eq (options : QuantizeOptions) (centroids : List ST.Centroid)
    (clusters : List (List Nat)) (hlen : clusters.length = options.cluster_count) :
    ST.assign_points options centroids (ST.init_clusters clusters options) =
      (List.range options.cluster_count).map
        (fun j => (ST.members options centroids j).map point_off) := by
  apply List.ext_getElem?
  intro j
  rw [ST.assign_points_getElem?, ST.init_clusters_eq clusters options hlen, List.getElem?_map]
  by_cases hj : j < options.cluster_count
  · rw [List.getElem?_range hj, List.getElem?_replicate, if_pos hj]
    simp
  · rw [List.getElem?_eq_none (by simp; omega), List.getElem?_eq_none (by simp; omega)]
    rfl

theorem MT.min_idx_spec (options : MT.QuantizeOptions) (centroids : List MT.Centroid)
    (hr : options.in_range) (hK : 1 ≤ options.cluster_count) (i : Nat)
    (hi : i < options.image_len) :
    IsLowestArgmin
      (fun j => sq_dist (MT.centroid_at centroids j).r (MT.centroid_at centroids j).g
        (MT.centroid_at centroids j).b options.image (4 * i))
      options.cluster_count (MT.chunk_min_idx options centroids i) := by
  obtain ⟨_, hN, hK2, _⟩ := hr
  obtain ⟨n, hn⟩ : ∃ n, options.cluster_count = n + 1 := ⟨options.cluster_count - 1, by omega⟩
  rw [MT.min_idx_eq options centroids i hK2, point_off_of_le i _ hi hN, hn]
  exact (arg_fold_spec _ n).2

theorem ST.st_min_idx_spec (options : ST.QuantizeOptions) (centroids : List ST.Centroid)
    (hr : options.in_range) (hK : 1 ≤ options.cluster_count) (i : Nat)
    (hi : i < options.image_len) :
    IsLowestArgmin
      (fun j => sq_dist (ST.centroid_at centroids j).c0 (ST.centroid_at centroids j).c1
        (ST.centroid_at centroids j).c2 options.image (4 * i))
      options.cluster_count (ST.kmeans_min_idx options centroids i) := by
  obtain ⟨_, hN, hK2⟩ := hr
  obtain ⟨n, hn⟩ : ∃ n, options.cluster_count = n + 1 := ⟨options.cluster_count - 1, by omega⟩
  rw [ST.st_min_idx_eq options centroids i hK2, point_off_of_le i _ hi hN, hn]
  have := (arg_fold_spec (fun j => ST.distance_from_centroid (ST.centroid_at centroids j)
    options.image (4 * i)) n).2
  simpa only [ST.st_distance_eq] using this

theorem ST.mem_assigned_iff (options : ST.QuantizeOptions) (centroids : List ST.Centroid)
    (clusters : List (List Nat)) (hr : options.in_range)
    (hlen : clusters.length = options.cluster_count) (i j : Nat) (hi : i < options.image_len)
    (hj : j < options.cluster_count) :
    4 * i ∈ (ST.assign_points options centroids (ST.init_clusters clusters options)).getD j [] ↔
      ST.kmeans_min_idx options centroids i = (j : Int) := by
  obtain ⟨_, hN, _⟩ := hr
  rw [ST.assigned_eq options centroids clusters hlen, List.getD_eq_getElem?_getD,
    List.getElem?_map, List.getElem?_range hj]
  simp only [Option.map_some', Option.getD_some, List.mem_map, ST.members, List.mem_filter,
    List.mem_range, decide_eq_true_eq]
  constructor
  · rintro ⟨i', ⟨hi', hm⟩, he⟩
    rw [point_off_of_le i' _ hi' hN] at he
    have : i' = i := by omega
    rw [← this]; exact hm
  · intro hm
    exact ⟨i, ⟨hi, hm⟩, point_off_of_le i _ hi hN⟩

theorem sum_indicator_range (a : Int) (K : Nat) :
    ((List.range K).map (fun (j : Nat) => if a = (j : Int) then (1 : Nat) else 0)).sum =
      if 0 ≤ a ∧ a < (K : Int) then 1 else 0 := by
  induction K with
  | zero =>
    have : ¬ (0 ≤ a ∧ a < ((0 : Nat) : Int)) := by omega
    rw [if_neg this]
    rfl
  | succ K ih =>
    rw [List.range_succ, List.map_append, List.sum_append, ih]
    simp only [List.map_cons, List.map_nil, List.sum_cons, List.sum_nil, Nat.add_zero]
    by_cases h1 : a = (K : Int)
    · have h2 : ¬ (0 ≤ a ∧ a < (K : Int)) := by omega
      have h3 : 0 ≤ a ∧ a < ((K + 1 : Nat) : Int) := by omega
      rw [if_neg h2, if_pos h1, if_pos h3]
    · by_cases h2 : 0 ≤ a ∧ a < (K : Int)
      · have h3 : 0 ≤ a ∧ a < ((K + 1 : Nat) : Int) := by omega
        rw [if_pos h2, if_neg h1, if_pos h3]
      · have h3 : ¬ (0 ≤ a ∧ a < ((K + 1 : Nat) : Int)) := by omega
        rw [if_neg h2, if_neg h1, if_neg h3]

/-- Every element of `l` has exactly one key in `[0,K)`: the sizes of the `K`
classes add up to the length of `l`. -/
theorem sum_filter_lengths (K : Nat) (k : Nat → Int) (l : List Nat)
    (h : ∀ i ∈ l, 0 ≤ k i ∧ k i < (K : Int)) :
    ((List.range K).map (fun (j : Nat) => (l.filter (fun i => decide (k i = (j : Int)))).length)).sum =
      l.length := by
  induction l with
  | nil => simp
  | cons i is ih =>
    have hi := h i (List.mem_cons_self _ _)
    have hrec := ih (fun x hx => h x (List.mem_cons_of_mem _ hx))
    have hsplit : (fun (j : Nat) => ((i :: is).filter (fun i => decide (k i = (j : Int)))).length) =
        fun (j : Nat) => (if k i = (j : Int) then (1 : Nat) else 0) +
          (is.filter (fun i => decide (k i = (j : Int)))).length := by
      funext j
      by_cases hk : k i = (j : Int)
      · simp [List.filter_cons, hk]; omega
      · simp [List.filter_cons, hk]
    rw [hsplit, List.sum_map_add, hrec, sum_indicator_range, if_pos hi, List.length_cons]
    omega

theorem MT.centroid_at_update (centroids : List MT.Centroid) (clusters : List Int)
    (options : MT.QuantizeOptions) (hlen : centroids.length = options.cluster_count)
    (hN : 4 * options.image_len ≤ 4294967296) (j : Nat) (hj : j < options.cluster_count) :
    MT.centroid_at (MT.update_centroids centroids clusters options).1 j =
      MT.updated options clusters (MT.centroid_at centroids j) j := by
  have hj' : j < centroids.length := by omega
  unfold MT.centroid_at
  rw [List.getD_eq_getElem?_getD, MT.update_centroids_getElem? _ _ _ hlen hN,
    List.getD_eq_getElem?_getD, List.getElem?_eq_getElem hj']
  rfl

theorem MT.updated_fields (options : MT.QuantizeOptions) (clusters : List Int) (c : MT.Centroid)
    (j : Nat) :
    (MT.updated options clusters c j).count = (MT.members options clusters j).length ∧
      (MT.updated options clusters c j).prev_r = c.r ∧
      (MT.updated options clusters c j).prev_g = c.g ∧
      (MT.updated options clusters c j).prev_b = c.b := by
  unfold MT.updated MT.divide
  split <;> simp

theorem MT.updated_mean (options : MT.QuantizeOptions) (clusters : List Int) (c : MT.Centroid)
    (j : Nat) (h : 0 < (MT.members options clusters j).length) :
    (MT.updated options clusters c j).r =
        channel_mean options.image (MT.members options clusters j) 0 ∧
      (MT.updated options clusters c j).g =
        channel_mean options.image (MT.members options clusters j) 1 ∧
      (MT.updated options clusters c j).b =
        channel_mean options.image (MT.members options clusters j) 2 := by
  unfold MT.updated MT.divide channel_mean
  simp only [gt_iff_lt, h, if_true, and_self]

theorem ST.st_centroid_at_update (centroids : List ST.Centroid) (clusters : List (List Nat))
    (options : ST.QuantizeOptions) (hlen : centroids.length = options.cluster_count)
    (j : Nat) (hj : j < options.cluster_count) :
    ST.centroid_at (ST.update_centroids centroids clusters options).1 j =
      ST.updated options clusters j := by
  have hj' : j < centroids.length := by omega
  unfold ST.centroid_at
  rw [List.getD_eq_getElem?_getD, ST.st_update_centroids_getElem? _ _ _ hlen,
    List.getElem?_eq_getElem hj']
  rfl

theorem ST.new_channel_mean (image : List Nat) (members : List Nat) (channel : Nat)
    (h : 0 < members.length) :
    ST.new_channel image members channel = ST.channel_mean image members channel := by
  unfold ST.new_channel ST.channel_mean
  rw [if_pos h, ST.channel_sum_eq]

theorem MT.update_centroids_eq_map (centroids : List MT.Centroid) (clusters : List Int)
    (options : MT.QuantizeOptions) (hlen : centroids.length = options.cluster_count)
    (hN : 4 * options.image_len ≤ 4294967296) :
    (MT.update_centroids centroids clusters options).1 =
      (List.range options.cluster_count).map
        (fun j => MT.updated options clusters (MT.centroid_at centroids j) j) := by
  apply List.ext_getElem?
  intro j
  rw [MT.update_centroids_getElem? _ _ _ hlen hN, List.getElem?_map]
  by_cases hj : j < options.cluster_count
  · have hj' : j < centroids.length := by omega
    rw [List.getElem?_range hj, List.getElem?_eq_getElem hj']
    simp [MT.centroid_at, List.getD_eq_getElem?_getD, List.getElem?_eq_getElem hj']
  · rw [List.getElem?_eq_none (by omega), List.getElem?_eq_none (by simp; omega)]
    rfl

theorem MT.getD_mem_valid (clusters : List Int) (K N : Nat) (hcl : clusters.length = N)
    (hvalid : ∀ a ∈ clusters, 0 ≤ a ∧ a < (K : Int)) (i : Nat) (hi : i < N) :
    0 ≤ clusters.getD i 0 ∧ clusters.getD i 0 < (K : Int) := by
  have hi' : i < clusters.length := by omega
  rw [List.getD_eq_getElem?_getD, List.getElem?_eq_getElem hi']
  exact hvalid _ (List.getElem_mem _)

theorem MT.sum_members (options : MT.QuantizeOptions) (clusters : List Int)
    (hcl : clusters.length = options.image_len)
    (hvalid : ∀ a ∈ clusters, 0 ≤ a ∧ a < (options.cluster_count : Int)) :
    ((List.range options.cluster_count).map
      (fun j => (MT.members options clusters j).length)).sum = options.image_len := by
  have := sum_filter_lengths options.cluster_count (fun i => clusters.getD i 0)
    (List.range options.image_len)
    (fun i hi => MT.getD_mem_valid clusters _ _ hcl hvalid i (List.mem_range.mp hi))
  rw [List.length_range] at this
  exact this

theorem ST.st_sum_members (options : ST.QuantizeOptions) (centroids : List ST.Centroid)
    (hr : options.in_range) (hK : 1 ≤ options.cluster_count) :
    ((List.range options.cluster_count).map
      (fun j => (ST.members options centroids j).length)).sum = options.image_len := by
  have := sum_filter_lengths options.cluster_count
    (fun i => ST.kmeans_min_idx options centroids i) (List.range options.image_len)
    (fun i hi => by
      have h := ST.st_min_idx_spec options centroids hr hK i (List.mem_range.mp hi)
      exact ⟨h.1, h.2.1⟩)
  rw [List.length_range] at this
  exact this

theorem MT.updated_empty (options : MT.QuantizeOptions) (clusters : List Int) (c : MT.Centroid)
    (j : Nat) (h : MT.members options clusters j = []) :
    MT.updated options clusters c j =
      { count := 0, r := 0, g := 0, b := 0, prev_r := c.r, prev_g := c.g, prev_b := c.b } := by
  unfold MT.updated MT.divide
  simp [h, channel_total]

theorem MT.centroid_at_accumulated (centroids : List MT.Centroid) (clusters : List Int)
    (options : MT.QuantizeOptions) (hlen : centroids.length = options.cluster_count)
    (hN : 4 * options.image_len ≤ 4294967296) (j : Nat) (hj : j < options.cluster_count) :
    MT.centroid_at (MT.accumulated centroids clusters options) j =
      { count := (MT.members options clusters j).length,
        r := channel_total options.image (MT.members options clusters j) 0,
        g := channel_total options.image (MT.members options clusters j) 1,
        b := channel_total options.image (MT.members options clusters j) 2,
        prev_r := (MT.centroid_at centroids j).r, prev_g := (MT.centroid_at centroids j).g,
        prev_b := (MT.centroid_at centroids j).b } := by
  have hj' : j < centroids.length := by omega
  unfold MT.centroid_at
  rw [List.getD_eq_getElem?_getD, MT.accumulated_getElem? _ _ _ hlen hN,
    List.getD_eq_getElem?_getD, List.getElem?_eq_getElem hj']
  rfl

theorem MT.centroid_at_set_ne (cs : List MT.Centroid) (i k : Nat) (c : MT.Centroid)
    (h : ¬ i = k) : MT.centroid_at (cs.set i c) k = MT.centroid_at cs k := by
  unfold MT.centroid_at
  rw [List.getD_eq_getElem?_getD, List.getD_eq_getElem?_getD, List.getElem?_set_ne h]

theorem ST.new_channel_empty (image : List Nat) (channel : Nat) :
    ST.new_channel image [] channel = 0 ∧
      ST.new_channel image [] channel = ST.channel_sum image [] channel := by
  unfold ST.new_channel ST.channel_sum
  simp

/-- What the k-means loop of the multi-threaded variant leaves behind when it
is entered at iteration `it` in the state reached after `it` passes that all
reported a change: it stops after `m` passes, either converged at the first
pass that reports no change, or with the limit exhausted. -/
theorem MT.kmeans_loop_spec (options : MT.QuantizeOptions) (centroids0 : List MT.Centroid)
    (clusters0 : List Int) (remaining : Nat) :
    ∀ (it : Nat) (s : MT.LoopState),
      (s.centroids, s.clusters) = MT.state_after options centroids0 clusters0 it →
      s.trace = (List.range it).map (MT.changed_at options centroids0 clusters0) →
      s.converged = false →
      (∀ k, k < it → MT.changed_at options centroids0 clusters0 k = true) →
      ∃ m, it ≤ m ∧ m ≤ it + remaining ∧
        (MT.kmeans_loop options remaining it s).trace =
          (List.range m).map (MT.changed_at options centroids0 clusters0) ∧
        ((MT.kmeans_loop options remaining it s).centroids,
          (MT.kmeans_loop options remaining it s).clusters) =
          MT.state_after options centroids0 clusters0 m ∧
        (∀ k, k + 1 < m → MT.changed_at options centroids0 clusters0 k = true) ∧
        (((MT.kmeans_loop options remaining it s).converged = true ∧
            (MT.kmeans_loop options remaining it s).last_iteration = m ∧ it < m ∧
            MT.changed_at options centroids0 clusters0 (m - 1) = false) ∨
          ((MT.kmeans_loop options remaining it s).converged = false ∧ m = it + remaining ∧
            ∀ k, k < m → MT.changed_at options centroids0 clusters0 k = true)) := by
  induction remaining with
  | zero =>
    intro it s hst htr hconv hall
    exact ⟨it, le_refl _, le_refl _, htr, hst, fun k hk => hall k (by omega),
      Or.inr ⟨hconv, rfl, hall⟩⟩
  | succ n ih =>
    intro it s hst htr hconv hall
    have hc : s.centroids = (MT.state_after options centroids0 clusters0 it).1 := by
      rw [← hst]
    have hl : s.clusters = (MT.state_after options centroids0 clusters0 it).2 := by
      rw [← hst]
    have hp : MT.pass options s.centroids s.clusters =
        (MT.state_after options centroids0 clusters0 (it + 1),
          MT.changed_at options centroids0 clusters0 it) := by
      rw [hc, hl]
      rfl
    have htr' : s.trace ++ [MT.changed_at options centroids0 clusters0 it] =
        (List.range (it + 1)).map (MT.changed_at options centroids0 clusters0) := by
      rw [List.range_succ, List.map_append, htr]
      rfl
    by_cases hch : MT.changed_at options centroids0 clusters0 it = true
    · have hunf : MT.kmeans_loop options (n + 1) it s =
          MT.kmeans_loop options n (it + 1)
            { centroids := (MT.state_after options centroids0 clusters0 (it + 1)).1,
              clusters := (MT.state_after options centroids0 clusters0 (it + 1)).2,
              converged := s.converged, last_iteration := s.last_iteration,
              trace := s.trace ++ [MT.changed_at options centroids0 clusters0 it] } := by
        simp only [MT.kmeans_loop, hp, hch, Bool.not_true, Bool.false_eq_true, if_false]
      rw [hunf]
      obtain ⟨m, h1, h2, h3, h4, h5, h6⟩ := ih (it + 1)
        { centroids := (MT.state_after options centroids0 clusters0 (it + 1)).1,
          clusters := (MT.state_after options centroids0 clusters0 (it + 1)).2,
          converged := s.converged, last_iteration := s.last_iteration,
          trace := s.trace ++ [MT.changed_at options centroids0 clusters0 it] }
        rfl htr' hconv
        (fun k hk => by
          rcases Nat.lt_succ_iff_lt_or_eq.mp hk with h | h
          · exact hall k h
          · rw [h]; exact hch)
      refine ⟨m, by omega, by omega, h3, h4, h5, ?_⟩
      rcases h6 with ⟨a, b, c, d⟩ | ⟨a, b, c⟩
      · exact Or.inl ⟨a, b, by omega, d⟩
      · exact Or.inr ⟨a, by omega, c⟩
    · have hch' : MT.changed_at options centroids0 clusters0 it = false := by
        simpa using hch
      have hunf : MT.kmeans_loop options (n + 1) it s =
          { centroids := (MT.state_after options centroids0 clusters0 (it + 1)).1,
            clusters := (MT.state_after options centroids0 clusters0 (it + 1)).2,
            converged := true, last_iteration := it + 1,
            trace := s.trace ++ [MT.changed_at options centroids0 clusters0 it] } := by
        simp only [MT.kmeans_loop, hp, hch', Bool.not_false, if_true]
      rw [hunf]
      refine ⟨it + 1, by omega, by omega, htr', rfl, fun k hk => hall k (by omega), ?_⟩
      exact Or.inl ⟨rfl, rfl, by omega, by simpa using hch'⟩

/-- What the k-means loop of the single-threaded variant leaves behind when it
is entered after `it` passes that all reported a change. -/
theorem ST.st_kmeans_loop_spec (options : ST.QuantizeOptions) (centroids0 : List ST.Centroid)
    (remaining : Nat) :
    ∀ (it : Nat) (s : ST.LoopState),
      (s.centroids, s.clusters) = ST.state_after options centroids0 it →
      s.trace = (List.range it).map (ST.changed_at options centroids0) →
      s.converged = false →
      s.last_iteration = it →
      (∀ k, k < it → ST.changed_at options centroids0 k = true) →
      ∃ m, it ≤ m ∧ m ≤ it + remaining ∧
        (ST.kmeans_loop options remaining s).trace =
          (List.range m).map (ST.changed_at options centroids0) ∧
        ((ST.kmeans_loop options remaining s).centroids,
          (ST.kmeans_loop options remaining s).clusters) =
          ST.state_after options centroids0 m ∧
        (∀ k, k + 1 < m → ST.changed_at options centroids0 k = true) ∧
        (((ST.kmeans_loop options remaining s).converged = true ∧
            (ST.kmeans_loop options remaining s).last_iteration = m ∧ it < m ∧
            ST.changed_at options centroids0 (m - 1) = false) ∨
          ((ST.kmeans_loop options remaining s).converged = false ∧ m = it + remaining ∧
            ∀ k, k < m → ST.changed_at options centroids0 k = true)) := by
  induction remaining with
  | zero =>
    intro it s hst htr hconv _ hall
    exact ⟨it, le_refl _, le_refl _, htr, hst, fun k hk => hall k (by omega),
      Or.inr ⟨hconv, rfl, hall⟩⟩
  | succ n ih =>
    intro it s hst htr hconv hlast hall
    have hc : s.centroids = (ST.state_after options centroids0 it).1 := by
      rw [← hst]
    have hl : s.clusters = (ST.state_after options centroids0 it).2 := by
      rw [← hst]
    have hp : ST.pass options s.centroids s.clusters =
        (ST.state_after options centroids0 (it + 1), ST.changed_at options centroids0 it) := by
      rw [hc, hl]
      rfl
    have htr' : s.trace ++ [ST.changed_at options centroids0 it] =
        (List.range (it + 1)).map (ST.changed_at options centroids0) := by
      rw [List.range_succ, List.map_append, htr]
      rfl
    by_cases hch : ST.changed_at options centroids0 it = true
    · have hunf : ST.kmeans_loop options (n + 1) s =
          ST.kmeans_loop options n
            { centroids := (ST.state_after options centroids0 (it + 1)).1,
              clusters := (ST.state_after options centroids0 (it + 1)).2,
              converged := s.converged, last_iteration := it + 1,
              trace := s.trace ++ [ST.changed_at options centroids0 it] } := by
        simp only [ST.kmeans_loop, hp, hch, hlast, Bool.not_true, Bool.false_eq_true, if_false]
      rw [hunf]
      obtain ⟨m, h1, h2, h3, h4, h5, h6⟩ := ih (it + 1)
        { centroids := (ST.state_after options centroids0 (it + 1)).1,
          clusters := (ST.state_after options centroids0 (it + 1)).2,
          converged := s.converged, last_iteration := it + 1,
          trace := s.trace ++ [ST.changed_at options centroids0 it] }
        rfl htr' hconv rfl
        (fun k hk => by
          rcases Nat.lt_succ_iff_lt_or_eq.mp hk with h | h
          · exact hall k h
          · rw [h]; exact hch)
      refine ⟨m, by omega, by omega, h3, h4, h5, ?_⟩
      rcases h6 with ⟨a, b, c, d⟩ | ⟨a, b, c⟩
      · exact Or.inl ⟨a, b, by omega, d⟩
      · exact Or.inr ⟨a, by omega, c⟩
    · have hch' : ST.changed_at options centroids0 it = false := by
        simpa using hch
      have hunf : ST.kmeans_loop options (n + 1) s =
          { centroids := (ST.state_after options centroids0 (it + 1)).1,
            clusters := (ST.state_after options centroids0 (it + 1)).2,
            converged := true, last_iteration := it + 1,
            trace := s.trace ++ [ST.changed_at options centroids0 it] } := by
        simp only [ST.kmeans_loop, hp, hch', hlast, Bool.not_false, if_true]
      rw [hunf]
      refine ⟨it + 1, by omega, by omega, htr', rfl, fun k hk => hall k (by omega), ?_⟩
      exact Or.inl ⟨rfl, rfl, by omega, by simpa using hch'⟩

/-- How a call of the multi-threaded `kmeans` ends, in terms of the passes of
its loop body. -/
theorem MT.kmeans_spec (options : MT.QuantizeOptions) (centroids0 : List MT.Centroid)
    (clusters0 : List Int) :
    ∃ m, m ≤ options.iteration_limit ∧
      (MT.kmeans options centroids0 clusters0).trace =
        (List.range m).map (MT.changed_at options centroids0 clusters0) ∧
      ((MT.kmeans options centroids0 clusters0).centroids,
        (MT.kmeans options centroids0 clusters0).clusters) =
        MT.state_after options centroids0 clusters0 m ∧
      (∀ k, k + 1 < m → MT.changed_at options centroids0 clusters0 k = true) ∧
      (((MT.kmeans options centroids0 clusters0).outcome = Outcome.returned m ∧ 0 < m ∧
          MT.changed_at options centroids0 clusters0 (m - 1) = false ∧
          (MT.kmeans options centroids0 clusters0).image =
            MT.write_back options (MT.kmeans options centroids0 clusters0).centroids
              (MT.kmeans options centroids0 clusters0).clusters) ∨
        ((MT.kmeans options centroids0 clusters0).outcome = Outcome.did_not_converge ∧
          m = options.iteration_limit ∧
          (∀ k, k < m → MT.changed_at options centroids0 clusters0 k = true) ∧
          (MT.kmeans options centroids0 clusters0).image = options.image)) := by
  obtain ⟨m, _, h2, h3, h4, h5, h6⟩ := MT.kmeans_loop_spec options centroids0 clusters0
    options.iteration_limit 0
    { centroids := centroids0, clusters := clusters0, converged := false,
      last_iteration := 0, trace := [] }
    rfl rfl rfl (fun k hk => absurd hk (Nat.not_lt_zero k))
  refine ⟨m, by omega, ?_⟩
  rcases h6 with ⟨a, b, c, d⟩ | ⟨a, b, c⟩
  · simp only [MT.kmeans, a, Bool.not_true, Bool.false_eq_true, if_false]
    exact ⟨h3, h4, h5, Or.inl ⟨by simp [b], c, d, trivial⟩⟩
  · simp only [MT.kmeans, a, Bool.not_false, if_true]
    exact ⟨h3, h4, h5, Or.inr ⟨trivial, by omega, c, trivial⟩⟩

/-- How a call of the single-threaded `kmeans` ends, in terms of the passes of
its loop body. -/
theorem ST.st_kmeans_spec (options : ST.QuantizeOptions) (centroids0 : List ST.Centroid) :
    ∃ m, m ≤ options.iteration_limit ∧
      (ST.kmeans options centroids0).trace =
        (List.range m).map (ST.changed_at options centroids0) ∧
      ((ST.kmeans options centroids0).centroids, (ST.kmeans options centroids0).clusters) =
        ST.state_after options centroids0 m ∧
      (∀ k, k + 1 < m → ST.changed_at options centroids0 k = true) ∧
      (((ST.kmeans options centroids0).outcome = Outcome.returned m ∧ 0 < m ∧
          ST.changed_at options centroids0 (m - 1) = false ∧
          (ST.kmeans options centroids0).image =
            ST.write_back options (ST.kmeans options centroids0).centroids
              (ST.kmeans options centroids0).clusters) ∨
        ((ST.kmeans options centroids0).outcome = Outcome.did_not_converge ∧
          m = options.iteration_limit ∧
          (∀ k, k < m → ST.changed_at options centroids0 k = true) ∧
          (ST.kmeans options centroids0).image = options.image)) := by
  obtain ⟨m, _, h2, h3, h4, h5, h6⟩ := ST.st_kmeans_loop_spec options centroids0
    options.iteration_limit 0
    { centroids := centroids0,
      clusters := ST.init_clusters (List.replicate options.cluster_count []) options,
      converged := false, last_iteration := 0, trace := [] }
    rfl rfl rfl rfl (fun k hk => absurd hk (Nat.not_lt_zero k))
  refine ⟨m, by omega, ?_⟩
  rcases h6 with ⟨a, b, c, d⟩ | ⟨a, b, c⟩
  · simp only [ST.kmeans, a, Bool.not_true, Bool.false_eq_true, if_false]
    exact ⟨h3, h4, h5, Or.inl ⟨by simp [b], c, d, trivial⟩⟩
  · simp only [ST.kmeans, a, Bool.not_false, if_true]
    exact ⟨h3, h4, h5, Or.inr ⟨trivial, by omega, c, trivial⟩⟩

theorem trace_getElem? (changed : Nat → Bool) (m k : Nat) (hk : k < m) :
    ((List.range m).map changed)[k]? = some (changed k) := by
  rw [List.getElem?_map, List.getElem?_range hk]
  rfl

theorem MT.pass_congr (options options' : MT.QuantizeOptions) (centroids : List MT.Centroid)
    (clusters clusters' : List Int) (hsame : MT.same_input options options')
    (hr : options.in_range) (hr' : options'.in_range)
    (hT : 1 ≤ options.thread_count) (hT' : 1 ≤ options'.thread_count)
    (hcl : clusters.length = options.image_len) (hcl' : clusters'.length = options.image_len) :
    MT.pass options' centroids clusters' = MT.pass options centroids clusters := by
  obtain ⟨h1, h2, h3⟩ := hsame
  unfold MT.pass
  simp only
  rw [MT.assignment_phase_eq options centroids clusters hr hT hcl,
    MT.assignment_phase_eq options' centroids clusters' hr' hT' (by rw [hcl', h2])]
  cases options with
  | mk img N K L T =>
    cases options' with
    | mk img' N' K' L' T' =>
      simp only at h1 h2 h3
      subst h1 h2 h3
      rfl

theorem MT.pass_clusters_length (options : MT.QuantizeOptions) (centroids : List MT.Centroid)
    (clusters : List Int) :
    (MT.pass options centroids clusters).1.2.length = clusters.length := by
  unfold MT.pass
  exact MT.assignment_phase_length options centroids clusters

theorem MT.state_after_clusters_length (options : MT.QuantizeOptions)
    (centroids0 : List MT.Centroid) (clusters0 : List Int) (k : Nat) :
    (MT.state_after options centroids0 clusters0 k).2.length = clusters0.length := by
  induction k with
  | zero => rfl
  | succ k ih =>
    rw [MT.state_after, MT.pass_clusters_length, ih]

theorem MT.state_after_congr (options options' : MT.QuantizeOptions)
    (centroids0 : List MT.Centroid) (clusters0 clusters0' : List Int)
    (hsame : MT.same_input options options')
    (hr : options.in_range) (hr' : options'.in_range)
    (hT : 1 ≤ options.thread_count) (hT' : 1 ≤ options'.thread_count)
    (hcl : clusters0.length = options.image_len) (hcl' : clusters0'.length = options.image_len)
    (k : Nat) :
    (MT.state_after options' centroids0 clusters0' k).1 =
        (MT.state_after options centroids0 clusters0 k).1 ∧
      MT.state_after options' centroids0 clusters0' (k + 1) =
        MT.state_after options centroids0 clusters0 (k + 1) ∧
      MT.changed_at options' centroids0 clusters0' k =
        MT.changed_at options centroids0 clusters0 k := by
  induction k with
  | zero =>
    have hp := MT.pass_congr options options' centroids0 clusters0 clusters0' hsame hr hr' hT hT'
      hcl hcl'
    refine ⟨rfl, ?_, ?_⟩
    · show (MT.pass options' centroids0 clusters0').1 = (MT.pass options centroids0 clusters0).1
      rw [hp]
    · show (MT.pass options' centroids0 clusters0').2 = (MT.pass options centroids0 clusters0).2
      rw [hp]
  | succ k ih =>
    obtain ⟨_, h2, _⟩ := ih
    have hp := MT.pass_congr options options'
      (MT.state_after options centroids0 clusters0 (k + 1)).1
      (MT.state_after options centroids0 clusters0 (k + 1)).2
      (MT.state_after options centroids0 clusters0 (k + 1)).2 hsame hr hr' hT hT'
      (by rw [MT.state_after_clusters_length, hcl]) (by rw [MT.state_after_clusters_length, hcl])
    refine ⟨by rw [h2], ?_, ?_⟩
    · show (MT.pass options' (MT.state_after options' centroids0 clusters0' (k + 1)).1
        (MT.state_after options' centroids0 clusters0' (k + 1)).2).1 =
        (MT.pass options (MT.state_after options centroids0 clusters0 (k + 1)).1
        (MT.state_after options centroids0 clusters0 (k + 1)).2).1
      rw [h2, hp]
    · show (MT.pass options' (MT.state_after options' centroids0 clusters0' (k + 1)).1
        (MT.state_after options' centroids0 clusters0' (k + 1)).2).2 =
        (MT.pass options (MT.state_after options centroids0 clusters0 (k + 1)).1
        (MT.state_after options centroids0 clusters0 (k + 1)).2).2
      rw [h2, hp]

/-- The outcome of `kmeans` is determined by the limit and by the values that
the successive passes report. -/
theorem outcome_unique (changed : Nat → Bool) (limit m m' : Nat) (out out' : Outcome)
    (hm : m ≤ limit) (hm' : m' ≤ limit)
    (hall : ∀ k, k + 1 < m → changed k = true) (hall' : ∀ k, k + 1 < m' → changed k = true)
    (h : (out = Outcome.returned m ∧ 0 < m ∧ changed (m - 1) = false) ∨
      (out = Outcome.did_not_converge ∧ m = limit ∧ ∀ k, k < m → changed k = true))
    (h' : (out' = Outcome.returned m' ∧ 0 < m' ∧ changed (m' - 1) = false) ∨
      (out' = Outcome.did_not_converge ∧ m' = limit ∧ ∀ k, k < m' → changed k = true)) :
    out' = out ∧ m' = m := by
  rcases h with ⟨a, b, c⟩ | ⟨a, b, c⟩ <;> rcases h' with ⟨a', b', c'⟩ | ⟨a', b', c'⟩
  · have hmm : m' = m := by
      rcases Nat.lt_trichotomy m m' with hlt | heq | hgt
      · have := hall' (m - 1) (by omega)
        rw [c] at this
        cases this
      · exact heq.symm
      · have := hall (m' - 1) (by omega)
        rw [c'] at this
        cases this
    exact ⟨by rw [a, a', hmm], hmm⟩
  · have := c' (m - 1) (by omega)
    rw [c] at this
    cases this
  · have := c (m' - 1) (by omega)
    rw [c'] at this
    cases this
  · exact ⟨by rw [a, a'], by omega⟩

theorem MT.changed_at_congr (options options' : MT.QuantizeOptions)
    (centroids0 : List MT.Centroid) (clusters0 clusters0' : List Int)
    (hsame : MT.same_input options options')
    (hr : options.in_range) (hr' : options'.in_range)
    (hT : 1 ≤ options.thread_count) (hT' : 1 ≤ options'.thread_count)
    (hcl : clusters0.length = options.image_len) (hcl' : clusters0'.length = options.image_len) :
    MT.changed_at options' centroids0 clusters0' = MT.changed_at options centroids0 clusters0 := by
  funext k
  exact (MT.state_after_congr options options' centroids0 clusters0 clusters0' hsame hr hr' hT hT'
    hcl hcl' k).2.2

theorem MT.kmeans_outcome_congr (options options' : MT.QuantizeOptions)
    (centroids0 : List MT.Centroid) (clusters0 clusters0' : List Int)
    (hsame : MT.same_input options options')
    (hlimit : options'.iteration_limit = options.iteration_limit)
    (hr : options.in_range) (hr' : options'.in_range)
    (hT : 1 ≤ options.thread_count) (hT' : 1 ≤ options'.thread_count)
    (hcl : clusters0.length = options.image_len) (hcl' : clusters0'.length = options.image_len) :
    (MT.kmeans options' centroids0 clusters0').outcome =
      (MT.kmeans options centroids0 clusters0).outcome := by
  obtain ⟨m, hm, _, _, hall, hout⟩ := MT.kmeans_spec options centroids0 clusters0
  obtain ⟨m', hm', _, _, hall', hout'⟩ := MT.kmeans_spec options' centroids0 clusters0'
  rw [MT.changed_at_congr options options' centroids0 clusters0 clusters0' hsame hr hr' hT hT'
    hcl hcl'] at hall' hout'
  rw [hlimit] at hm' hout'
  refine (outcome_unique (MT.changed_at options centroids0 clusters0) options.iteration_limit
    m m' _ _ hm hm' hall hall' ?_ ?_).1
  · rcases hout with ⟨a, b, c, _⟩ | ⟨a, b, c, _⟩
    · exact Or.inl ⟨a, b, c⟩
    · exact Or.inr ⟨a, b, c⟩
  · rcases hout' with ⟨a, b, c, _⟩ | ⟨a, b, c, _⟩
    · exact Or.inl ⟨a, b, c⟩
    · exact Or.inr ⟨a, b, c⟩

theorem outcome_iff (changed : Nat → Bool) (limit m : Nat) (out : Outcome) (hm : m ≤ limit)
    (h : (out = Outcome.returned m ∧ 0 < m ∧ changed (m - 1) = false) ∨
      (out = Outcome.did_not_converge ∧ m = limit ∧ ∀ k, k < m → changed k = true)) :
    (out = Outcome.did_not_converge ↔ ∀ k, k < limit → changed k = true) ∧
      (out ≠ Outcome.did_not_converge → ∃ r, out = Outcome.returned r ∧ 1 ≤ r ∧ r ≤ limit) ∧
      (limit = 0 → out = Outcome.did_not_converge) := by
  rcases h with ⟨a, b, c⟩ | ⟨a, b, c⟩
  · refine ⟨⟨?_, ?_⟩, ?_, ?_⟩
    · intro h
      rw [a] at h
      cases h
    · intro h
      have := h (m - 1) (by omega)
      rw [c] at this
      cases this
    · intro _
      exact ⟨m, a, b, hm⟩
    · intro h
      omega
  · refine ⟨⟨?_, ?_⟩, ?_, ?_⟩
    · intro _
      rw [← b]
      exact c
    · intro _
      exact a
    · intro h
      exact absurd a h
    · intro _
      exact a

theorem store_rgb_length (image : List Nat) (p : Nat) (r g b : ℚ) :
    (store_rgb image p r g b).length = image.length := by
  simp [store_rgb]

theorem store_rgb_getElem? (image : List Nat) (p : Nat) (r g b : ℚ) (q : Nat) :
    (store_rgb image p r g b)[q]? =
      if q = p ∨ q = p + 1 ∨ q = p + 2 then
        (image[q]?).map (fun _ => pixel_byte r g b (q - p))
      else image[q]? := by
  unfold store_rgb
  by_cases hq : q < image.length
  · rw [List.getElem?_set, List.getElem?_set, List.getElem?_set]
    by_cases h2 : p + 2 = q
    · have : q - p = 2 := by omega
      simp [h2, this, pixel_byte, hq, List.getElem?_eq_getElem hq]
    · by_cases h1 : p + 1 = q
      · have : q - p = 1 := by omega
        simp [h2, h1, this, pixel_byte, hq, List.getElem?_eq_getElem hq]
      · by_cases h0 : p = q
        · have : q - p = 0 := by omega
          simp [h2, h1, h0, this, pixel_byte, hq, List.getElem?_eq_getElem hq]
        · have : ¬ (q = p ∨ q = p + 1 ∨ q = p + 2) := by omega
          simp [h2, h1, h0, this]
  · have h1 : image[q]? = none := List.getElem?_eq_none (by omega)
    rw [List.getElem?_eq_none (by simp; omega), h1]
    simp

theorem store_all_length (writes : List (Nat × ℚ × ℚ × ℚ)) (image : List Nat) :
    (store_all image writes).length = image.length := by
  unfold store_all
  induction writes generalizing image with
  | nil => rfl
  | cons w ws ih => rw [List.foldl_cons, ih, store_rgb_length]

/-- A byte is left alone by stores at offsets that are multiples of 4 when it
is a fourth byte, or when no store addresses its pixel. -/
theorem store_all_frame (writes : List (Nat × ℚ × ℚ × ℚ)) (image : List Nat) (q : Nat)
    (hmul : ∀ w ∈ writes, w.1 % 4 = 0)
    (h : q % 4 = 3 ∨ ∀ w ∈ writes, w.1 ≠ 4 * (q / 4)) :
    (store_all image writes)[q]? = image[q]? := by
  unfold store_all
  induction writes generalizing image with
  | nil => rfl
  | cons w ws ih =>
    rw [List.foldl_cons, ih _ (fun x hx => hmul x (List.mem_cons_of_mem _ hx))
      (h.imp id (fun h x hx => h x (List.mem_cons_of_mem _ hx))), store_rgb_getElem?]
    have hw := hmul w (List.mem_cons_self _ _)
    have : ¬ (q = w.1 ∨ q = w.1 + 1 ∨ q = w.1 + 2) := by
      rcases h with h | h
      · omega
      · have := h w (List.mem_cons_self _ _)
        omega
    rw [if_neg this]

theorem map_const_congr (a b : Option Nat) (x : Nat) (h : a.isSome = b.isSome) :
    a.map (fun _ => x) = b.map (fun _ => x) := by
  cases a <;> cases b <;> simp_all

theorem isSome_getElem?_of_length (l l' : List Nat) (q : Nat) (h : l.length = l'.length) :
    (l[q]?).isSome = (l'[q]?).isSome := by
  by_cases hq : q < l.length
  · rw [List.getElem?_eq_getElem hq, List.getElem?_eq_getElem (h ▸ hq)]
    rfl
  · rw [List.getElem?_eq_none (by omega), List.getElem?_eq_none (by omega)]

/-- A colour byte of a pixel that some store addresses, when all the stores that
address this pixel carry the same colour, holds that colour. -/
theorem store_all_hit (writes : List (Nat × ℚ × ℚ × ℚ)) (image : List Nat) (q : Nat)
    (r g b : ℚ) (hmul : ∀ w ∈ writes, w.1 % 4 = 0) (hq : q % 4 < 3)
    (hex : ∃ w ∈ writes, w.1 = 4 * (q / 4))
    (hsame : ∀ w ∈ writes, w.1 = 4 * (q / 4) → w.2 = (r, g, b)) :
    (store_all image writes)[q]? = (image[q]?).map (fun _ => pixel_byte r g b (q % 4)) := by
  induction writes generalizing image with
  | nil =>
    obtain ⟨w, hw, _⟩ := hex
    cases hw
  | cons w ws ih =>
    have hmul' : ∀ x ∈ ws, x.1 % 4 = 0 := fun x hx => hmul x (List.mem_cons_of_mem _ hx)
    have hsame' : ∀ x ∈ ws, x.1 = 4 * (q / 4) → x.2 = (r, g, b) :=
      fun x hx => hsame x (List.mem_cons_of_mem _ hx)
    have hstep : store_all image (w :: ws) =
        store_all (store_rgb image w.1 w.2.1 w.2.2.1 w.2.2.2) ws := rfl
    rw [hstep]
    by_cases hlater : ∃ x ∈ ws, x.1 = 4 * (q / 4)
    · rw [ih _ hmul' hlater hsame']
      exact map_const_congr _ _ _
        (isSome_getElem?_of_length _ _ q (store_rgb_length image w.1 _ _ _))
    · have hnone : ∀ x ∈ ws, x.1 ≠ 4 * (q / 4) := fun x hx he => hlater ⟨x, hx, he⟩
      rw [store_all_frame ws _ q hmul' (Or.inr hnone), store_rgb_getElem?]
      have hw : w.1 = 4 * (q / 4) := by
        obtain ⟨x, hx, he⟩ := hex
        rcases List.mem_cons.mp hx with h | h
        · rw [← h]; exact he
        · exact absurd he (hnone x h)
      have hc := hsame w (List.mem_cons_self _ _) hw
      have h1 : q = w.1 ∨ q = w.1 + 1 ∨ q = w.1 + 2 := by omega
      have h2 : q - w.1 = q % 4 := by omega
      rw [if_pos h1, h2]
      have e1 : w.2.1 = r := by rw [hc]
      have e2 : w.2.2.1 = g := by rw [hc]
      have e3 : w.2.2.2 = b := by rw [hc]
      rw [e1, e2, e3]

theorem MT.write_back_eq (options : MT.QuantizeOptions) (centroids : List MT.Centroid)
    (clusters : List Int) :
    MT.write_back options centroids clusters =
      store_all options.image (MT.writes options centroids clusters) := by
  unfold MT.write_back store_all MT.writes
  rw [List.foldl_map]

theorem foldl_flatMap {α β γ : Type} (f : γ → β → γ) (g : α → List β) (l : List α) (init : γ) :
    (l.flatMap g).foldl f init = l.foldl (fun acc a => (g a).foldl f acc) init := by
  induction l generalizing init with
  | nil => rfl
  | cons a as ih => rw [List.flatMap_cons, List.foldl_append, ih, List.foldl_cons]

theorem ST.st_write_back_eq (options : ST.QuantizeOptions) (centroids : List ST.Centroid)
    (clusters : List (List Nat)) :
    ST.write_back options centroids clusters =
      store_all options.image (ST.writes options centroids clusters) := by
  unfold ST.write_back store_all ST.writes
  rw [foldl_flatMap]
  congr 1
  funext image j
  rw [List.foldl_map]

theorem point_off_mod (i : Nat) : point_off i % 4 = 0 ∧ point_off i / 4 ≤ i := by
  unfold point_off u32
  omega

theorem MT.writes_mul (options : MT.QuantizeOptions) (centroids : List MT.Centroid)
    (clusters : List Int) :
    ∀ w ∈ MT.writes options centroids clusters, w.1 % 4 = 0 ∧ w.1 / 4 < options.image_len := by
  intro w hw
  unfold MT.writes at hw
  obtain ⟨i, hi, rfl⟩ := List.mem_map.mp hw
  have := point_off_mod i
  have := List.mem_range.mp hi
  simp only
  omega

theorem getElem?_eq_some_byte_at (image : List Nat) (q v : Nat) (h : image[q]? = some v) :
    byte_at image q = v := by
  unfold byte_at
  rw [List.getD_eq_getElem?_getD, h]
  rfl

/-- The (R,G,B) bytes of pixel `i` after a sequence of stores in which pixel
`i` is addressed, and only with the colour `(r, g, b)`. -/
theorem store_all_pixel (writes : List (Nat × ℚ × ℚ × ℚ)) (image : List Nat) (i N : Nat)
    (r g b : ℚ) (hlen : image.length = 4 * N) (hi : i < N)
    (hmul : ∀ w ∈ writes, w.1 % 4 = 0)
    (hex : ∃ w ∈ writes, w.1 = 4 * i)
    (hsame : ∀ w ∈ writes, w.1 = 4 * i → w.2 = (r, g, b)) :
    pixel_rgb (store_all image writes) i = (to_uchar r, to_uchar g, to_uchar b) := by
  have key : ∀ c, c < 3 →
      (store_all image writes)[4 * i + c]? = some (pixel_byte r g b c) := by
    intro c hc
    have hq : (4 * i + c) / 4 = i := by omega
    have hq' : (4 * i + c) % 4 = c := by omega
    rw [store_all_hit writes image (4 * i + c) r g b hmul (by omega) (by rw [hq]; exact hex)
      (by rw [hq]; exact hsame), hq', List.getElem?_eq_getElem (by omega)]
    rfl
  have k0 := key 0 (by omega)
  rw [Nat.add_zero] at k0
  unfold pixel_rgb
  rw [getElem?_eq_some_byte_at _ _ _ k0,
    getElem?_eq_some_byte_at _ _ _ (key 1 (by omega)),
    getElem?_eq_some_byte_at _ _ _ (key 2 (by omega))]
  rfl

theorem MT.write_back_pixel (options : MT.QuantizeOptions) (centroids : List MT.Centroid)
    (clusters : List Int) (hr : options.in_range) (i : Nat) (hi : i < options.image_len) :
    pixel_rgb (MT.write_back options centroids clusters) i =
      MT.byte_colour (MT.centroid_at_int centroids (clusters.getD i 0)) := by
  obtain ⟨hlen, hN, _, _⟩ := hr
  rw [MT.write_back_eq]
  apply store_all_pixel _ _ i options.image_len _ _ _ hlen hi
  · intro w hw
    exact (MT.writes_mul options centroids clusters w hw).1
  · refine ⟨_, List.mem_map.mpr ⟨i, List.mem_range.mpr hi, rfl⟩, ?_⟩
    exact point_off_of_le i _ hi hN
  · intro w hw he
    obtain ⟨i', hi', rfl⟩ := List.mem_map.mp hw
    have hi'' := List.mem_range.mp hi'
    simp only at he
    rw [point_off_of_le i' _ hi'' hN] at he
    have : i' = i := by omega
    subst this
    rfl

theorem MT.state_after_succ_clusters (options : MT.QuantizeOptions)
    (centroids0 : List MT.Centroid) (clusters0 : List Int) (hr : options.in_range)
    (hT : 1 ≤ options.thread_count) (hcl : clusters0.length = options.image_len) (k : Nat) :
    (MT.state_after options centroids0 clusters0 (k + 1)).2 =
      (List.range options.image_len).map
        (MT.chunk_min_idx options (MT.state_after options centroids0 clusters0 k).1) := by
  show (MT.pass options (MT.state_after options centroids0 clusters0 k).1
    (MT.state_after options centroids0 clusters0 k).2).1.2 = _
  unfold MT.pass
  exact MT.assignment_phase_eq options _ _ hr hT
    (by rw [MT.state_after_clusters_length, hcl])

theorem getD_map_range {α : Type} (f : Nat → α) (N i : Nat) (d : α) (hi : i < N) :
    ((List.range N).map f).getD i d = f i := by
  rw [List.getD_eq_getElem?_getD, List.getElem?_map, List.getElem?_range hi]
  rfl

theorem card_le_of_forall_mem {α : Type} [DecidableEq α] (L : List α) (f : Nat → α) (K : Nat)
    (h : ∀ x ∈ L, ∃ j, j < K ∧ x = f j) : L.toFinset.card ≤ K := by
  have hsub : L.toFinset ⊆ (Finset.range K).image f := by
    intro x hx
    obtain ⟨j, hj, rfl⟩ := h x (List.mem_toFinset.mp hx)
    exact Finset.mem_image.mpr ⟨j, Finset.mem_range.mpr hj, rfl⟩
  calc L.toFinset.card ≤ ((Finset.range K).image f).card := Finset.card_le_card hsub
    _ ≤ (Finset.range K).card := Finset.card_image_le
    _ = K := Finset.card_range K

theorem MT.centroid_at_int_eq (centroids : List MT.Centroid) (a : Int) (h : 0 ≤ a) :
    MT.centroid_at_int centroids a = MT.centroid_at centroids a.toNat := by
  unfold MT.centroid_at_int MT.centroid_at
  rw [if_pos h]

theorem ST.init_clusters_length (clusters : List (List Nat)) (options : ST.QuantizeOptions) :
    (ST.init_clusters clusters options).length = clusters.length := by
  unfold ST.init_clusters
  exact foldl_modify_length _ _ _

theorem ST.st_state_after_clusters_length (options : ST.QuantizeOptions)
    (centroids0 : List ST.Centroid) (k : Nat) :
    (ST.state_after options centroids0 k).2.length = options.cluster_count := by
  induction k with
  | zero =>
    show (ST.init_clusters (List.replicate options.cluster_count []) options).length = _
    rw [ST.init_clusters_length, List.length_replicate]
  | succ k ih =>
    show (ST.pass options (ST.state_after options centroids0 k).1
      (ST.state_after options centroids0 k).2).1.2.length = _
    unfold ST.pass
    simp only
    rw [ST.assign_points_length, ST.init_clusters_length, ih]

theorem ST.st_state_after_succ_clusters (options : ST.QuantizeOptions)
    (centroids0 : List ST.Centroid) (k : Nat) :
    (ST.state_after options centroids0 (k + 1)).2 =
      (List.range options.cluster_count).map
        (fun j => (ST.members options (ST.state_after options centroids0 k).1 j).map
          point_off) := by
  show (ST.pass options (ST.state_after options centroids0 k).1
    (ST.state_after options centroids0 k).2).1.2 = _
  unfold ST.pass
  exact ST.assigned_eq options _ _ (ST.st_state_after_clusters_length options centroids0 k)

theorem ST.mem_writes (options : ST.QuantizeOptions) (centroids prev : List ST.Centroid)
    (w : Nat × ℚ × ℚ × ℚ) :
    w ∈ ST.writes options centroids
        ((List.range options.cluster_count).map
          (fun j => (ST.members options prev j).map point_off)) ↔
      ∃ j, j < options.cluster_count ∧ ∃ i, i < options.image_len ∧
        ST.kmeans_min_idx options prev i = (j : Int) ∧
        w = (point_off i, (ST.centroid_at centroids j).c0, (ST.centroid_at centroids j).c1,
          (ST.centroid_at centroids j).c2) := by
  unfold ST.writes
  rw [List.mem_flatMap]
  constructor
  · rintro ⟨j, hj, hw⟩
    have hj' := List.mem_range.mp hj
    rw [getD_map_range _ _ _ _ hj', List.map_map] at hw
    obtain ⟨i, hi, rfl⟩ := List.mem_map.mp hw
    unfold ST.members at hi
    obtain ⟨hi1, hi2⟩ := List.mem_filter.mp hi
    exact ⟨j, hj', i, List.mem_range.mp hi1, by simpa using hi2, rfl⟩
  · rintro ⟨j, hj, i, hi, hm, rfl⟩
    refine ⟨j, List.mem_range.mpr hj, ?_⟩
    rw [getD_map_range _ _ _ _ hj, List.map_map]
    refine List.mem_map.mpr ⟨i, ?_, rfl⟩
    unfold ST.members
    exact List.mem_filter.mpr ⟨List.mem_range.mpr hi, by simpa using hm⟩

theorem ST.st_write_back_pixel (options : ST.QuantizeOptions) (centroids prev : List ST.Centroid)
    (hr : options.in_range) (hK : 1 ≤ options.cluster_count) (i : Nat)
    (hi : i < options.image_len) :
    pixel_rgb (ST.write_back options centroids
        ((List.range options.cluster_count).map
          (fun j => (ST.members options prev j).map point_off))) i =
      ST.byte_colour (ST.centroid_at centroids (ST.kmeans_min_idx options prev i).toNat) := by
  obtain ⟨h0, hlt, _, _⟩ := ST.st_min_idx_spec options prev hr hK i hi
  obtain ⟨hlen, hN, _⟩ := hr
  rw [ST.st_write_back_eq]
  apply store_all_pixel _ _ i options.image_len _ _ _ hlen hi
  · intro w hw
    obtain ⟨j, _, i', _, _, rfl⟩ := (ST.mem_writes options centroids prev w).mp hw
    exact (point_off_mod i').1
  · refine ⟨_, (ST.mem_writes options centroids prev _).mpr
      ⟨(ST.kmeans_min_idx options prev i).toNat, by omega, i, hi, by omega, rfl⟩, ?_⟩
    exact point_off_of_le i _ hi hN
  · intro w hw he
    obtain ⟨j, _, i', hi', hm, rfl⟩ := (ST.mem_writes options centroids prev w).mp hw
    simp only at he
    rw [point_off_of_le i' _ hi' hN] at he
    have : i' = i := by omega
    subst this
    have : (ST.kmeans_min_idx options prev i').toNat = j := by omega
    rw [this]

/-- The state in which the multi-threaded `kmeans` returns `r`: the image is
written from the final centroids and assignment, which are those of pass `r`,
the assignment being computed from the centroids before the last update. -/
theorem MT.kmeans_returned (options : MT.QuantizeOptions) (centroids0 : List MT.Centroid)
    (clusters0 : List Int) (r : Nat) (hr : options.in_range) (hT : 1 ≤ options.thread_count)
    (hcl : clusters0.length = options.image_len)
    (hret : (MT.kmeans options centroids0 clusters0).outcome = Outcome.returned r) :
    (MT.kmeans options centroids0 clusters0).image =
        MT.write_back options (MT.kmeans options centroids0 clusters0).centroids
          (MT.kmeans options centroids0 clusters0).clusters ∧
      (MT.kmeans options centroids0 clusters0).clusters =
        (List.range options.image_len).map
          (MT.chunk_min_idx options (MT.state_after options centroids0 clusters0 (r - 1)).1) ∧
      (MT.kmeans options centroids0 clusters0).centroids =
        (MT.state_after options centroids0 clusters0 r).1 ∧ 0 < r := by
  obtain ⟨m, _, _, hst, _, hout⟩ := MT.kmeans_spec options centroids0 clusters0
  rcases hout with ⟨a, b, _, d⟩ | ⟨a, _⟩
  · rw [a] at hret
    have hmr : m = r := by injection hret
    subst hmr
    have h1 : (MT.kmeans options centroids0 clusters0).clusters =
        (MT.state_after options centroids0 clusters0 m).2 := by rw [← hst]
    have h2 : (MT.kmeans options centroids0 clusters0).centroids =
        (MT.state_after options centroids0 clusters0 m).1 := by rw [← hst]
    refine ⟨d, ?_, h2, b⟩
    rw [h1]
    have hm : m = (m - 1) + 1 := by omega
    rw [hm, MT.state_after_succ_clusters options centroids0 clusters0 hr hT hcl (m - 1)]
    rfl
  · rw [a] at hret
    cases hret

/-- The state in which the single-threaded `kmeans` returns `r`. -/
theorem ST.st_kmeans_returned (options : ST.QuantizeOptions) (centroids0 : List ST.Centroid)
    (r : Nat) (hret : (ST.kmeans options centroids0).outcome = Outcome.returned r) :
    (ST.kmeans options centroids0).image =
        ST.write_back options (ST.kmeans options centroids0).centroids
          (ST.kmeans options centroids0).clusters ∧
      (ST.kmeans options centroids0).clusters =
        (List.range options.cluster_count).map
          (fun j => (ST.members options (ST.state_after options centroids0 (r - 1)).1 j).map
            point_off) ∧
      (ST.kmeans options centroids0).centroids = (ST.state_after options centroids0 r).1 ∧
      0 < r := by
  obtain ⟨m, _, _, hst, _, hout⟩ := ST.st_kmeans_spec options centroids0
  rcases hout with ⟨a, b, _, d⟩ | ⟨a, _⟩
  · rw [a] at hret
    have hmr : m = r := by injection hret
    subst hmr
    have h1 : (ST.kmeans options centroids0).clusters =
        (ST.state_after options centroids0 m).2 := by rw [← hst]
    have h2 : (ST.kmeans options centroids0).centroids =
        (ST.state_after options centroids0 m).1 := by rw [← hst]
    refine ⟨d, ?_, h2, b⟩
    rw [h1]
    have hm : m = (m - 1) + 1 := by omega
    rw [hm, ST.st_state_after_succ_clusters options centroids0 (m - 1)]
    rfl
  · rw [a] at hret
    cases hret

theorem to_uchar_floor (q : ℚ) (h0 : 0 ≤ q) (h1 : q ≤ 255) : (to_uchar q : Int) = ⌊q⌋ := by
  unfold to_uchar truncf
  rw [if_pos h0]
  have hf0 : 0 ≤ ⌊q⌋ := Int.floor_nonneg.mpr h0
  have hf1 : ⌊q⌋ ≤ 255 := by
    have : ⌊q⌋ ≤ ⌊(255 : ℚ)⌋ := Int.floor_le_floor h1
    simpa using this
  omega

/-- Frame of a sequence of stores at offsets `4 * i` with `i < N`: the length
is kept, every fourth byte is kept, and a byte that differs is one of the
three colour bytes of a pixel below `N`. -/
theorem store_all_only_rgb (writes : List (Nat × ℚ × ℚ × ℚ)) (image : List Nat) (N : Nat)
    (hw : ∀ w ∈ writes, w.1 % 4 = 0 ∧ w.1 / 4 < N) :
    (store_all image writes).length = image.length ∧
      (∀ i, (store_all image writes)[4 * i + 3]? = image[4 * i + 3]?) ∧
      ∀ q, (store_all image writes)[q]? ≠ image[q]? →
        ∃ i c, i < N ∧ c < 3 ∧ q = 4 * i + c := by
  have hmul : ∀ w ∈ writes, w.1 % 4 = 0 := fun w h => (hw w h).1
  refine ⟨store_all_length writes image, ?_, ?_⟩
  · intro i
    exact store_all_frame writes image _ hmul (Or.inl (by omega))
  · intro q hq
    by_cases h3 : q % 4 = 3
    · exact absurd (store_all_frame writes image q hmul (Or.inl h3)) hq
    · by_cases hex : ∃ w ∈ writes, w.1 = 4 * (q / 4)
      · obtain ⟨w, hwm, he⟩ := hex
        have := (hw w hwm).2
        exact ⟨q / 4, q % 4, by omega, by omega, by omega⟩
      · have hnone : ∀ w ∈ writes, w.1 ≠ 4 * (q / 4) := fun w hwm he => hex ⟨w, hwm, he⟩
        exact absurd (store_all_frame writes image q hmul (Or.inr hnone)) hq

theorem ST.st_writes_mul (options : ST.QuantizeOptions) (centroids prev : List ST.Centroid) :
    ∀ w ∈ ST.writes options centroids
        ((List.range options.cluster_count).map
          (fun j => (ST.members options prev j).map point_off)),
      w.1 % 4 = 0 ∧ w.1 / 4 < options.image_len := by
  intro w hw
  obtain ⟨j, _, i, hi, _, rfl⟩ := (ST.mem_writes options centroids prev w).mp hw
  have := point_off_mod i
  simp only
  omega

/-- The comparison of two symbolic square roots is the comparison of the real
square roots. -/
theorem FVal.lt_sqrt_sqrt (a b : ℚ) (ha : 0 ≤ a) :
    FVal.lt (FVal.sqrt a) (FVal.sqrt b) = true ↔ Real.sqrt (a : ℝ) < Real.sqrt (b : ℝ) := by
  have ha' : (0 : ℝ) ≤ (a : ℝ) := by exact_mod_cast ha
  rw [Real.sqrt_lt_sqrt_iff ha']
  simp only [FVal.lt, decide_eq_true_eq, ha, true_and]
  exact_mod_cast Iff.rfl

/-- The comparison of a rational with a symbolic square root is the comparison
over the reals. -/
theorem FVal.lt_rat_sqrt (a b : ℚ) (hb : 0 ≤ b) :
    FVal.lt (FVal.rat a) (FVal.sqrt b) = true ↔ (a : ℝ) < Real.sqrt (b : ℝ) := by
  have hb' : (0 : ℝ) ≤ (b : ℝ) := by exact_mod_cast hb
  simp only [FVal.lt, decide_eq_true_eq, hb, true_and]
  by_cases h0 : a < 0
  · have h0' : (a : ℝ) < 0 := by exact_mod_cast h0
    simp only [h0, true_or, true_iff]
    exact lt_of_lt_of_le h0' (Real.sqrt_nonneg _)
  · have h0' : (0 : ℝ) ≤ (a : ℝ) := by exact_mod_cast (not_lt.mp h0)
    simp only [h0, false_or]
    rw [Real.lt_sqrt h0', sq]
    exact_mod_cast Iff.rfl

/-- The comparison of a symbolic square root with a rational is the comparison
over the reals. -/
theorem FVal.lt_sqrt_rat (a b : ℚ) (ha : 0 ≤ a) :
    FVal.lt (FVal.sqrt a) (FVal.rat b) = true ↔ Real.sqrt (a : ℝ) < (b : ℝ) := by
  have ha' : (0 : ℝ) ≤ (a : ℝ) := by exact_mod_cast ha
  simp only [FVal.lt, decide_eq_true_eq, ha, true_and]
  by_cases h0 : 0 < b
  · have h0' : (0 : ℝ) < (b : ℝ) := by exact_mod_cast h0
    simp only [h0, true_and]
    rw [Real.sqrt_lt' h0', sq]
    exact_mod_cast Iff.rfl
  · have h0' : (b : ℝ) ≤ 0 := by exact_mod_cast (not_lt.mp h0)
    simp only [h0, false_and, false_iff, not_lt]
    exact le_trans h0' (Real.sqrt_nonneg _)

/-- The threshold test on the relative change in terms of rationals: with a
non-zero previous value it is the test of the quotient, with a zero previous
value it holds exactly when the new value is non-zero. -/
theorem relative_change_gt_iff (new prev t : ℚ) :
    FloatX.gt (relative_change new prev) t = true ↔
      (prev ≠ 0 ∧ t < |new - prev| / prev) ∨ (prev = 0 ∧ new ≠ 0) := by
  unfold relative_change fdiv
  by_cases h0 : prev = 0
  · subst h0
    simp only [sub_zero, if_true, ne_eq, not_true_eq_false, false_and, true_and, false_or]
    by_cases hn : new = 0
    · subst hn
      simp [FloatX.gt]
    · have habs : 0 < |new| := abs_pos.mpr hn
      have habs' : ¬ |new| = 0 := ne_of_gt habs
      simp [hn, habs, habs', FloatX.gt]
  · simp [h0, FloatX.gt]

theorem int32_of_range (z : Int) (h0 : -2147483648 ≤ z) (h1 : z < 2147483648) : int32 z = z := by
  unfold int32
  omega

theorem truncf_nonneg (q : ℚ) (h : 0 ≤ q) : truncf q = ⌊q⌋ := by
  unfold truncf
  rw [if_pos h]

/-- Over exact arithmetic the index is the floor of `4 * (v / RAND_MAX) * (N - 1)`
and lies between 0 and `4 * (N - 1)`. -/
theorem rand_index_bounds (rand_max v N : Nat) (hR : 0 < rand_max) (hv : v ≤ rand_max)
    (hN : 1 ≤ N) (hsize : 4 * N ≤ 2147483648) :
    rand_index rand_max v N = ⌊4 * ((v : ℚ) / (rand_max : ℚ)) * ((N - 1 : Nat) : ℚ)⌋ ∧
      0 ≤ rand_index rand_max v N ∧ rand_index rand_max v N ≤ 4 * ((N - 1 : Nat) : Int) := by
  have hu : u32 (N + 4294967295) = N - 1 := by
    unfold u32
    omega
  have hRq : (0 : ℚ) < (rand_max : ℚ) := by exact_mod_cast hR
  have hfrac0 : (0 : ℚ) ≤ (v : ℚ) / (rand_max : ℚ) :=
    div_nonneg (Nat.cast_nonneg _) (Nat.cast_nonneg _)
  have hfrac1 : (v : ℚ) / (rand_max : ℚ) ≤ 1 := by
    rw [div_le_one hRq]
    exact_mod_cast hv
  have hn0 : (0 : ℚ) ≤ ((N - 1 : Nat) : ℚ) := Nat.cast_nonneg _
  have hq0 : (0 : ℚ) ≤ 4 * ((v : ℚ) / (rand_max : ℚ)) * ((N - 1 : Nat) : ℚ) :=
    mul_nonneg (mul_nonneg (by norm_num) hfrac0) hn0
  have hq1 : 4 * ((v : ℚ) / (rand_max : ℚ)) * ((N - 1 : Nat) : ℚ) ≤
      ((4 * ((N - 1 : Nat) : Int) : Int) : ℚ) := by
    push_cast
    have h4 : 4 * ((v : ℚ) / (rand_max : ℚ)) ≤ 4 := by linarith
    exact mul_le_mul_of_nonneg_right h4 hn0
  have hf0 : 0 ≤ ⌊4 * ((v : ℚ) / (rand_max : ℚ)) * ((N - 1 : Nat) : ℚ)⌋ :=
    Int.floor_nonneg.mpr hq0
  have hf1 : ⌊4 * ((v : ℚ) / (rand_max : ℚ)) * ((N - 1 : Nat) : ℚ)⌋ ≤ 4 * ((N - 1 : Nat) : Int) :=
    Int.floor_le_iff.mpr (lt_of_le_of_lt hq1 (by push_cast; linarith))
  have heq : rand_index rand_max v N =
      ⌊4 * ((v : ℚ) / (rand_max : ℚ)) * ((N - 1 : Nat) : ℚ)⌋ := by
    unfold rand_index float_to_int
    rw [hu, one_mul, truncf_nonneg _ hq0, int32_of_range _ (by omega) (by omega)]
  rw [heq]
  exact ⟨rfl, hf0, hf1⟩

/-- The channel test of `update_centroids` for a previous value that is exactly
zero: infinite quotient for a non-zero new value, NaN for a zero new value. -/
theorem rel_change_exceeds_zero_prev (new t : ℚ) :
    rel_change_exceeds new 0 t = true ↔ new ≠ 0 := by
  unfold rel_change_exceeds fdiv
  simp only [sub_zero, if_true]
  by_cases hn : new = 0
  · subst hn
    simp [FloatX.abs, FloatX.gt]
  · by_cases hpos : 0 < new
    · simp [hn, hpos, FloatX.abs, FloatX.gt]
    · simp [hn, hpos, FloatX.abs, FloatX.gt]

theorem MT.exceeds_of_zero_prev (t : ℚ) (c : MT.Centroid)
    (h : (c.prev_r = 0 ∧ c.r ≠ 0) ∨ (c.prev_g = 0 ∧ c.g ≠ 0) ∨ (c.prev_b = 0 ∧ c.b ≠ 0)) :
    MT.exceeds t c = true := by
  unfold MT.exceeds
  rcases h with ⟨h0, hn⟩ | ⟨h0, hn⟩ | ⟨h0, hn⟩
  · rw [h0, (rel_change_exceeds_zero_prev _ t).mpr hn]
    simp
  · rw [h0, (rel_change_exceeds_zero_prev _ t).mpr hn]
    simp
  · rw [h0, (rel_change_exceeds_zero_prev _ t).mpr hn]
    simp

theorem ST.st_exceeds_of_zero_prev (t : ℚ) (new old : ST.Centroid)
    (h : (old.c0 = 0 ∧ new.c0 ≠ 0) ∨ (old.c1 = 0 ∧ new.c1 ≠ 0) ∨ (old.c2 = 0 ∧ new.c2 ≠ 0)) :
    ST.exceeds t new old = true := by
  unfold ST.exceeds
  rcases h with ⟨h0, hn⟩ | ⟨h0, hn⟩ | ⟨h0, hn⟩
  · rw [h0, (rel_change_exceeds_zero_prev _ t).mpr hn]
    simp
  · rw [h0, (rel_change_exceeds_zero_prev _ t).mpr hn]
    simp
  · rw [h0, (rel_change_exceeds_zero_prev _ t).mpr hn]
    simp

theorem MT.chunk_points_empty (options : MT.QuantizeOptions) (t : Nat)
    (hN : options.image_len = 0) : MT.chunk_points t options = [] := by
  unfold MT.chunk_points
  simp only [takeWhile_lt_range', hN]
  simp

theorem MT.assignment_phase_empty (options : MT.QuantizeOptions) (centroids : List MT.Centroid)
    (clusters : List Int) (hN : options.image_len = 0) :
    MT.assignment_phase options centroids clusters = clusters := by
  unfold MT.assignment_phase
  have h : ∀ (ts : List Nat) (cl : List Int),
      ts.foldl (fun clusters thread_id => MT.chunk thread_id options centroids clusters) cl = cl := by
    intro ts
    induction ts with
    | nil => intro cl; rfl
    | cons t ts ih =>
      intro cl
      rw [List.foldl_cons, ih]
      unfold MT.chunk
      rw [MT.chunk_points_empty options t hN]
      rfl
  exact h _ _

theorem MT.pass_empty (options : MT.QuantizeOptions) (clusters : List Int)
    (hK : options.cluster_count = 0) (hN : options.image_len = 0) :
    MT.pass options [] clusters = (([], clusters), false) := by
  unfold MT.pass
  simp only [MT.assignment_phase_empty options [] clusters hN]
  unfold MT.update_centroids
  simp [hK, hN]

theorem ST.st_pass_empty (options : ST.QuantizeOptions) (clusters : List (List Nat))
    (hK : options.cluster_count = 0) (hN : options.image_len = 0) :
    ST.pass options [] clusters = (([], clusters), false) := by
  unfold ST.pass ST.update_centroids ST.assign_points ST.init_clusters
  simp [hK, hN]

theorem MT.chunk_points_nodup (options : MT.QuantizeOptions) (t : Nat) :
    (MT.chunk_points t options).Nodup := by
  unfold MT.chunk_points
  simp only [takeWhile_lt_range']
  exact List.nodup_range' _ _

theorem MT.chunk_points_disjoint (options : MT.QuantizeOptions) (hr : options.in_range)
    (hT : 1 ≤ options.thread_count) (t t' : Nat) (ht : t < options.thread_count)
    (ht' : t' < options.thread_count) (hne : t ≠ t') (i : Nat)
    (hi : i ∈ MT.chunk_points t options) : i ∉ MT.chunk_points t' options := by
  intro hi'
  rw [MT.chunk_points_eq options hr hT t ht, List.mem_range'_1] at hi
  rw [MT.chunk_points_eq options hr hT t' ht', List.mem_range'_1] at hi'
  obtain ⟨p, hp⟩ : ∃ p, p = options.image_len / options.thread_count + 1 := ⟨_, rfl⟩
  rw [← hp] at hi hi'
  rcases Nat.lt_or_gt_of_ne hne with hlt | hgt
  · have h1 : (t + 1) * p ≤ t' * p := Nat.mul_le_mul_right p hlt
    rw [Nat.add_mul, Nat.one_mul] at h1
    omega
  · have h1 : (t' + 1) * p ≤ t * p := Nat.mul_le_mul_right p hgt
    rw [Nat.add_mul, Nat.one_mul] at h1
    omega

theorem MT.chunk_points_union (options : MT.QuantizeOptions) (hr : options.in_range)
    (hT : 1 ≤ options.thread_count) (i : Nat) :
    (∃ t, t < options.thread_count ∧ i ∈ MT.chunk_points t options) ↔
      i < options.image_len := by
  constructor
  · rintro ⟨t, _, hi⟩
    exact MT.chunk_points_lt options t i hi
  · exact MT.chunk_points_cover options hr hT i

theorem MT.write_back_congr (options options' : MT.QuantizeOptions)
    (centroids : List MT.Centroid) (clusters : List Int)
    (h1 : options'.image = options.image) (h2 : options'.image_len = options.image_len) :
    MT.write_back options' centroids clusters = MT.write_back options centroids clusters := by
  unfold MT.write_back
  rw [h1, h2]

theorem MT.kmeans_loop_congr (options options' : MT.QuantizeOptions)
    (hsame : MT.same_input options options')
    (hr : options.in_range) (hr' : options'.in_range)
    (hT : 1 ≤ options.thread_count) (hT' : 1 ≤ options'.thread_count) (remaining : Nat) :
    ∀ (it : Nat) (s : MT.LoopState), s.clusters.length = options.image_len →
      MT.kmeans_loop options' remaining it s = MT.kmeans_loop options remaining it s := by
  induction remaining with
  | zero =>
    intro it s _
    rfl
  | succ n ih =>
    intro it s hs
    have hp := MT.pass_congr options options' s.centroids s.clusters s.clusters hsame hr hr'
      hT hT' hs hs
    simp only [MT.kmeans_loop, hp]
    split
    · rfl
    · apply ih
      simp only
      rw [MT.pass_clusters_length, hs]

theorem MT.kmeans_congr (options options' : MT.QuantizeOptions) (centroids0 : List MT.Centroid)
    (clusters0 : List Int) (hsame : MT.same_input options options')
    (hlimit : options'.iteration_limit = options.iteration_limit)
    (hr : options.in_range) (hr' : options'.in_range)
    (hT : 1 ≤ options.thread_count) (hT' : 1 ≤ options'.thread_count)
    (hcl : clusters0.length = options.image_len) :
    MT.kmeans options' centroids0 clusters0 = MT.kmeans options centroids0 clusters0 := by
  unfold MT.kmeans
  simp only
  rw [hlimit, MT.kmeans_loop_congr options options' hsame hr hr' hT hT' _ 0 _ hcl]
  split
  · rw [hsame.1]
  · rw [MT.write_back_congr options options' _ _ hsame.1 hsame.2.1]

theorem MT.members_one (options : MT.QuantizeOptions) :
    MT.members options ((List.range options.image_len).map (fun _ => (0 : Int))) 0 =
      List.range options.image_len := by
  unfold MT.members
  apply List.filter_eq_self.mpr
  intro i hi
  have hi' := List.mem_range.mp hi
  simp [List.getD_eq_getElem?_getD, List.getElem?_map, List.getElem?_range hi']

theorem MT.single_threaded_in_range (o : MT.QuantizeOptions) (hr : o.in_range) :
    (MT.single_threaded o).in_range := ⟨hr.1, hr.2.1, hr.2.2.1⟩

theorem MT.centroid_at_colour (cs : List MT.Centroid) (j : Nat) :
    ST.centroid_at (cs.map MT.colour) j = MT.colour (MT.centroid_at cs j) := by
  unfold ST.centroid_at MT.centroid_at
  rw [List.getD_eq_getElem?_getD, List.getD_eq_getElem?_getD, List.getElem?_map]
  cases cs[j]? <;> rfl

theorem MT.min_idx_colour (o : MT.QuantizeOptions) (cs : List MT.Centroid) (i : Nat)
    (hK : o.cluster_count ≤ 2147483648) :
    ST.kmeans_min_idx (MT.single_threaded o) (cs.map MT.colour) i = MT.chunk_min_idx o cs i := by
  rw [ST.st_min_idx_eq _ _ _ hK, MT.min_idx_eq o cs i hK]
  have hkey : (fun j => ST.distance_from_centroid (ST.centroid_at (cs.map MT.colour) j)
      (MT.single_threaded o).image (point_off i)) = MT.radicand cs o.image (point_off i) := by
    funext j
    rw [ST.st_distance_eq, MT.centroid_at_colour]
    rfl
  rw [hkey]
  rfl

theorem MT.members_colour (o : MT.QuantizeOptions) (cs : List MT.Centroid) (j : Nat)
    (hK : o.cluster_count ≤ 2147483648) :
    ST.members (MT.single_threaded o) (cs.map MT.colour) j =
      MT.members o ((List.range o.image_len).map (MT.chunk_min_idx o cs)) j := by
  unfold ST.members MT.members
  apply List.filter_congr
  intro i hi
  have hi' : i < o.image_len := List.mem_range.mp hi
  rw [MT.min_idx_colour o cs i hK, getD_map_range _ _ _ _ hi']

theorem channel_sum_point_off (image : List Nat) (l : List Nat) (N channel : Nat)
    (hN : 4 * N ≤ 4294967296) (hl : ∀ i ∈ l, i < N) :
    ST.channel_sum image (l.map point_off) channel = channel_total image l channel := by
  rw [ST.channel_sum_eq, List.map_map]
  unfold channel_total
  congr 1
  apply List.map_congr_left
  intro i hi
  simp only [Function.comp, point_off_of_le i N (hl i hi) hN]

theorem MT.updated_colour (o : MT.QuantizeOptions) (clusters : List Int) (c : MT.Centroid)
    (j : Nat) (hN : 4 * o.image_len ≤ 4294967296) (hj : j < o.cluster_count) :
    ST.updated (MT.single_threaded o) (MT.cluster_vectors o clusters) j =
      MT.colour (MT.updated o clusters c j) := by
  have hmem : ∀ i ∈ MT.members o clusters j, i < o.image_len := by
    intro i hi
    unfold MT.members at hi
    exact List.mem_range.mp (List.mem_filter.mp hi).1
  have hget : (MT.cluster_vectors o clusters).getD j [] =
      (MT.members o clusters j).map point_off := by
    unfold MT.cluster_vectors
    rw [getD_map_range _ _ _ _ hj]
  unfold ST.updated MT.updated MT.divide MT.colour ST.new_channel
  rw [hget]
  simp only [List.length_map, MT.single_threaded,
    channel_sum_point_off _ _ _ _ hN hmem]
  split <;> rfl

theorem MT.exceeds_colour (t : ℚ) (o : MT.QuantizeOptions) (clusters : List Int)
    (c : MT.Centroid) (j : Nat) :
    ST.exceeds t (MT.colour (MT.updated o clusters c j)) (MT.colour c) =
      MT.exceeds t (MT.updated o clusters c j) := by
  obtain ⟨_, h1, h2, h3⟩ := MT.updated_fields o clusters c j
  unfold ST.exceeds MT.exceeds MT.colour
  simp only [h1, h2, h3]

theorem MT.update_colour (o : MT.QuantizeOptions) (cs : List MT.Centroid) (clusters : List Int)
    (hN : 4 * o.image_len ≤ 4294967296) (hlen : cs.length = o.cluster_count) :
    ST.update_centroids (cs.map MT.colour) (MT.cluster_vectors o clusters)
        (MT.single_threaded o) =
      ((MT.update_centroids cs clusters o).1.map MT.colour,
        (MT.update_centroids cs clusters o).2) := by
  apply Prod.ext
  · apply List.ext_getElem?
    intro j
    simp only
    rw [ST.st_update_centroids_getElem? _ _ _ (by rw [List.length_map, hlen]; rfl),
      List.getElem?_map, List.getElem?_map, MT.update_centroids_getElem? _ _ _ hlen hN]
    by_cases hj : j < o.cluster_count
    · rw [List.getElem?_eq_getElem (by omega)]
      simp only [Option.map_some']
      rw [MT.updated_colour o clusters _ j hN hj]
    · rw [List.getElem?_eq_none (by omega)]
      rfl
  · simp only
    rw [ST.st_update_centroids_snd, MT.update_centroids_snd _ _ _ hlen hN]
    apply any_congr_mem
    intro j hj
    have hj' := List.mem_range.mp hj
    rw [MT.updated_colour o clusters (MT.centroid_at cs j) j hN hj', MT.centroid_at_colour,
      MT.exceeds_colour]

theorem MT.pass_colour (o : MT.QuantizeOptions) (cs : List MT.Centroid) (clusters : List Int)
    (vectors : List (List Nat)) (hr : o.in_range) (hT : 1 ≤ o.thread_count)
    (hlen : cs.length = o.cluster_count) (hcl : clusters.length = o.image_len)
    (hv : vectors.length = o.cluster_count) :
    ST.pass (MT.single_threaded o) (cs.map MT.colour) vectors =
      (((MT.pass o cs clusters).1.1.map MT.colour,
        MT.cluster_vectors o (MT.pass o cs clusters).1.2), (MT.pass o cs clusters).2) := by
  have hphase : ST.assign_points (MT.single_threaded o) (cs.map MT.colour)
      (ST.init_clusters vectors (MT.single_threaded o)) =
      MT.cluster_vectors o (MT.assignment_phase o cs clusters) := by
    rw [ST.assigned_eq _ _ _ hv, MT.assignment_phase_eq o cs clusters hr hT hcl]
    unfold MT.cluster_vectors
    apply List.map_congr_left
    intro j _
    rw [MT.members_colour o cs j hr.2.2.1]
  unfold ST.pass MT.pass
  simp only
  rw [hphase, MT.update_colour o cs _ hr.2.1 hlen]

theorem MT.state_after_centroids_length (o : MT.QuantizeOptions) (cs0 : List MT.Centroid)
    (clusters0 : List Int) (k : Nat) :
    (MT.state_after o cs0 clusters0 k).1.length = cs0.length := by
  induction k with
  | zero => rfl
  | succ k ih =>
    show (MT.pass o (MT.state_after o cs0 clusters0 k).1
      (MT.state_after o cs0 clusters0 k).2).1.1.length = _
    unfold MT.pass
    simp only
    rw [MT.update_centroids_length, ih]

theorem MT.state_after_colour (o : MT.QuantizeOptions) (cs0 : List MT.Centroid)
    (clusters0 : List Int) (hr : o.in_range) (hT : 1 ≤ o.thread_count)
    (hlen : cs0.length = o.cluster_count) (hcl : clusters0.length = o.image_len) (k : Nat) :
    (ST.state_after (MT.single_threaded o) (cs0.map MT.colour) k).1 =
        (MT.state_after o cs0 clusters0 k).1.map MT.colour ∧
      ST.state_after (MT.single_threaded o) (cs0.map MT.colour) (k + 1) =
        ((MT.state_after o cs0 clusters0 (k + 1)).1.map MT.colour,
          MT.cluster_vectors o (MT.state_after o cs0 clusters0 (k + 1)).2) ∧
      ST.changed_at (MT.single_threaded o) (cs0.map MT.colour) k =
        MT.changed_at o cs0 clusters0 k := by
  induction k with
  | zero =>
    have hp := MT.pass_colour o cs0 clusters0
      (ST.init_clusters (List.replicate o.cluster_count []) (MT.single_threaded o)) hr hT hlen hcl
      (by rw [ST.init_clusters_length, List.length_replicate])
    refine ⟨rfl, ?_, ?_⟩
    · show (ST.pass (MT.single_threaded o) (cs0.map MT.colour)
        (ST.init_clusters (List.replicate o.cluster_count []) (MT.single_threaded o))).1 = _
      rw [hp]
      rfl
    · show (ST.pass (MT.single_threaded o) (cs0.map MT.colour)
        (ST.init_clusters (List.replicate o.cluster_count []) (MT.single_threaded o))).2 = _
      rw [hp]
      rfl
  | succ k ih =>
    have hp := MT.pass_colour o (MT.state_after o cs0 clusters0 (k + 1)).1
      (MT.state_after o cs0 clusters0 (k + 1)).2
      (MT.cluster_vectors o (MT.state_after o cs0 clusters0 (k + 1)).2) hr hT
      (by rw [MT.state_after_centroids_length, hlen])
      (by rw [MT.state_after_clusters_length, hcl])
      (by unfold MT.cluster_vectors; rw [List.length_map, List.length_range])
    refine ⟨by rw [ih.2.1], ?_, ?_⟩
    · show (ST.pass _ (ST.state_after _ _ (k + 1)).1 (ST.state_after _ _ (k + 1)).2).1 = _
      rw [ih.2.1, hp]
      rfl
    · show (ST.pass _ (ST.state_after _ _ (k + 1)).1 (ST.state_after _ _ (k + 1)).2).2 = _
      rw [ih.2.1, hp]
      rfl

theorem store_all_congr (writes writes' : List (Nat × ℚ × ℚ × ℚ)) (image : List Nat)
    (hmul : ∀ w ∈ writes, w.1 % 4 = 0) (hmul' : ∀ w ∈ writes', w.1 % 4 = 0)
    (h : ∀ p, ((∀ w ∈ writes, w.1 ≠ 4 * p) ∧ (∀ w ∈ writes', w.1 ≠ 4 * p)) ∨
      ∃ c : ℚ × ℚ × ℚ, (∃ w ∈ writes, w.1 = 4 * p) ∧ (∃ w ∈ writes', w.1 = 4 * p) ∧
        (∀ w ∈ writes, w.1 = 4 * p → w.2 = c) ∧ (∀ w ∈ writes', w.1 = 4 * p → w.2 = c)) :
    store_all image writes = store_all image writes' := by
  apply List.ext_getElem?
  intro q
  by_cases h3 : q % 4 = 3
  · rw [store_all_frame writes image q hmul (Or.inl h3),
      store_all_frame writes' image q hmul' (Or.inl h3)]
  · rcases h (q / 4) with ⟨hn, hn'⟩ | ⟨⟨r, g, b⟩, hex, hex', hs, hs'⟩
    · rw [store_all_frame writes image q hmul (Or.inr hn),
        store_all_frame writes' image q hmul' (Or.inr hn')]
    · rw [store_all_hit writes image q r g b hmul (by omega) hex hs,
        store_all_hit writes' image q r g b hmul' (by omega) hex' hs']

theorem MT.cluster_vectors_colour (o : MT.QuantizeOptions) (prev : List MT.Centroid)
    (hK : o.cluster_count ≤ 2147483648) :
    MT.cluster_vectors o ((List.range o.image_len).map (MT.chunk_min_idx o prev)) =
      (List.range (MT.single_threaded o).cluster_count).map
        (fun j => (ST.members (MT.single_threaded o) (prev.map MT.colour) j).map point_off) := by
  unfold MT.cluster_vectors
  apply List.map_congr_left
  intro j _
  rw [MT.members_colour o prev j hK]

theorem MT.write_back_colour (o : MT.QuantizeOptions) (cs prev : List MT.Centroid)
    (hr : o.in_range) (hK : 1 ≤ o.cluster_count) :
    ST.write_back (MT.single_threaded o) (cs.map MT.colour)
        (MT.cluster_vectors o ((List.range o.image_len).map (MT.chunk_min_idx o prev))) =
      MT.write_back o cs ((List.range o.image_len).map (MT.chunk_min_idx o prev)) := by
  have hN := hr.2.1
  rw [MT.cluster_vectors_colour o prev hr.2.2.1, ST.st_write_back_eq, MT.write_back_eq]
  apply store_all_congr
  · intro w hw
    exact (ST.st_writes_mul _ _ _ w hw).1
  · intro w hw
    exact (MT.writes_mul _ _ _ w hw).1
  · intro p
    by_cases hp : p < o.image_len
    · right
      obtain ⟨h0, hlt, _, _⟩ := MT.min_idx_spec o prev hr hK p hp
      refine ⟨((MT.centroid_at cs (MT.chunk_min_idx o prev p).toNat).r,
        (MT.centroid_at cs (MT.chunk_min_idx o prev p).toNat).g,
        (MT.centroid_at cs (MT.chunk_min_idx o prev p).toNat).b), ?_, ?_, ?_, ?_⟩
      · refine ⟨_, (ST.mem_writes _ _ _ _).mpr
          ⟨(MT.chunk_min_idx o prev p).toNat, by show _ < o.cluster_count; omega, p, hp,
            by rw [MT.min_idx_colour o prev p hr.2.2.1]; omega, rfl⟩, ?_⟩
        exact point_off_of_le p _ hp hN
      · refine ⟨_, List.mem_map.mpr ⟨p, List.mem_range.mpr hp, rfl⟩, ?_⟩
        exact point_off_of_le p _ hp hN
      · intro w hw he
        obtain ⟨j, _, i, hi, hm, rfl⟩ := (ST.mem_writes _ _ _ w).mp hw
        have hi' : i < o.image_len := hi
        simp only at he
        rw [point_off_of_le i _ hi' hN] at he
        have hip : i = p := by omega
        subst hip
        rw [MT.min_idx_colour o prev i hr.2.2.1] at hm
        have hj : (MT.chunk_min_idx o prev i).toNat = j := by omega
        simp only [hj, MT.centroid_at_colour, MT.colour]
      · intro w hw he
        unfold MT.writes at hw
        obtain ⟨i, hi, rfl⟩ := List.mem_map.mp hw
        have hi' := List.mem_range.mp hi
        simp only at he
        rw [point_off_of_le i _ hi' hN] at he
        have hip : i = p := by omega
        subst hip
        simp only [getD_map_range _ _ _ _ hi', MT.centroid_at_int_eq _ _ h0]
    · left
      constructor
      · intro w hw he
        have := (ST.st_writes_mul _ _ _ w hw).2
        have hlt : w.1 / 4 < o.image_len := this
        omega
      · intro w hw he
        have := (MT.writes_mul _ _ _ w hw).2
        omega

theorem MT.kmeans_colour (o : MT.QuantizeOptions) (cs0 : List MT.Centroid)
    (clusters0 : List Int) (hr : o.in_range) (hT : 1 ≤ o.thread_count)
    (hK : 1 ≤ o.cluster_count) (hlen : cs0.length = o.cluster_count)
    (hcl : clusters0.length = o.image_len) :
    (ST.kmeans (MT.single_threaded o) (cs0.map MT.colour)).outcome =
        (MT.kmeans o cs0 clusters0).outcome ∧
      (ST.kmeans (MT.single_threaded o) (cs0.map MT.colour)).image =
        (MT.kmeans o cs0 clusters0).image ∧
      (ST.kmeans (MT.single_threaded o) (cs0.map MT.colour)).trace =
        (MT.kmeans o cs0 clusters0).trace ∧
      (ST.kmeans (MT.single_threaded o) (cs0.map MT.colour)).centroids =
        (MT.kmeans o cs0 clusters0).centroids.map MT.colour := by
  obtain ⟨m, hm, htr, hst, hall, hout⟩ := MT.kmeans_spec o cs0 clusters0
  obtain ⟨m', hm', htr', hst', hall', hout'⟩ :=
    ST.st_kmeans_spec (MT.single_threaded o) (cs0.map MT.colour)
  have hch : ST.changed_at (MT.single_threaded o) (cs0.map MT.colour) =
      MT.changed_at o cs0 clusters0 := by
    funext k
    exact (MT.state_after_colour o cs0 clusters0 hr hT hlen hcl k).2.2
  rw [hch] at htr' hall' hout'
  have hlimit : (MT.single_threaded o).iteration_limit = o.iteration_limit := rfl
  rw [hlimit] at hm' hout'
  have huniq := outcome_unique (MT.changed_at o cs0 clusters0) o.iteration_limit m m'
    (MT.kmeans o cs0 clusters0).outcome
    (ST.kmeans (MT.single_threaded o) (cs0.map MT.colour)).outcome hm hm' hall hall'
    (by
      rcases hout with ⟨a, b, c, _⟩ | ⟨a, b, c, _⟩
      · exact Or.inl ⟨a, b, c⟩
      · exact Or.inr ⟨a, b, c⟩)
    (by
      rcases hout' with ⟨a, b, c, _⟩ | ⟨a, b, c, _⟩
      · exact Or.inl ⟨a, b, c⟩
      · exact Or.inr ⟨a, b, c⟩)
  obtain ⟨hoc, hmm⟩ := huniq
  subst hmm
  have hcs : (ST.kmeans (MT.single_threaded o) (cs0.map MT.colour)).centroids =
      (MT.kmeans o cs0 clusters0).centroids.map MT.colour := by
    have h1 : (ST.kmeans (MT.single_threaded o) (cs0.map MT.colour)).centroids =
        (ST.state_after (MT.single_threaded o) (cs0.map MT.colour) m').1 := by rw [← hst']
    have h2 : (MT.kmeans o cs0 clusters0).centroids = (MT.state_after o cs0 clusters0 m').1 := by
      rw [← hst]
    rw [h1, h2]
    exact (MT.state_after_colour o cs0 clusters0 hr hT hlen hcl m').1
  refine ⟨hoc, ?_, by rw [htr, htr'], hcs⟩
  rcases hout with ⟨a, b, _, d⟩ | ⟨a, _, _, d⟩
  · rcases hout' with ⟨a', _, _, d'⟩ | ⟨a', _⟩
    · rw [d, d', hcs]
      have hm1 : m' = (m' - 1) + 1 := by omega
      have h1 : (ST.kmeans (MT.single_threaded o) (cs0.map MT.colour)).clusters =
          MT.cluster_vectors o (MT.state_after o cs0 clusters0 m').2 := by
        have : (ST.kmeans (MT.single_threaded o) (cs0.map MT.colour)).clusters =
            (ST.state_after (MT.single_threaded o) (cs0.map MT.colour) m').2 := by rw [← hst']
        rw [this, hm1, (MT.state_after_colour o cs0 clusters0 hr hT hlen hcl (m' - 1)).2.1]
      have h2 : (MT.kmeans o cs0 clusters0).clusters =
          (MT.state_after o cs0 clusters0 m').2 := by rw [← hst]
      have h3 : (MT.state_after o cs0 clusters0 m').2 =
          (List.range o.image_len).map
            (MT.chunk_min_idx o (MT.state_after o cs0 clusters0 (m' - 1)).1) := by
        rw [hm1, MT.state_after_succ_clusters o cs0 clusters0 hr hT hcl (m' - 1)]
        rfl
      rw [h1, h2, h3]
      exact MT.write_back_colour o _ _ hr hK
    · rw [a, a'] at hoc
      cases hoc
  · rcases hout' with ⟨a', _⟩ | ⟨_, _, _, d'⟩
    · rw [a, a'] at hoc
      cases hoc
    · rw [d, d']
      rfl

theorem MT.init_centroids_colour (o : MT.QuantizeOptions) (rand_max : Nat) (rand : Nat → Nat)
    (hK : 3 ≤ o.cluster_count) :
    ST.init_centroids (MT.single_threaded o) rand_max rand =
      some ((MT.init_centroids o rand_max rand).map MT.colour) := by
  unfold ST.init_centroids MT.init_centroids
  have h : ¬ (0 < (MT.single_threaded o).cluster_count ∧
      (MT.single_threaded o).cluster_count < 3) := by
    intro h
    have : (MT.single_threaded o).cluster_count < 3 := h.2
    have h2 : (MT.single_threaded o).cluster_count = o.cluster_count := rfl
    omega
  rw [if_neg h, List.map_map]
  rfl

theorem MT.min_idx_rgb_congr (o o' : MT.QuantizeOptions) (cs : List MT.Centroid)
    (hsame : MT.same_rgb o o') (hN : 4 * o.image_len ≤ 4294967296) (i : Nat)
    (hi : i < o.image_len) :
    MT.chunk_min_idx o' cs i = MT.chunk_min_idx o cs i := by
  obtain ⟨h1, h2, h3⟩ := hsame
  unfold MT.chunk_min_idx
  rw [h2]
  congr 1
  apply foldl_congr_mem
  intro st j _
  have hd : ∀ c : MT.Centroid, MT.distance_from_centroid c o'.image (point_off i) =
      MT.distance_from_centroid c o.image (point_off i) := by
    intro c
    unfold MT.distance_from_centroid
    have e0 := h3 i 0 hi (by omega)
    rw [Nat.add_zero] at e0
    simp only [point_off_of_le i _ hi hN, e0, h3 i 1 hi (by omega), h3 i 2 hi (by omega)]
  simp only [MT.min_step, hd]

theorem MT.update_rgb_congr (o o' : MT.QuantizeOptions) (cs : List MT.Centroid)
    (clusters : List Int) (hsame : MT.same_rgb o o') (hN : 4 * o.image_len ≤ 4294967296) :
    MT.update_centroids cs clusters o' = MT.update_centroids cs clusters o := by
  obtain ⟨h1, h2, h3⟩ := hsame
  unfold MT.update_centroids
  simp only
  rw [h1, h2]
  congr 1
  congr 1
  apply foldl_congr_mem
  intro st i hi
  have hi' := List.mem_range.mp hi
  have e0 := h3 i 0 hi' (by omega)
  rw [Nat.add_zero] at e0
  unfold MT.accumulate
  simp only [point_off_of_le i _ hi' hN, e0, h3 i 1 hi' (by omega), h3 i 2 hi' (by omega)]

theorem MT.pass_rgb_congr (o o' : MT.QuantizeOptions) (cs : List MT.Centroid)
    (clusters clusters' : List Int) (hsame : MT.same_rgb o o')
    (hr : o.in_range) (hr' : o'.in_range)
    (hT : 1 ≤ o.thread_count) (hT' : 1 ≤ o'.thread_count)
    (hcl : clusters.length = o.image_len) (hcl' : clusters'.length = o.image_len) :
    MT.pass o' cs clusters' = MT.pass o cs clusters := by
  have hphase : MT.assignment_phase o' cs clusters' = MT.assignment_phase o cs clusters := by
    rw [MT.assignment_phase_eq o cs clusters hr hT hcl,
      MT.assignment_phase_eq o' cs clusters' hr' hT' (by rw [hcl', hsame.1]), hsame.1]
    apply List.map_congr_left
    intro i hi
    exact MT.min_idx_rgb_congr o o' cs hsame hr.2.1 i (List.mem_range.mp hi)
  unfold MT.pass
  simp only
  rw [hphase, MT.update_rgb_congr o o' cs _ hsame hr.2.1]

theorem MT.state_after_rgb_congr (o o' : MT.QuantizeOptions)
    (cs0 : List MT.Centroid) (clusters0 clusters0' : List Int)
    (hsame : MT.same_rgb o o')
    (hr : o.in_range) (hr' : o'.in_range)
    (hT : 1 ≤ o.thread_count) (hT' : 1 ≤ o'.thread_count)
    (hcl : clusters0.length = o.image_len) (hcl' : clusters0'.length = o.image_len)
    (k : Nat) :
    (MT.state_after o' cs0 clusters0' k).1 = (MT.state_after o cs0 clusters0 k).1 ∧
      MT.state_after o' cs0 clusters0' (k + 1) = MT.state_after o cs0 clusters0 (k + 1) ∧
      MT.changed_at o' cs0 clusters0' k = MT.changed_at o cs0 clusters0 k := by
  induction k with
  | zero =>
    have hp := MT.pass_rgb_congr o o' cs0 clusters0 clusters0' hsame hr hr' hT hT' hcl hcl'
    refine ⟨rfl, ?_, ?_⟩
    · show (MT.pass o' cs0 clusters0').1 = (MT.pass o cs0 clusters0).1
      rw [hp]
    · show (MT.pass o' cs0 clusters0').2 = (MT.pass o cs0 clusters0).2
      rw [hp]
  | succ k ih =>
    obtain ⟨_, h2, _⟩ := ih
    have hp := MT.pass_rgb_congr o o'
      (MT.state_after o cs0 clusters0 (k + 1)).1
      (MT.state_after o cs0 clusters0 (k + 1)).2
      (MT.state_after o cs0 clusters0 (k + 1)).2 hsame hr hr' hT hT'
      (by rw [MT.state_after_clusters_length, hcl]) (by rw [MT.state_after_clusters_length, hcl])
    refine ⟨by rw [h2], ?_, ?_⟩
    · show (MT.pass o' (MT.state_after o' cs0 clusters0' (k + 1)).1
        (MT.state_after o' cs0 clusters0' (k + 1)).2).1 =
        (MT.pass o (MT.state_after o cs0 clusters0 (k + 1)).1
        (MT.state_after o cs0 clusters0 (k + 1)).2).1
      rw [h2, hp]
    · show (MT.pass o' (MT.state_after o' cs0 clusters0' (k + 1)).1
        (MT.state_after o' cs0 clusters0' (k + 1)).2).2 =
        (MT.pass o (MT.state_after o cs0 clusters0 (k + 1)).1
        (MT.state_after o cs0 clusters0 (k + 1)).2).2
      rw [h2, hp]

/-- The run in which pass `r + 1` is the first to report no change, with a
limit that allows it: `kmeans` returns `r + 1` in the state after that pass. -/
theorem MT.kmeans_returns_at (o : MT.QuantizeOptions) (cs0 : List MT.Centroid)
    (clusters0 : List Int) (r : Nat) (hlimit : r + 1 ≤ o.iteration_limit)
    (hch : ∀ k, k < r → MT.changed_at o cs0 clusters0 k = true)
    (hlast : MT.changed_at o cs0 clusters0 r = false) :
    (MT.kmeans o cs0 clusters0).outcome = Outcome.returned (r + 1) ∧
      (MT.kmeans o cs0 clusters0).centroids = (MT.state_after o cs0 clusters0 (r + 1)).1 ∧
      (MT.kmeans o cs0 clusters0).clusters = (MT.state_after o cs0 clusters0 (r + 1)).2 := by
  obtain ⟨m, hm, _, hst, hall, hout⟩ := MT.kmeans_spec o cs0 clusters0
  rcases hout with ⟨a, b, c, _⟩ | ⟨a, b, c, _⟩
  · have hmr : m = r + 1 := by
      rcases Nat.lt_trichotomy m (r + 1) with hlt | heq | hgt
      · have := hch (m - 1) (by omega)
        rw [c] at this
        cases this
      · exact heq
      · have := hall r (by omega)
        rw [hlast] at this
        cases this
    subst hmr
    exact ⟨a, by rw [← hst], by rw [← hst]⟩
  · have := c r (by omega)
    rw [hlast] at this
    cases this

theorem MT.kmeans_colour_clusters (o : MT.QuantizeOptions) (cs0 : List MT.Centroid)
    (clusters0 : List Int) (hr : o.in_range) (hT : 1 ≤ o.thread_count)
    (hlen : cs0.length = o.cluster_count) (hcl : clusters0.length = o.image_len) (r : Nat)
    (hret : (MT.kmeans o cs0 clusters0).outcome = Outcome.returned r) :
    (ST.kmeans (MT.single_threaded o) (cs0.map MT.colour)).clusters =
      MT.cluster_vectors o (MT.kmeans o cs0 clusters0).clusters := by
  obtain ⟨m, hm, _, hst, hall, hout⟩ := MT.kmeans_spec o cs0 clusters0
  obtain ⟨m', hm', _, hst', hall', hout'⟩ :=
    ST.st_kmeans_spec (MT.single_threaded o) (cs0.map MT.colour)
  have hch : ST.changed_at (MT.single_threaded o) (cs0.map MT.colour) =
      MT.changed_at o cs0 clusters0 := by
    funext k
    exact (MT.state_after_colour o cs0 clusters0 hr hT hlen hcl k).2.2
  rw [hch] at hall' hout'
  have hlimit : (MT.single_threaded o).iteration_limit = o.iteration_limit := rfl
  rw [hlimit] at hm' hout'
  have huniq := outcome_unique (MT.changed_at o cs0 clusters0) o.iteration_limit m m'
    (MT.kmeans o cs0 clusters0).outcome
    (ST.kmeans (MT.single_threaded o) (cs0.map MT.colour)).outcome hm hm' hall hall'
    (by
      rcases hout with ⟨a, b, c, _⟩ | ⟨a, b, c, _⟩
      · exact Or.inl ⟨a, b, c⟩
      · exact Or.inr ⟨a, b, c⟩)
    (by
      rcases hout' with ⟨a, b, c, _⟩ | ⟨a, b, c, _⟩
      · exact Or.inl ⟨a, b, c⟩
      · exact Or.inr ⟨a, b, c⟩)
  obtain ⟨_, hmm⟩ := huniq
  subst hmm
  have hpos : 0 < m' := by
    rcases hout with ⟨_, b, _⟩ | ⟨a, _⟩
    · exact b
    · rw [a] at hret
      cases hret
  have hm1 : m' = (m' - 1) + 1 := by omega
  have h1 : (ST.kmeans (MT.single_threaded o) (cs0.map MT.colour)).clusters =
      (ST.state_after (MT.single_threaded o) (cs0.map MT.colour) m').2 := by rw [← hst']
  have h2 : (MT.kmeans o cs0 clusters0).clusters = (MT.state_after o cs0 clusters0 m').2 := by
    rw [← hst]
  rw [h1, h2, hm1, (MT.state_after_colour o cs0 clusters0 hr hT hlen hcl (m' - 1)).2.1]

theorem MT.two_tone_transfer (options : MT.QuantizeOptions) (a0 a1 a2 a3 : Nat) (x y : ℚ)
    (clusters0 : List Int)
    (himage : options.image =
      [0, 0, 0, a0, 0, 0, 0, a1, 255, 255, 255, a2, 255, 255, 255, a3])
    (hN : options.image_len = 4) (hK : options.cluster_count = 2)
    (hlimit : 3 ≤ options.iteration_limit)
    (hT : 1 ≤ options.thread_count) (hT2 : options.thread_count < 4294967296)
    (hcl : clusters0.length = 4) (r : Nat) (hr3 : r + 1 ≤ 3)
    (final : List MT.Centroid) (cl : List Int)
    (hch : ∀ k, k < r →
      MT.changed_at two_tone_mt_options (two_tone_centroids x y) two_tone_clusters0 k = true)
    (hlast :
      MT.changed_at two_tone_mt_options (two_tone_centroids x y) two_tone_clusters0 r = false)
    (hstate : MT.state_after two_tone_mt_options (two_tone_centroids x y) two_tone_clusters0
      (r + 1) = (final, cl)) :
    (MT.kmeans options (two_tone_centroids x y) clusters0).outcome = Outcome.returned (r + 1) ∧
      (MT.kmeans options (two_tone_centroids x y) clusters0).centroids = final ∧
      (MT.kmeans options (two_tone_centroids x y) clusters0).clusters = cl ∧
      (ST.kmeans (MT.single_threaded options)
        ((two_tone_centroids x y).map MT.colour)).outcome = Outcome.returned (r + 1) ∧
      (ST.kmeans (MT.single_threaded options)
        ((two_tone_centroids x y).map MT.colour)).centroids = final.map MT.colour ∧
      (ST.kmeans (MT.single_threaded options)
        ((two_tone_centroids x y).map MT.colour)).clusters = MT.cluster_vectors options cl := by
  have hr : options.in_range := by
    refine ⟨?_, ?_, ?_, hT2⟩
    · rw [himage, hN]
      rfl
    · rw [hN]
      decide
    · rw [hK]
      decide
  have hr0 : two_tone_mt_options.in_range := by decide
  have hsame : MT.same_rgb two_tone_mt_options options := by
    refine ⟨hN, hK, ?_⟩
    intro i c hi hc
    have hi' : i < 4 := hi
    rw [himage]
    interval_cases i <;> interval_cases c <;> rfl
  have hcongr := fun k => MT.state_after_rgb_congr two_tone_mt_options options
    (two_tone_centroids x y) two_tone_clusters0 clusters0 hsame hr0 hr (by decide) hT
    (by decide) hcl k
  have hch' : ∀ k, k < r → MT.changed_at options (two_tone_centroids x y) clusters0 k = true := by
    intro k hk
    rw [(hcongr k).2.2]
    exact hch k hk
  have hlast' : MT.changed_at options (two_tone_centroids x y) clusters0 r = false := by
    rw [(hcongr r).2.2]
    exact hlast
  obtain ⟨h1, h2, h3⟩ := MT.kmeans_returns_at options (two_tone_centroids x y) clusters0 r
    (by omega) hch' hlast'
  rw [(hcongr r).2.1, hstate] at h2 h3
  have hlen : (two_tone_centroids x y).length = options.cluster_count := by
    rw [hK]
    rfl
  have hcl' : clusters0.length = options.image_len := by rw [hN, hcl]
  obtain ⟨k1, _, _, k4⟩ := MT.kmeans_colour options (two_tone_centroids x y) clusters0 hr hT
    (by omega) hlen hcl'
  have k5 := MT.kmeans_colour_clusters options (two_tone_centroids x y) clusters0 hr hT hlen hcl'
    (r + 1) h1
  exact ⟨h1, h2, h3, by rw [k1, h1], by rw [k4, h2], by rw [k5, h3]⟩

theorem MT.two_tone_vectors (options : MT.QuantizeOptions) (hN : options.image_len = 4)
    (hK : options.cluster_count = 2) :
    MT.cluster_vectors options [0, 0, 1, 1] = [[0, 4], [8, 12]] ∧
      MT.cluster_vectors options [1, 1, 0, 0] = [[8, 12], [0, 4]] := by
  unfold MT.cluster_vectors MT.members
  rw [hN, hK]
  decide

theorem sum_indicator_rat (a : Int) (K : Nat) (g : Nat → ℚ) :
    ((List.range K).map (fun (j : Nat) => if a = (j : Int) then g j else 0)).sum =
      if 0 ≤ a ∧ a < (K : Int) then g a.toNat else 0 := by
  induction K with
  | zero =>
    have : ¬ (0 ≤ a ∧ a < ((0 : Nat) : Int)) := by omega
    rw [if_neg this]
    rfl
  | succ K ih =>
    rw [List.range_succ, List.map_append, List.sum_append, ih]
    simp only [List.map_cons, List.map_nil, List.sum_cons, List.sum_nil, add_zero]
    by_cases h1 : a = (K : Int)
    · have h2 : ¬ (0 ≤ a ∧ a < (K : Int)) := by omega
      have h3 : 0 ≤ a ∧ a < ((K + 1 : Nat) : Int) := by omega
      have h4 : a.toNat = K := by omega
      rw [if_neg h2, if_pos h1, if_pos h3, h4, zero_add]
    · by_cases h2 : 0 ≤ a ∧ a < (K : Int)
      · have h3 : 0 ≤ a ∧ a < ((K + 1 : Nat) : Int) := by omega
        rw [if_pos h2, if_neg h1, if_pos h3, add_zero]
      · have h3 : ¬ (0 ≤ a ∧ a < ((K + 1 : Nat) : Int)) := by omega
        rw [if_neg h2, if_neg h1, if_neg h3, add_zero]

/-- A sum over the elements of `l`, each with a key in `[0,K)`, is the sum
over the keys of the sums over the classes. -/
theorem sum_regroup (K : Nat) (k : Nat → Int) (l : List Nat) (f : Nat → Nat → ℚ)
    (h : ∀ i ∈ l, 0 ≤ k i ∧ k i < (K : Int)) :
    (l.map (fun i => f (k i).toNat i)).sum =
      ((List.range K).map (fun (j : Nat) =>
        ((l.filter (fun i => decide (k i = (j : Int)))).map (f j)).sum)).sum := by
  induction l with
  | nil => simp
  | cons i is ih =>
    have hi := h i (List.mem_cons_self _ _)
    have hrec := ih (fun x hx => h x (List.mem_cons_of_mem _ hx))
    have hsplit : (fun (j : Nat) =>
        (((i :: is).filter (fun i => decide (k i = (j : Int)))).map (f j)).sum) =
        fun (j : Nat) => (if k i = (j : Int) then f j i else 0) +
          ((is.filter (fun i => decide (k i = (j : Int)))).map (f j)).sum := by
      funext j
      by_cases hk : k i = (j : Int)
      · simp [List.filter_cons, hk]
      · simp [List.filter_cons, hk]
    rw [hsplit, List.sum_map_add, ← hrec, sum_indicator_rat, if_pos hi, List.map_cons,
      List.sum_cons]

theorem cluster_cost_expand (image : List Nat) (l : List Nat) (r g b : ℚ) :
    (l.map (fun i => sq_dist r g b image (4 * i))).sum =
      (l.map (fun i => sq_dist 0 0 0 image (4 * i))).sum -
        2 * (r * channel_total image l 0 + g * channel_total image l 1 +
          b * channel_total image l 2) +
        (l.length : ℚ) * (r ^ 2 + g ^ 2 + b ^ 2) := by
  induction l with
  | nil => simp [channel_total]
  | cons i is ih =>
    simp only [List.map_cons, List.sum_cons, List.length_cons, channel_total,
      Nat.add_zero] at ih ⊢
    rw [ih]
    unfold sq_dist
    push_cast
    ring

/-- The channel-wise mean of a non-empty set of pixels minimises the sum of
the squared distances to them. -/
theorem mean_minimises_cost (image : List Nat) (l : List Nat) (r g b : ℚ)
    (hn : 0 < l.length) :
    (l.map (fun i => sq_dist (channel_mean image l 0) (channel_mean image l 1)
        (channel_mean image l 2) image (4 * i))).sum ≤
      (l.map (fun i => sq_dist r g b image (4 * i))).sum := by
  rw [cluster_cost_expand image l r g b, cluster_cost_expand image l (channel_mean image l 0)]
  have hn' : (0 : ℚ) < (l.length : ℚ) := by exact_mod_cast hn
  have hne : (l.length : ℚ) ≠ 0 := ne_of_gt hn'
  have e0 : channel_total image l 0 = (l.length : ℚ) * channel_mean image l 0 := by
    unfold channel_mean
    field_simp
  have e1 : channel_total image l 1 = (l.length : ℚ) * channel_mean image l 1 := by
    unfold channel_mean
    field_simp
  have e2 : channel_total image l 2 = (l.length : ℚ) * channel_mean image l 2 := by
    unfold channel_mean
    field_simp
  rw [e0, e1, e2]
  obtain ⟨n, hnn⟩ : ∃ n : ℚ, n = (l.length : ℚ) := ⟨_, rfl⟩
  obtain ⟨m0, hm0⟩ : ∃ m : ℚ, m = channel_mean image l 0 := ⟨_, rfl⟩
  obtain ⟨m1, hm1⟩ : ∃ m : ℚ, m = channel_mean image l 1 := ⟨_, rfl⟩
  obtain ⟨m2, hm2⟩ : ∃ m : ℚ, m = channel_mean image l 2 := ⟨_, rfl⟩
  rw [← hnn, ← hm0, ← hm1, ← hm2]
  rw [← hnn] at hn'
  have k0 := mul_nonneg (le_of_lt hn') (sq_nonneg (r - m0))
  have k1 := mul_nonneg (le_of_lt hn') (sq_nonneg (g - m1))
  have k2 := mul_nonneg (le_of_lt hn') (sq_nonneg (b - m2))
  nlinarith [k0, k1, k2]

theorem MT.cost_regroup (o : MT.QuantizeOptions) (cs : List MT.Centroid) (clusters : List Int)
    (hvalid : ∀ i, i < o.image_len →
      0 ≤ clusters.getD i 0 ∧ clusters.getD i 0 < (o.cluster_count : Int)) :
    MT.cost o cs clusters =
      ((List.range o.cluster_count).map (fun j =>
        ((MT.members o clusters j).map (fun i =>
          sq_dist (MT.centroid_at cs j).r (MT.centroid_at cs j).g (MT.centroid_at cs j).b
            o.image (4 * i))).sum)).sum := by
  have h := sum_regroup o.cluster_count (fun i => clusters.getD i 0) (List.range o.image_len)
    (fun j i => sq_dist (MT.centroid_at cs j).r (MT.centroid_at cs j).g (MT.centroid_at cs j).b
      o.image (4 * i))
    (fun i hi => hvalid i (List.mem_range.mp hi))
  unfold MT.cost MT.members
  rw [← h]
  congr 1
  apply List.map_congr_left
  intro i hi
  rw [MT.centroid_at_int_eq _ _ (hvalid i (List.mem_range.mp hi)).1]

theorem MT.phase_valid (o : MT.QuantizeOptions) (cs : List MT.Centroid) (hr : o.in_range)
    (hK : 1 ≤ o.cluster_count) (i : Nat) (hi : i < o.image_len) :
    0 ≤ ((List.range o.image_len).map (MT.chunk_min_idx o cs)).getD i 0 ∧
      ((List.range o.image_len).map (MT.chunk_min_idx o cs)).getD i 0 <
        (o.cluster_count : Int) := by
  rw [getD_map_range _ _ _ _ hi]
  obtain ⟨h0, h1, _, _⟩ := MT.min_idx_spec o cs hr hK i hi
  exact ⟨h0, h1⟩

/-- Re-assigning the pixels to their nearest centroids does not increase the
cost. -/
theorem MT.cost_assignment_le (o : MT.QuantizeOptions) (cs : List MT.Centroid)
    (clusters : List Int) (hr : o.in_range) (hK : 1 ≤ o.cluster_count)
    (hvalid : ∀ i, i < o.image_len →
      0 ≤ clusters.getD i 0 ∧ clusters.getD i 0 < (o.cluster_count : Int)) :
    MT.cost o cs ((List.range o.image_len).map (MT.chunk_min_idx o cs)) ≤
      MT.cost o cs clusters := by
  unfold MT.cost
  apply List.sum_le_sum
  intro i hi
  have hi' := List.mem_range.mp hi
  obtain ⟨h0, h1, hmin, _⟩ := MT.min_idx_spec o cs hr hK i hi'
  obtain ⟨v0, v1⟩ := hvalid i hi'
  rw [getD_map_range _ _ _ _ hi', MT.centroid_at_int_eq _ _ h0, MT.centroid_at_int_eq _ _ v0]
  exact hmin (clusters.getD i 0).toNat (by omega)

/-- Moving every centroid to the mean of its pixels (or to black when it has
none) does not increase the cost. -/
theorem MT.cost_update_le (o : MT.QuantizeOptions) (cs : List MT.Centroid)
    (clusters : List Int) (hr : o.in_range) (hlen : cs.length = o.cluster_count)
    (hvalid : ∀ i, i < o.image_len →
      0 ≤ clusters.getD i 0 ∧ clusters.getD i 0 < (o.cluster_count : Int)) :
    MT.cost o (MT.update_centroids cs clusters o).1 clusters ≤ MT.cost o cs clusters := by
  rw [MT.cost_regroup o _ clusters hvalid, MT.cost_regroup o cs clusters hvalid]
  apply List.sum_le_sum
  intro j hj
  have hj' := List.mem_range.mp hj
  rw [MT.centroid_at_update cs clusters o hlen hr.2.1 j hj']
  by_cases hn : 0 < (MT.members o clusters j).length
  · obtain ⟨e0, e1, e2⟩ := MT.updated_mean o clusters (MT.centroid_at cs j) j hn
    rw [e0, e1, e2]
    exact mean_minimises_cost o.image _ _ _ _ hn
  · have hnil : MT.members o clusters j = [] := List.length_eq_zero.mp (by omega)
    rw [hnil]
    simp

theorem MT.cost_colour (o : MT.QuantizeOptions) (cs : List MT.Centroid) (clusters : List Int)
    (hN : 4 * o.image_len ≤ 4294967296)
    (hvalid : ∀ i, i < o.image_len →
      0 ≤ clusters.getD i 0 ∧ clusters.getD i 0 < (o.cluster_count : Int)) :
    ST.cost (MT.single_threaded o) (cs.map MT.colour) (MT.cluster_vectors o clusters) =
      MT.cost o cs clusters := by
  rw [MT.cost_regroup o cs clusters hvalid]
  unfold ST.cost
  show ((List.range o.cluster_count).map _).sum = _
  congr 1
  apply List.map_congr_left
  intro j hj
  have hj' := List.mem_range.mp hj
  have hget : (MT.cluster_vectors o clusters).getD j [] =
      (MT.members o clusters j).map point_off := by
    unfold MT.cluster_vectors
    rw [getD_map_range _ _ _ _ hj']
  rw [hget, List.map_map, MT.centroid_at_colour]
  congr 1
  apply List.map_congr_left
  intro i hi
  have hi' : i < o.image_len := by
    unfold MT.members at hi
    exact List.mem_range.mp (List.mem_filter.mp hi).1
  simp only [Function.comp, point_off_of_le i _ hi' hN]
  rfl

theorem MT.pass_clusters_eq (o : MT.QuantizeOptions) (cs : List MT.Centroid)
    (clusters : List Int) (hr : o.in_range) (hT : 1 ≤ o.thread_count)
    (hcl : clusters.length = o.image_len) :
    (MT.pass o cs clusters).1.2 = (List.range o.image_len).map (MT.chunk_min_idx o cs) ∧
      (MT.pass o cs clusters).1.1 =
        (MT.update_centroids cs ((List.range o.image_len).map (MT.chunk_min_idx o cs)) o).1 := by
  unfold MT.pass
  simp only
  rw [MT.assignment_phase_eq o cs clusters hr hT hcl]
  exact ⟨rfl, rfl⟩

/-- The workers of one assignment phase, each storing `idx i` for the pixels
`i` it visits: with at least one worker the array ends up as the map of `idx`
over all pixels. -/
theorem workers_store_all (options : MT.QuantizeOptions) (idx : Nat → Int)
    (clusters : List Int) (hr : options.in_range) (hT : 1 ≤ options.thread_count)
    (hlen : clusters.length = options.image_len) :
    (List.range options.thread_count).foldl
        (fun clusters thread_id =>
          (MT.chunk_points thread_id options).foldl
            (fun clusters point_idx => clusters.set point_idx (idx point_idx)) clusters)
        clusters =
      (List.range options.image_len).map idx := by
  have hw : ∀ (ts : List Nat) (clusters : List Int) (i : Nat),
      (ts.foldl (fun clusters thread_id =>
          (MT.chunk_points thread_id options).foldl
            (fun clusters point_idx => clusters.set point_idx (idx point_idx)) clusters)
        clusters)[i]? =
        if ∃ t ∈ ts, i ∈ MT.chunk_points t options then (clusters[i]?).map (fun _ => idx i)
        else clusters[i]? := by
    intro ts
    induction ts with
    | nil => intro clusters i; simp
    | cons t ts ih =>
      intro clusters i
      simp only [List.foldl_cons, ih, foldl_set_getElem? idx, List.mem_cons, exists_eq_or_imp]
      by_cases h1 : i ∈ MT.chunk_points t options <;>
        by_cases h2 : ∃ a ∈ ts, i ∈ MT.chunk_points a options <;>
        cases clusters[i]? <;> simp [h1, h2]
  apply List.ext_getElem?
  intro i
  rw [hw]
  by_cases hi : i < options.image_len
  · obtain ⟨t, ht, hmem⟩ := MT.chunk_points_cover options hr hT i hi
    have hex : ∃ t ∈ List.range options.thread_count, i ∈ MT.chunk_points t options :=
      ⟨t, List.mem_range.mpr ht, hmem⟩
    rw [if_pos hex]
    have h1 : clusters[i]? = some clusters[i] := List.getElem?_eq_getElem (by omega)
    rw [h1, List.getElem?_map, List.getElem?_range hi]
    rfl
  · have hex : ¬ ∃ t ∈ List.range options.thread_count, i ∈ MT.chunk_points t options := by
      rintro ⟨t, _, hmem⟩
      exact hi (MT.chunk_points_lt options t i hmem)
    rw [if_neg hex]
    rw [List.getElem?_eq_none (by omega), List.getElem?_eq_none (by simp; omega)]

theorem MTF.mtf_assignment_phase_eq (options : MT.QuantizeOptions) (centroids : List MT.Centroid)
    (clusters : List Int) (hr : options.in_range) (hT : 1 ≤ options.thread_count)
    (hlen : clusters.length = options.image_len) :
    MTF.assignment_phase options centroids clusters =
      (List.range options.image_len).map (MTF.chunk_min_idx options centroids) :=
  workers_store_all options (MTF.chunk_min_idx options centroids) clusters hr hT hlen

theorem MTF.mtf_min_idx_spec (options : MT.QuantizeOptions) (centroids : List MT.Centroid)
    (hr : options.in_range) (hK : 1 ≤ options.cluster_count) (i : Nat)
    (hi : i < options.image_len) :
    IsLowestArgmin
      (fun j => MTF.distance_from_centroid (MT.centroid_at centroids j) options.image (4 * i))
      options.cluster_count (MTF.chunk_min_idx options centroids i) := by
  obtain ⟨_, hN, hK2, _⟩ := hr
  obtain ⟨n, hn⟩ : ∃ n, options.cluster_count = n + 1 := ⟨options.cluster_count - 1, by omega⟩
  have heq : MTF.chunk_min_idx options centroids i =
      ((List.range options.cluster_count).foldl
        (arg_step (fun j => MTF.distance_from_centroid (MT.centroid_at centroids j)
          options.image (point_off i))) (-1, -1)).2 := by
    unfold MTF.chunk_min_idx
    rw [foldl_congr_mem]
    intro s x hx
    have hx' : x < 2147483648 := by have := List.mem_range.mp hx; omega
    simp only [MTF.min_step, arg_step, to_int_of_lt x hx']
  rw [heq, point_off_of_le i _ hi hN, hn]
  exact (arg_fold_spec _ n).2

theorem STF.stf_min_idx_spec (options : ST.QuantizeOptions) (centroids : List ST.Centroid)
    (hr : options.in_range) (hK : 1 ≤ options.cluster_count) (i : Nat)
    (hi : i < options.image_len) :
    IsLowestArgmin
      (fun j => STF.distance_from_centroid (ST.centroid_at centroids j) options.image (4 * i))
      options.cluster_count (STF.kmeans_min_idx options centroids i) := by
  obtain ⟨_, hN, hK2⟩ := hr
  obtain ⟨n, hn⟩ : ∃ n, options.cluster_count = n + 1 := ⟨options.cluster_count - 1, by omega⟩
  have heq : STF.kmeans_min_idx options centroids i =
      ((List.range options.cluster_count).foldl
        (arg_step (fun j => STF.distance_from_centroid (ST.centroid_at centroids j)
          options.image (point_off i))) (-1, -1)).2 := by
    unfold STF.kmeans_min_idx
    rw [foldl_congr_mem]
    intro s x hx
    have hx' : x < 2147483648 := by have := List.mem_range.mp hx; omega
    simp only [STF.min_step, arg_step, to_int_of_lt x hx']
  rw [heq, point_off_of_le i _ hi hN, hn]
  exact (arg_fold_spec _ n).2

/-- The cluster vectors after `init_clusters` and the assignment loop in
binary32: the pointer of pixel `i` is on the vector `j` exactly when the loop
computed `min_idx = j` for it. -/
theorem STF.stf_mem_assigned_iff (options : ST.QuantizeOptions) (centroids : List ST.Centroid)
    (clusters : List (List Nat)) (hr : options.in_range)
    (hlen : clusters.length = options.cluster_count) (i j : Nat) (hi : i < options.image_len)
    (hj : j < options.cluster_count) :
    4 * i ∈ (STF.assign_points options centroids (ST.init_clusters clusters options)).getD j [] ↔
      STF.kmeans_min_idx options centroids i = (j : Int) := by
  obtain ⟨_, hN, _⟩ := hr
  have hget : (STF.assign_points options centroids (ST.init_clusters clusters options))[j]? =
      some (((List.range options.image_len).filter
        (fun i => decide (STF.kmeans_min_idx options centroids i = (j : Int)))).map point_off) := by
    unfold STF.assign_points
    have := foldl_modify_at_int_getElem? (fun i => STF.kmeans_min_idx options centroids i)
      (fun i (v : List Nat) => v ++ [point_off i]) (List.range options.image_len)
      (ST.init_clusters clusters options) j
    simp only at this ⊢
    rw [this, ST.init_clusters_eq clusters options hlen, List.getElem?_replicate, if_pos hj]
    simp only [Option.map_some']
    rw [foldl_push]
    rfl
  rw [List.getD_eq_getElem?_getD, hget]
  simp only [Option.getD_some, List.mem_map, List.mem_filter, List.mem_range, decide_eq_true_eq]
  constructor
  · rintro ⟨i', ⟨hi', hm⟩, he⟩
    rw [point_off_of_le i' _ hi' hN] at he
    have : i' = i := by omega
    rw [← this]; exact hm
  · intro hm
    exact ⟨i, ⟨hi, hm⟩, point_off_of_le i _ hi hN⟩

theorem MTF.mtf_foldl_add_pixel (options : MT.QuantizeOptions)
    (hN : 4 * options.image_len ≤ 4294967296)
    (ms : List Nat) (hms : ∀ i ∈ ms, i < options.image_len) (c : MT.Centroid) :
    ms.foldl (fun c i => MTF.add_pixel options i c) c =
      { count := c.count + ms.length,
        r := f32_total options.image ms 0 c.r,
        g := f32_total options.image ms 1 c.g,
        b := f32_total options.image ms 2 c.b,
        prev_r := c.prev_r, prev_g := c.prev_g, prev_b := c.prev_b } := by
  induction ms generalizing c with
  | nil => simp [f32_total]
  | cons i is ih =>
    have hi := hms i (List.mem_cons_self _ _)
    rw [List.foldl_cons, ih (fun x hx => hms x (List.mem_cons_of_mem _ hx))]
    simp only [MTF.add_pixel, point_off_of_le i _ hi hN, f32_total, List.foldl_cons,
      List.length_cons, Nat.add_zero]
    congr 1
    omega

theorem MTF.mtf_accumulated_getElem? (centroids : List MT.Centroid) (clusters : List Int)
    (options : MT.QuantizeOptions) (hlen : centroids.length = options.cluster_count)
    (hN : 4 * options.image_len ≤ 4294967296) (j : Nat) :
    ((List.range options.image_len).foldl (MTF.accumulate options clusters)
        ((List.range options.cluster_count).foldl (fun centroids i => centroids.modify MT.reset i)
          centroids))[j]? =
      (centroids[j]?).map (fun c =>
        { count := (MT.members options clusters j).length,
          r := f32_total options.image (MT.members options clusters j) 0 0,
          g := f32_total options.image (MT.members options clusters j) 1 0,
          b := f32_total options.image (MT.members options clusters j) 2 0,
          prev_r := c.r, prev_g := c.g, prev_b := c.b }) := by
  have hacc : MTF.accumulate options clusters =
      fun centroids i => modify_at_int centroids (clusters.getD i 0) (MTF.add_pixel options i) :=
    rfl
  rw [← hlen, foldl_modify_range, hacc, foldl_modify_at_int_getElem?,
    List.getElem?_map, Option.map_map]
  congr 1
  funext c
  simp only [Function.comp]
  rw [show (List.filter (fun i => decide (clusters.getD i 0 = (j : Int)))
      (List.range options.image_len)) = MT.members options clusters j from rfl]
  rw [MTF.mtf_foldl_add_pixel options hN _ (fun i hi => MT.members_lt options clusters j i hi)]
  simp [MT.reset]

theorem MTF.mtf_finish_step_fst (threshold : ℚ) (st : List MT.Centroid × Bool) (i : Nat) :
    (MTF.finish_step threshold st i).1 = st.1.modify MTF.divide i := by
  simp only [MTF.finish_step]
  split_ifs <;> rfl

theorem MTF.mtf_finish_fold_fst (threshold : ℚ) (l : List Nat) (st : List MT.Centroid × Bool) :
    (l.foldl (MTF.finish_step threshold) st).1 =
      l.foldl (fun cs i => cs.modify MTF.divide i) st.1 := by
  induction l generalizing st with
  | nil => rfl
  | cons i is ih => rw [List.foldl_cons, List.foldl_cons, ih, MTF.mtf_finish_step_fst]

theorem MTF.mtf_divide_default : MTF.divide default = default := by
  decide

theorem MTF.mtf_centroid_at_modify_divide (cs : List MT.Centroid) (i j : Nat) :
    MT.centroid_at (cs.modify MTF.divide i) j =
      if i = j then MTF.divide (MT.centroid_at cs j) else MT.centroid_at cs j := by
  unfold MT.centroid_at
  rw [List.getD_eq_getElem?_getD, List.getD_eq_getElem?_getD, List.getElem?_modify]
  by_cases h : i = j
  · subst h
    cases hc : cs[i]? <;> simp [MTF.mtf_divide_default]
  · simp [h]

theorem MTF.mtf_finish_step_snd (threshold : ℚ) (st : List MT.Centroid × Bool) (i : Nat) :
    (MTF.finish_step threshold st i).2 =
      (st.2 || MTF.exceeds threshold (MTF.divide (MT.centroid_at st.1 i))) := by
  simp only [MTF.finish_step, MTF.mtf_centroid_at_modify_divide, if_true]
  split_ifs with h1 h2
  · simp [h1]
  · simp [h2]
  · simp [h1, h2]

theorem MTF.mtf_finish_fold_snd (threshold : ℚ) (l : List Nat) (hnd : l.Nodup)
    (st : List MT.Centroid × Bool) :
    (l.foldl (MTF.finish_step threshold) st).2 =
      (st.2 || l.any (fun i => MTF.exceeds threshold (MTF.divide (MT.centroid_at st.1 i)))) := by
  induction l generalizing st with
  | nil => simp
  | cons i is ih =>
    obtain ⟨hi, hnd'⟩ := List.nodup_cons.mp hnd
    rw [List.foldl_cons, ih hnd', MTF.mtf_finish_step_snd, MTF.mtf_finish_step_fst, List.any_cons,
      Bool.or_assoc]
    congr 2
    apply any_congr_mem
    intro k hk
    have : ¬ i = k := fun h => hi (h ▸ hk)
    rw [MTF.mtf_centroid_at_modify_divide, if_neg this]

theorem MTF.mtf_update_centroids_getElem? (centroids : List MT.Centroid) (clusters : List Int)
    (options : MT.QuantizeOptions) (hlen : centroids.length = options.cluster_count)
    (hN : 4 * options.image_len ≤ 4294967296) (j : Nat) :
    (MTF.update_centroids centroids clusters options).1[j]? =
      (centroids[j]?).map (fun c => MTF.updated options clusters c j) := by
  unfold MTF.update_centroids
  simp only
  rw [MTF.mtf_finish_fold_fst, foldl_modify_getElem? _ _ (List.nodup_range _),
    MTF.mtf_accumulated_getElem? _ _ _ hlen hN]
  by_cases hj : j < options.cluster_count
  · rw [if_pos (List.mem_range.mpr hj), Option.map_map]
    rfl
  · rw [if_neg (fun h => hj (List.mem_range.mp h)),
      List.getElem?_eq_none (by omega)]
    rfl

theorem MTF.mtf_centroid_at_update (centroids : List MT.Centroid) (clusters : List Int)
    (options : MT.QuantizeOptions) (hlen : centroids.length = options.cluster_count)
    (hN : 4 * options.image_len ≤ 4294967296) (j : Nat) (hj : j < options.cluster_count) :
    MT.centroid_at (MTF.update_centroids centroids clusters options).1 j =
      MTF.updated options clusters (MT.centroid_at centroids j) j := by
  have hj' : j < centroids.length := by omega
  unfold MT.centroid_at
  rw [List.getD_eq_getElem?_getD, MTF.mtf_update_centroids_getElem? _ _ _ hlen hN,
    List.getD_eq_getElem?_getD, List.getElem?_eq_getElem hj']
  rfl

theorem MTF.mtf_update_centroids_snd (centroids : List MT.Centroid) (clusters : List Int)
    (options : MT.QuantizeOptions) (hlen : centroids.length = options.cluster_count)
    (hN : 4 * options.image_len ≤ 4294967296) :
    (MTF.update_centroids centroids clusters options).2 =
      (List.range options.cluster_count).any (fun j =>
        MTF.exceeds (f32 (1 / 100))
          (MTF.updated options clusters (MT.centroid_at centroids j) j)) := by
  unfold MTF.update_centroids
  simp only
  rw [MTF.mtf_finish_fold_snd _ _ (List.nodup_range _), Bool.false_or]
  apply any_congr_mem
  intro j hj
  have hj' : j < centroids.length := by have := List.mem_range.mp hj; omega
  congr 1
  unfold MT.centroid_at
  rw [List.getD_eq_getElem?_getD, MTF.mtf_accumulated_getElem? _ _ _ hlen hN,
    List.getD_eq_getElem?_getD, List.getElem?_eq_getElem hj']
  rfl

theorem MTF.mtf_update_centroids_length (centroids : List MT.Centroid) (clusters : List Int)
    (options : MT.QuantizeOptions) :
    (MTF.update_centroids centroids clusters options).1.length = centroids.length := by
  unfold MTF.update_centroids
  simp only
  have hacc : MTF.accumulate options clusters =
      fun centroids i => modify_at_int centroids (clusters.getD i 0) (MTF.add_pixel options i) :=
    rfl
  rw [MTF.mtf_finish_fold_fst, foldl_modify_length, hacc, foldl_modify_at_int_length,
    foldl_modify_length]

theorem MTF.mtf_updated_fields (options : MT.QuantizeOptions) (clusters : List Int)
    (c : MT.Centroid) (j : Nat) :
    (MTF.updated options clusters c j).count = (MT.members options clusters j).length ∧
      (MTF.updated options clusters c j).prev_r = c.r ∧
      (MTF.updated options clusters c j).prev_g = c.g ∧
      (MTF.updated options clusters c j).prev_b = c.b := by
  unfold MTF.updated MTF.divide
  split <;> simp

theorem MTF.mtf_updated_quotient (options : MT.QuantizeOptions) (clusters : List Int)
    (c : MT.Centroid) (j : Nat) (h : 0 < (MT.members options clusters j).length) :
    (MTF.updated options clusters c j).r =
        f32 (f32_total options.image (MT.members options clusters j) 0 0 /
          f32 ((MT.members options clusters j).length : ℚ)) ∧
      (MTF.updated options clusters c j).g =
        f32 (f32_total options.image (MT.members options clusters j) 1 0 /
          f32 ((MT.members options clusters j).length : ℚ)) ∧
      (MTF.updated options clusters c j).b =
        f32 (f32_total options.image (MT.members options clusters j) 2 0 /
          f32 ((MT.members options clusters j).length : ℚ)) := by
  unfold MTF.updated MTF.divide
  simp only [gt_iff_lt, h, if_true, and_self]

theorem STF.stf_update_step_fst (options : ST.QuantizeOptions) (clusters : List (List Nat))
    (threshold : ℚ) (st : List ST.Centroid × Bool) (i : Nat) :
    (STF.update_step options clusters threshold st i).1 =
      st.1.set i (STF.updated options clusters i) := by
  rfl

theorem STF.stf_update_fold_fst (options : ST.QuantizeOptions) (clusters : List (List Nat))
    (threshold : ℚ) (l : List Nat) (st : List ST.Centroid × Bool) :
    (l.foldl (STF.update_step options clusters threshold) st).1 =
      l.foldl (fun cs i => cs.set i (STF.updated options clusters i)) st.1 := by
  induction l generalizing st with
  | nil => rfl
  | cons i is ih => rw [List.foldl_cons, List.foldl_cons, ih, STF.stf_update_step_fst]

theorem STF.stf_centroid_at_update (centroids : List ST.Centroid) (clusters : List (List Nat))
    (options : ST.QuantizeOptions) (hlen : centroids.length = options.cluster_count)
    (j : Nat) (hj : j < options.cluster_count) :
    ST.centroid_at (STF.update_centroids centroids clusters options).1 j =
      STF.updated options clusters j := by
  have hj' : j < centroids.length := by omega
  unfold ST.centroid_at STF.update_centroids
  simp only
  rw [STF.stf_update_fold_fst, List.getD_eq_getElem?_getD]
  have := foldl_set_getElem? (fun i => STF.updated options clusters i)
    (List.range options.cluster_count) centroids j
  simp only at this ⊢
  rw [this, if_pos (List.mem_range.mpr hj), List.getElem?_eq_getElem hj']
  rfl

theorem round_half_even_intCast (z : Int) : round_half_even (z : ℚ) = z := by
  unfold round_half_even
  rw [Int.floor_intCast, sub_self, if_pos (by norm_num)]

theorem pow2_of_nonpos (e : Int) (he : e ≤ 0) :
    pow2 e = 1 / ((2 ^ (-e).toNat : Nat) : ℚ) := by
  unfold pow2
  by_cases h : 0 ≤ e
  · have h0 : e = 0 := le_antisymm he h
    subst h0
    simp
  · rw [if_neg h]

theorem halvings_le (fuel : Nat) : ∀ (n k : Nat), n < 2 ^ (k + 1) → halvings fuel n ≤ k := by
  induction fuel with
  | zero => intro n k _; simp [halvings]
  | succ fuel ih =>
    intro n k hn
    unfold halvings
    split
    · rename_i h2
      cases k with
      | zero => simp at hn; omega
      | succ k =>
        have : n / 2 < 2 ^ (k + 1) := by
          rw [Nat.div_lt_iff_lt_mul (by norm_num)]
          calc n < 2 ^ (k + 1 + 1) := hn
            _ = 2 ^ (k + 1) * 2 := by ring
        have := ih (n / 2) k this
        omega
    · omega

theorem floor_log2_natCast_le (n k : Nat) (hn : n < 2 ^ (k + 1)) :
    floor_log2 (n : ℚ) ≤ (k : Int) := by
  unfold floor_log2
  have h1 : ((n : ℚ)).num.natAbs = n := by simp
  have h2 : ((n : ℚ)).den = 1 := by simp
  rw [h1, h2]
  have h3 : nat_log2 1 = 0 := by decide
  have h4 : nat_log2 n ≤ k := halvings_le n n k hn
  rw [h3]
  split <;> omega

/-- A natural number below 2^24 is a binary32 number. -/
theorem f32_natCast (n : Nat) (h : n < 16777216) : f32 (n : ℚ) = n := by
  unfold f32
  by_cases h0 : (n : ℚ) = 0
  · rw [if_pos h0, h0]
  · rw [if_neg h0]
    have hn0 : n ≠ 0 := by
      intro hn
      apply h0
      rw [hn]
      rfl
    have hfl := floor_log2_natCast_le n 23 (by norm_num; omega)
    have he : f32_exponent (n : ℚ) ≤ 0 := by
      unfold f32_exponent
      omega
    rw [pow2_of_nonpos _ he]
    obtain ⟨m, hm⟩ : ∃ m : Nat, m = 2 ^ (-f32_exponent (n : ℚ)).toNat := ⟨_, rfl⟩
    rw [← hm]
    have hmpos : 0 < m := by rw [hm]; exact Nat.pow_pos (by norm_num)
    have hmq : (m : ℚ) ≠ 0 := by exact_mod_cast (ne_of_gt hmpos)
    have hz : (n : ℚ) / (1 / (m : ℚ)) = (((n * m : Nat) : Int) : ℚ) := by
      push_cast
      field_simp
    rw [hz, round_half_even_intCast]
    push_cast
    field_simp

theorem f32_zero : f32 0 = 0 := by
  unfold f32
  rw [if_pos rfl]

/-- The binary32 accumulation of a channel is exact as long as the sum stays
below 2^24. -/
theorem f32_total_exact (image : List Nat) (hbytes : ∀ b ∈ image, b ≤ 255) (channel : Nat)
    (l : List Nat) (a : Nat) (h : a + 255 * l.length < 16777216) :
    f32_total image l channel (a : ℚ) = (a : ℚ) + channel_total image l channel := by
  induction l generalizing a with
  | nil => simp [f32_total, channel_total]
  | cons i is ih =>
    have hb : byte_at image (4 * i + channel) ≤ 255 := by
      unfold byte_at
      rw [List.getD_eq_getElem?_getD]
      cases hget : image[4 * i + channel]? with
      | none => simp
      | some v =>
        have := hbytes v (List.getElem?_mem hget)
        simpa using this
    rw [List.length_cons] at h
    have hstep : f32 ((a : ℚ) + (byte_at image (4 * i + channel) : ℚ)) =
        ((a + byte_at image (4 * i + channel) : Nat) : ℚ) := by
      rw [← Nat.cast_add]
      exact f32_natCast _ (by omega)
    have hrec := ih (a + byte_at image (4 * i + channel)) (by omega)
    unfold f32_total at hrec ⊢
    rw [List.foldl_cons, hstep, hrec]
    unfold channel_total
    rw [List.map_cons, List.sum_cons]
    push_cast
    ring

theorem byte_at_le (image : List Nat) (hbytes : ∀ b ∈ image, b ≤ 255) (off : Nat) :
    byte_at image off ≤ 255 := by
  unfold byte_at
  rw [List.getD_eq_getElem?_getD]
  cases hget : image[off]? with
  | none => simp
  | some v =>
    have := hbytes v (List.getElem?_mem hget)
    simpa using this

/-- The binary32 accumulation over a cluster vector is exact as long as the
sum stays below 2^24. -/
theorem STF.stf_channel_sum_exact (image : List Nat) (hbytes : ∀ b ∈ image, b ≤ 255)
    (channel : Nat) (l : List Nat) (h : 255 * l.length < 16777216) :
    STF.channel_sum image l channel =
      (l.map (fun point => (byte_at image (point + channel) : ℚ))).sum := by
  have key : ∀ (l : List Nat) (a : Nat), a + 255 * l.length < 16777216 →
      l.foldl (fun acc point => f32 (acc + (byte_at image (point + channel) : ℚ))) (a : ℚ) =
        (a : ℚ) + (l.map (fun point => (byte_at image (point + channel) : ℚ))).sum := by
    intro l
    induction l with
    | nil => intro a _; simp
    | cons p ps ih =>
      intro a h
      have hb := byte_at_le image hbytes (p + channel)
      rw [List.length_cons] at h
      have hstep : f32 ((a : ℚ) + (byte_at image (p + channel) : ℚ)) =
          ((a + byte_at image (p + channel) : Nat) : ℚ) := by
        rw [← Nat.cast_add]
        exact f32_natCast _ (by omega)
      rw [List.foldl_cons, hstep, ih (a + byte_at image (p + channel)) (by omega),
        List.map_cons, List.sum_cons]
      push_cast
      ring
  have := key l 0 (by omega)
  unfold STF.channel_sum
  rw [Nat.cast_zero, zero_add] at this
  exact this

theorem MTF.mtf_updated_rounded_mean (options : MT.QuantizeOptions) (clusters : List Int)
    (c : MT.Centroid) (j : Nat) (hbytes : ∀ b ∈ options.image, b ≤ 255)
    (h : 0 < (MT.members options clusters j).length)
    (hsmall : (MT.members options clusters j).length ≤ 65793) :
    (MTF.updated options clusters c j).r =
        f32 (channel_mean options.image (MT.members options clusters j) 0) ∧
      (MTF.updated options clusters c j).g =
        f32 (channel_mean options.image (MT.members options clusters j) 1) ∧
      (MTF.updated options clusters c j).b =
        f32 (channel_mean options.image (MT.members options clusters j) 2) := by
  obtain ⟨h0, h1, h2⟩ := MTF.mtf_updated_quotient options clusters c j h
  have hn : f32 ((MT.members options clusters j).length : ℚ) =
      ((MT.members options clusters j).length : ℚ) := f32_natCast _ (by omega)
  have ht : ∀ channel, f32_total options.image (MT.members options clusters j) channel 0 =
      channel_total options.image (MT.members options clusters j) channel := by
    intro channel
    have := f32_total_exact options.image hbytes channel (MT.members options clusters j) 0
      (by omega)
    rw [Nat.cast_zero, zero_add] at this
    exact this
  rw [h0, h1, h2, hn, ht 0, ht 1, ht 2]
  exact ⟨rfl, rfl, rfl⟩

theorem STF.stf_new_channel_rounded_mean (image : List Nat) (members : List Nat) (channel : Nat)
    (hbytes : ∀ b ∈ image, b ≤ 255) (h : 0 < members.length) (hsmall : members.length ≤ 65793) :
    STF.new_channel image members channel = f32 (ST.channel_mean image members channel) := by
  unfold STF.new_channel ST.channel_mean
  rw [if_pos h, STF.stf_channel_sum_exact image hbytes channel members (by omega),
    f32_natCast _ (by omega)]

theorem f32_threshold : f32 (1 / 100) = 5368709 / 536870912 := by
  decide!

theorem f32_rel_change_exceeds_self (x : ℚ) :
    f32_rel_change_exceeds x x (f32 (1 / 100)) = false := by
  unfold f32_rel_change_exceeds f32_div
  rw [sub_self, f32_zero, f32_threshold]
  by_cases h : x = 0
  · simp [h, FloatX.abs, FloatX.gt]
  · simp only [h, if_false, zero_div, f32_zero, FloatX.abs, FloatX.gt, abs_zero]
    norm_num

theorem MTF.mtf_min_idx_one (options : MT.QuantizeOptions) (centroids : List MT.Centroid)
    (i : Nat) (hK : options.cluster_count = 1) : MTF.chunk_min_idx options centroids i = 0 := by
  unfold MTF.chunk_min_idx
  rw [hK]
  simp [List.range_succ, MTF.min_step, to_int, u32]

theorem MTF.mtf_update_centroids_eq_map (centroids : List MT.Centroid) (clusters : List Int)
    (options : MT.QuantizeOptions) (hlen : centroids.length = options.cluster_count)
    (hN : 4 * options.image_len ≤ 4294967296) :
    (MTF.update_centroids centroids clusters options).1 =
      (List.range options.cluster_count).map
        (fun j => MTF.updated options clusters (MT.centroid_at centroids j) j) := by
  apply List.ext_getElem?
  intro j
  rw [MTF.mtf_update_centroids_getElem? _ _ _ hlen hN, List.getElem?_map]
  by_cases hj : j < options.cluster_count
  · have hj' : j < centroids.length := by omega
    rw [List.getElem?_range hj, List.getElem?_eq_getElem hj']
    simp [MT.centroid_at, List.getD_eq_getElem?_getD, List.getElem?_eq_getElem hj']
  · rw [List.getElem?_eq_none (by omega), List.getElem?_eq_none (by simp; omega)]
    rfl

theorem MTF.mtf_pass_one (options : MT.QuantizeOptions) (centroids : List MT.Centroid)
    (clusters : List Int) (hr : options.in_range) (hT : 1 ≤ options.thread_count)
    (hK : options.cluster_count = 1) (hN : 1 ≤ options.image_len)
    (hlen : centroids.length = 1) (hcl : clusters.length = options.image_len) :
    MTF.pass options centroids clusters =
      (([MTF.mean_centroid options (MT.centroid_at centroids 0)],
        (List.range options.image_len).map (fun _ => (0 : Int))),
        MTF.first_update_changes options (MT.centroid_at centroids 0)) := by
  have hphase : MTF.assignment_phase options centroids clusters =
      (List.range options.image_len).map (fun _ => (0 : Int)) := by
    rw [MTF.mtf_assignment_phase_eq options centroids clusters hr hT hcl]
    apply List.map_congr_left
    intro i _
    exact MTF.mtf_min_idx_one options centroids i hK
  have hupd : MTF.updated options ((List.range options.image_len).map (fun _ => (0 : Int)))
      (MT.centroid_at centroids 0) 0 = MTF.mean_centroid options (MT.centroid_at centroids 0) := by
    unfold MTF.updated MTF.divide MTF.mean_centroid
    rw [MT.members_one]
    simp only [List.length_range]
    rw [if_pos (by omega)]
  unfold MTF.pass
  simp only
  rw [hphase, MTF.mtf_update_centroids_eq_map _ _ _ (by rw [hlen, hK]) hr.2.1,
    MTF.mtf_update_centroids_snd _ _ _ (by rw [hlen, hK]) hr.2.1, hK]
  simp only [List.range_succ, List.range_zero, List.nil_append, List.map_cons, List.map_nil,
    List.any_cons, List.any_nil, Bool.or_false, hupd]
  rfl

theorem MTF.mtf_second_update_unchanged (options : MT.QuantizeOptions) (c : MT.Centroid) :
    MTF.first_update_changes options (MTF.mean_centroid options c) = false := by
  unfold MTF.first_update_changes MTF.exceeds MTF.mean_centroid
  simp only [f32_rel_change_exceeds_self, Bool.or_self]

/-- The four ways a single-cluster run of `kmeans` in binary32 can end. -/
theorem MTF.mtf_single_cases (options : MT.QuantizeOptions) (centroids0 : List MT.Centroid)
    (clusters0 : List Int) (hr : options.in_range) (hT : 1 ≤ options.thread_count)
    (hK : options.cluster_count = 1) (hN : 1 ≤ options.image_len)
    (hlen : centroids0.length = 1) (hcl : clusters0.length = options.image_len) :
    ((MTF.kmeans options centroids0 clusters0).outcome = Outcome.returned 1 ∧
        MTF.first_update_changes options (MT.centroid_at centroids0 0) = false ∧
        1 ≤ options.iteration_limit ∧
        (MTF.kmeans options centroids0 clusters0).centroids =
          [MTF.mean_centroid options (MT.centroid_at centroids0 0)]) ∨
      ((MTF.kmeans options centroids0 clusters0).outcome = Outcome.returned 2 ∧
        MTF.first_update_changes options (MT.centroid_at centroids0 0) = true ∧
        2 ≤ options.iteration_limit ∧
        (MTF.kmeans options centroids0 clusters0).centroids =
          [MTF.mean_centroid options
            (MTF.mean_centroid options (MT.centroid_at centroids0 0))]) ∨
      ((MTF.kmeans options centroids0 clusters0).outcome = Outcome.did_not_converge ∧
        MTF.first_update_changes options (MT.centroid_at centroids0 0) = true ∧
        options.iteration_limit = 1) ∨
      ((MTF.kmeans options centroids0 clusters0).outcome = Outcome.did_not_converge ∧
        options.iteration_limit = 0) := by
  have hp1 := MTF.mtf_pass_one options centroids0 clusters0 hr hT hK hN hlen hcl
  have hp2 : MTF.pass options [MTF.mean_centroid options (MT.centroid_at centroids0 0)]
      ((List.range options.image_len).map (fun _ => (0 : Int))) =
      (([MTF.mean_centroid options (MTF.mean_centroid options (MT.centroid_at centroids0 0))],
        (List.range options.image_len).map (fun _ => (0 : Int))),
        MTF.first_update_changes options
          (MTF.mean_centroid options (MT.centroid_at centroids0 0))) :=
    MTF.mtf_pass_one options [MTF.mean_centroid options (MT.centroid_at centroids0 0)]
      ((List.range options.image_len).map (fun _ => (0 : Int))) hr hT hK hN rfl (by simp)
  have hc2 : MTF.first_update_changes options
      (MTF.mean_centroid options (MT.centroid_at centroids0 0)) = false :=
    MTF.mtf_second_update_unchanged options _
  have hrep : (List.range options.image_len).map (fun _ => (0 : Int)) =
      List.replicate options.image_len 0 := by simp
  rw [hrep] at hp1 hp2
  rcases Nat.lt_or_ge options.iteration_limit 1 with h0 | h1
  · have hl : options.iteration_limit = 0 := by omega
    right; right; right
    refine ⟨?_, hl⟩
    simp [MTF.kmeans, hl, MTF.kmeans_loop]
  · obtain ⟨n, hn⟩ : ∃ n, options.iteration_limit = n + 1 :=
      ⟨options.iteration_limit - 1, by omega⟩
    by_cases hf : MTF.first_update_changes options (MT.centroid_at centroids0 0) = true
    · cases n with
      | zero =>
        right; right; left
        refine ⟨?_, hf, hn⟩
        simp [MTF.kmeans, hn, MTF.kmeans_loop, hp1, hf]
      | succ n =>
        right; left
        refine ⟨?_, hf, by omega, ?_⟩
        · simp [MTF.kmeans, hn, MTF.kmeans_loop, hp1, hf, hp2, hc2]
        · simp [MTF.kmeans, hn, MTF.kmeans_loop, hp1, hf, hp2, hc2]
    · have hf' : MTF.first_update_changes options (MT.centroid_at centroids0 0) = false := by
        simpa using hf
      left
      refine ⟨?_, hf', h1, ?_⟩
      · simp [MTF.kmeans, hn, MTF.kmeans_loop, hp1, hf']
      · simp [MTF.kmeans, hn, MTF.kmeans_loop, hp1, hf']

theorem MTF.mtf_mean_centroid_rounded (options : MT.QuantizeOptions) (c : MT.Centroid)
    (hbytes : ∀ b ∈ options.image, b ≤ 255) (hsmall : options.image_len ≤ 65793) :
    (MTF.mean_centroid options c).r =
        f32 (channel_mean options.image (List.range options.image_len) 0) ∧
      (MTF.mean_centroid options c).g =
        f32 (channel_mean options.image (List.range options.image_len) 1) ∧
      (MTF.mean_centroid options c).b =
        f32 (channel_mean options.image (List.range options.image_len) 2) := by
  have hn : f32 (options.image_len : ℚ) = (options.image_len : ℚ) := f32_natCast _ (by omega)
  have ht : ∀ channel, f32_total options.image (List.range options.image_len) channel 0 =
      channel_total options.image (List.range options.image_len) channel := by
    intro channel
    have := f32_total_exact options.image hbytes channel (List.range options.image_len) 0
      (by rw [List.length_range]; omega)
    rw [Nat.cast_zero, zero_add] at this
    exact this
  unfold MTF.mean_centroid channel_mean
  simp only [hn, ht, List.length_range, and_self]

/-! ## The claims -/

/-- C1, as stated, fails on the program: on the six grey pixels 18, 65, 52, 74,
168, 13 with the initial centroids 74 and 52, the first pass in binary32 leaves
the centroids 13413035/131072 and 14505301/524288 (the floats nearest to 307/3
and 83/3).  For pixel 1 (grey 65) the program then computes the same distance
to both centroids (2118885/32768 in the multi-threaded variant, 2140843/512 in
the single-threaded one) and stores the index 0, although centroid 1 is
strictly nearer in squared Euclidean distance, so that the exact minimiser is
the index 1.  The same happens in the multi-threaded variant on the pixels 183,
25, 72, 108, 57, 203 with the initial centroids 183 and 25, for pixel 3 (grey
108) in the state after the first pass. -/
theorem C1_counterexample :
    (MTF.pass six_grey_mt_options six_grey_mt_centroids0 [0, 0, 0, 0, 0, 0]).1.1 =
        six_grey_mt_centroids ∧
      MTF.distance_from_centroid (MT.centroid_at six_grey_mt_centroids 0)
        six_grey_mt_options.image 4 = 2118885 / 32768 ∧
      MTF.distance_from_centroid (MT.centroid_at six_grey_mt_centroids 1)
        six_grey_mt_options.image 4 = 2118885 / 32768 ∧
      MTF.chunk_min_idx six_grey_mt_options six_grey_mt_centroids 1 = 0 ∧
      (MTF.assignment_phase six_grey_mt_options six_grey_mt_centroids [1, 0, 1, 0, 0, 1])[1]? =
        some 0 ∧
      STF.distance_from_centroid (ST.centroid_at six_grey_st_centroids 0)
        six_grey_st_options.image 4 = 2140843 / 512 ∧
      STF.distance_from_centroid (ST.centroid_at six_grey_st_centroids 1)
        six_grey_st_options.image 4 = 2140843 / 512 ∧
      STF.kmeans_min_idx six_grey_st_options six_grey_st_centroids 1 = 0 ∧
      sq_dist (14505301 / 524288) (14505301 / 524288) (14505301 / 524288)
          six_grey_mt_options.image 4 <
        sq_dist (13413035 / 131072) (13413035 / 131072) (13413035 / 131072)
          six_grey_mt_options.image 4 ∧
      MT.chunk_min_idx six_grey_mt_options six_grey_mt_centroids 1 = 1 ∧
      ST.kmeans_min_idx six_grey_st_options six_grey_st_centroids 1 = 1 ∧
      (MTF.pass second_grey_mt_options
        [⟨0, 183, 183, 183, 0, 0, 0⟩, ⟨0, 25, 25, 25, 0, 0, 0⟩] [0, 0, 0, 0, 0, 0]).1.1 =
        second_grey_mt_centroids ∧
      MTF.distance_from_centroid (MT.centroid_at second_grey_mt_centroids 0)
        second_grey_mt_options.image 12 = 6432329 / 65536 ∧
      MTF.distance_from_centroid (MT.centroid_at second_grey_mt_centroids 1)
        second_grey_mt_options.image 12 = 6432329 / 65536 ∧
      MTF.chunk_min_idx second_grey_mt_options second_grey_mt_centroids 3 = 0 ∧
      MT.chunk_min_idx second_grey_mt_options second_grey_mt_centroids 3 = 1 := by
  decide!

/-- C1 (amended): for a pixel buffer of N pixels and K ≥ 1 centroids, the index
that the assignment phase computes for each pixel lies in [0,K), minimises the
distance between centroid and pixel as the program computes it in binary32
arithmetic (the rounded square root of the rounded sum of squares in the
multi-threaded variant, the rounded sum of squares in the single-threaded
variant), and is the lowest index among the centroids with that minimal
computed distance.  Over exact arithmetic it minimises the squared Euclidean
distance over (R,G,B) and is the lowest index among all minimisers. -/
theorem C1_assignment_minimises_computed_distance
    (options : MT.QuantizeOptions) (centroids : List MT.Centroid) (clusters : List Int)
    (st_options : ST.QuantizeOptions) (st_centroids : List ST.Centroid)
    (st_clusters : List (List Nat))
    (hr : options.in_range) (hK : 1 ≤ options.cluster_count) (hT : 1 ≤ options.thread_count)
    (hcs : centroids.length = options.cluster_count)
    (hcl : clusters.length = options.image_len)
    (hr_st : st_options.in_range) (hK_st : 1 ≤ st_options.cluster_count)
    (hcs_st : st_centroids.length = st_options.cluster_count)
    (hcl_st : st_clusters.length = st_options.cluster_count) :
    (MT.f32_colours centroids → ∀ i, i < options.image_len →
      (MTF.assignment_phase options centroids clusters)[i]? =
          some (MTF.chunk_min_idx options centroids i) ∧
        IsLowestArgmin
          (fun j => MTF.distance_from_centroid (MT.centroid_at centroids j) options.image (4 * i))
          options.cluster_count (MTF.chunk_min_idx options centroids i)) ∧
    (ST.f32_colours st_centroids → ∀ i, i < st_options.image_len →
      (∀ j, j < st_options.cluster_count →
        (4 * i ∈ (STF.assign_points st_options st_centroids
            (ST.init_clusters st_clusters st_options)).getD j [] ↔
          STF.kmeans_min_idx st_options st_centroids i = (j : Int))) ∧
        IsLowestArgmin
          (fun j => STF.distance_from_centroid (ST.centroid_at st_centroids j) st_options.image
            (4 * i))
          st_options.cluster_count (STF.kmeans_min_idx st_options st_centroids i)) ∧
    (∀ i, i < options.image_len →
      (MT.assignment_phase options centroids clusters)[i]? =
          some (MT.chunk_min_idx options centroids i) ∧
        IsLowestArgmin
          (fun j => sq_dist (MT.centroid_at centroids j).r (MT.centroid_at centroids j).g
            (MT.centroid_at centroids j).b options.image (4 * i))
          options.cluster_count (MT.chunk_min_idx options centroids i)) ∧
    (∀ i, i < st_options.image_len →
      (∀ j, j < st_options.cluster_count →
        (4 * i ∈ (ST.assign_points st_options st_centroids
            (ST.init_clusters st_clusters st_options)).getD j [] ↔
          ST.kmeans_min_idx st_options st_centroids i = (j : Int))) ∧
        IsLowestArgmin
          (fun j => sq_dist (ST.centroid_at st_centroids j).c0 (ST.centroid_at st_centroids j).c1
            (ST.centroid_at st_centroids j).c2 st_options.image (4 * i))
          st_options.cluster_count (ST.kmeans_min_idx st_options st_centroids i)) := by
  refine ⟨?_, ?_, ?_, ?_⟩
  · intro _ i hi
    refine ⟨?_, MTF.mtf_min_idx_spec options centroids hr hK i hi⟩
    rw [MTF.mtf_assignment_phase_eq options centroids clusters hr hT hcl, List.getElem?_map,
      List.getElem?_range hi]
    rfl
  · intro _ i hi
    exact ⟨fun j hj =>
      STF.stf_mem_assigned_iff st_options st_centroids st_clusters hr_st hcl_st i j hi hj,
      STF.stf_min_idx_spec st_options st_centroids hr_st hK_st i hi⟩
  · intro i hi
    refine ⟨?_, MT.min_idx_spec options centroids hr hK i hi⟩
    rw [MT.assignment_phase_eq options centroids clusters hr hT hcl, List.getElem?_map,
      List.getElem?_range hi]
    rfl
  · intro i hi
    exact ⟨fun j hj => ST.mem_assigned_iff st_options st_centroids st_clusters hr_st hcl_st i j hi hj,
      ST.st_min_idx_spec st_options st_centroids hr_st hK_st i hi⟩

/-- C1 (amended) at the run on the six grey pixels, in the state after the
first pass: the hypotheses hold, the centroid colours are binary32 numbers, and
pixel 1 receives in both variants the index 0, the lowest index with the
minimal computed distance. -/
theorem C1_witness :
    six_grey_mt_options.in_range ∧ 1 ≤ six_grey_mt_options.cluster_count ∧
      1 ≤ six_grey_mt_options.thread_count ∧
      six_grey_mt_centroids.length = six_grey_mt_options.cluster_count ∧
      ([1, 0, 1, 0, 0, 1] : List Int).length = six_grey_mt_options.image_len ∧
      six_grey_st_options.in_range ∧ 1 ≤ six_grey_st_options.cluster_count ∧
      six_grey_st_centroids.length = six_grey_st_options.cluster_count ∧
      ([[], []] : List (List Nat)).length = six_grey_st_options.cluster_count ∧
      MT.f32_colours six_grey_mt_centroids ∧ ST.f32_colours six_grey_st_centroids ∧
      MTF.chunk_min_idx six_grey_mt_options six_grey_mt_centroids 1 = 0 ∧
      IsLowestArgmin
        (fun j => MTF.distance_from_centroid (MT.centroid_at six_grey_mt_centroids j)
          six_grey_mt_options.image (4 * 1))
        six_grey_mt_options.cluster_count
        (MTF.chunk_min_idx six_grey_mt_options six_grey_mt_centroids 1) ∧
      IsLowestArgmin
        (fun j => STF.distance_from_centroid (ST.centroid_at six_grey_st_centroids j)
          six_grey_st_options.image (4 * 1))
        six_grey_st_options.cluster_count
        (STF.kmeans_min_idx six_grey_st_options six_grey_st_centroids 1) :=
  ⟨by decide, by decide, by decide, by decide, by decide, by decide, by decide, by decide,
    by decide, by decide!, by decide!, by decide!,
    ((C1_assignment_minimises_computed_distance six_grey_mt_options six_grey_mt_centroids
      [1, 0, 1, 0, 0, 1] six_grey_st_options six_grey_st_centroids [[], []] (by decide)
      (by decide) (by decide) (by decide) (by decide) (by decide) (by decide) (by decide)
      (by decide)).1 (by decide!) 1 (by decide)).2,
    ((C1_assignment_minimises_computed_distance six_grey_mt_options six_grey_mt_centroids
      [1, 0, 1, 0, 0, 1] six_grey_st_options six_grey_st_centroids [[], []] (by decide)
      (by decide) (by decide) (by decide) (by decide) (by decide) (by decide) (by decide)
      (by decide)).2.1 (by decide!) 1 (by decide)).2⟩

/-- C2, as stated, fails on the program: for the five grey pixels 20, 20, 20,
20, 21, all assigned to one centroid, `update_centroids` leaves the colour
5295309/262144 (the binary32 number 20.2000008) in the centroid, not the
arithmetic mean 101/5, in both variants.  A binary32 accumulator cannot hold
every sum: adding 1 to 2^24 or 255 to 2^32 leaves it unchanged. -/
theorem C2_counterexample :
    (MTF.update_centroids [⟨0, 20, 20, 20, 0, 0, 0⟩] [0, 0, 0, 0, 0] five_grey_mt_options).1 =
        [⟨5, 5295309 / 262144, 5295309 / 262144, 5295309 / 262144, 20, 20, 20⟩] ∧
      channel_mean five_grey_mt_options.image
        (MT.members five_grey_mt_options [0, 0, 0, 0, 0] 0) 0 = 101 / 5 ∧
      (5295309 / 262144 : ℚ) ≠ 101 / 5 ∧
      (STF.update_centroids [⟨20, 20, 20⟩] [[0, 4, 8, 12, 16]] five_grey_st_options).1 =
        [⟨5295309 / 262144, 5295309 / 262144, 5295309 / 262144⟩] ∧
      ST.channel_mean five_grey_st_options.image [0, 4, 8, 12, 16] 0 = 101 / 5 ∧
      f32 (16777216 + 1) = 16777216 ∧ f32 (4294967296 + 255) = 4294967296 := by
  decide!

/-- C2 (amended): for a pixel buffer and an assignment whose entries are all in
[0,K), after `update_centroids` every centroid has a count equal to the number
of pixels assigned to it and `prev_r`, `prev_g`, `prev_b` equal to the colour
it had before the update, and every centroid with at least one assigned pixel
has `r`, `g`, `b` equal to the binary32 quotient of the sum of that channel
over exactly the pixels assigned to it, accumulated in binary32 in pixel order,
by the count converted to `float`.  When at most 65793 pixels are assigned to
the centroid (the sum of bytes stays below 2^24) this is the arithmetic mean of
the channel rounded to the nearest binary32 number.  Over exact arithmetic it
is the arithmetic mean.  In the single-threaded variant the assignment is the
array of cluster vectors. -/
theorem C2_update_centroids_binary32_mean_count_prev
    (options : MT.QuantizeOptions) (centroids : List MT.Centroid) (clusters : List Int)
    (st_options : ST.QuantizeOptions) (st_centroids : List ST.Centroid)
    (st_clusters : List (List Nat))
    (hr : options.in_range) (hlen : centroids.length = options.cluster_count)
    (hcl : clusters.length = options.image_len)
    (hvalid : ∀ a ∈ clusters, 0 ≤ a ∧ a < (options.cluster_count : Int))
    (hr_st : st_options.in_range)
    (hlen_st : st_centroids.length = st_options.cluster_count)
    (hcl_st : st_clusters.length = st_options.cluster_count)
    (hvalid_st : ∀ v ∈ st_clusters, ∀ point ∈ v,
      ∃ i, i < st_options.image_len ∧ point = 4 * i) :
    (∀ j, j < options.cluster_count →
      (MT.centroid_at (MTF.update_centroids centroids clusters options).1 j).count =
          (MT.members options clusters j).length ∧
        (MT.centroid_at (MTF.update_centroids centroids clusters options).1 j).prev_r =
          (MT.centroid_at centroids j).r ∧
        (MT.centroid_at (MTF.update_centroids centroids clusters options).1 j).prev_g =
          (MT.centroid_at centroids j).g ∧
        (MT.centroid_at (MTF.update_centroids centroids clusters options).1 j).prev_b =
          (MT.centroid_at centroids j).b ∧
        (0 < (MT.members options clusters j).length →
          ((MT.centroid_at (MTF.update_centroids centroids clusters options).1 j).r =
              f32 (f32_total options.image (MT.members options clusters j) 0 0 /
                f32 ((MT.members options clusters j).length : ℚ)) ∧
            (MT.centroid_at (MTF.update_centroids centroids clusters options).1 j).g =
              f32 (f32_total options.image (MT.members options clusters j) 1 0 /
                f32 ((MT.members options clusters j).length : ℚ)) ∧
            (MT.centroid_at (MTF.update_centroids centroids clusters options).1 j).b =
              f32 (f32_total options.image (MT.members options clusters j) 2 0 /
                f32 ((MT.members options clusters j).length : ℚ))) ∧
          ((∀ b ∈ options.image, b ≤ 255) → (MT.members options clusters j).length ≤ 65793 →
            (MT.centroid_at (MTF.update_centroids centroids clusters options).1 j).r =
                f32 (channel_mean options.image (MT.members options clusters j) 0) ∧
              (MT.centroid_at (MTF.update_centroids centroids clusters options).1 j).g =
                f32 (channel_mean options.image (MT.members options clusters j) 1) ∧
              (MT.centroid_at (MTF.update_centroids centroids clusters options).1 j).b =
                f32 (channel_mean options.image (MT.members options clusters j) 2)))) ∧
    (∀ j, j < st_options.cluster_count → 0 < (st_clusters.getD j []).length →
      ((ST.centroid_at (STF.update_centroids st_centroids st_clusters st_options).1 j).c0 =
          f32 (STF.channel_sum st_options.image (st_clusters.getD j []) 0 /
            f32 ((st_clusters.getD j []).length : ℚ)) ∧
        (ST.centroid_at (STF.update_centroids st_centroids st_clusters st_options).1 j).c1 =
          f32 (STF.channel_sum st_options.image (st_clusters.getD j []) 1 /
            f32 ((st_clusters.getD j []).length : ℚ)) ∧
        (ST.centroid_at (STF.update_centroids st_centroids st_clusters st_options).1 j).c2 =
          f32 (STF.channel_sum st_options.image (st_clusters.getD j []) 2 /
            f32 ((st_clusters.getD j []).length : ℚ))) ∧
      ((∀ b ∈ st_options.image, b ≤ 255) → (st_clusters.getD j []).length ≤ 65793 →
        (ST.centroid_at (STF.update_centroids st_centroids st_clusters st_options).1 j).c0 =
            f32 (ST.channel_mean st_options.image (st_clusters.getD j []) 0) ∧
          (ST.centroid_at (STF.update_centroids st_centroids st_clusters st_options).1 j).c1 =
            f32 (ST.channel_mean st_options.image (st_clusters.getD j []) 1) ∧
          (ST.centroid_at (STF.update_centroids st_centroids st_clusters st_options).1 j).c2 =
            f32 (ST.channel_mean st_options.image (st_clusters.getD j []) 2))) ∧
    (∀ j, j < options.cluster_count →
      (MT.centroid_at (MT.update_centroids centroids clusters options).1 j).count =
          (MT.members options clusters j).length ∧
        (MT.centroid_at (MT.update_centroids centroids clusters options).1 j).prev_r =
          (MT.centroid_at centroids j).r ∧
        (MT.centroid_at (MT.update_centroids centroids clusters options).1 j).prev_g =
          (MT.centroid_at centroids j).g ∧
        (MT.centroid_at (MT.update_centroids centroids clusters options).1 j).prev_b =
          (MT.centroid_at centroids j).b ∧
        (0 < (MT.members options clusters j).length →
          (MT.centroid_at (MT.update_centroids centroids clusters options).1 j).r =
              channel_mean options.image (MT.members options clusters j) 0 ∧
            (MT.centroid_at (MT.update_centroids centroids clusters options).1 j).g =
              channel_mean options.image (MT.members options clusters j) 1 ∧
            (MT.centroid_at (MT.update_centroids centroids clusters options).1 j).b =
              channel_mean options.image (MT.members options clusters j) 2)) ∧
    (∀ j, j < st_options.cluster_count → 0 < (st_clusters.getD j []).length →
      (ST.centroid_at (ST.update_centroids st_centroids st_clusters st_options).1 j).c0 =
          ST.channel_mean st_options.image (st_clusters.getD j []) 0 ∧
        (ST.centroid_at (ST.update_centroids st_centroids st_clusters st_options).1 j).c1 =
          ST.channel_mean st_options.image (st_clusters.getD j []) 1 ∧
        (ST.centroid_at (ST.update_centroids st_centroids st_clusters st_options).1 j).c2 =
          ST.channel_mean st_options.image (st_clusters.getD j []) 2) := by
  refine ⟨?_, ?_, ?_, ?_⟩
  · intro j hj
    rw [MTF.mtf_centroid_at_update centroids clusters options hlen hr.2.1 j hj]
    obtain ⟨h1, h2, h3, h4⟩ := MTF.mtf_updated_fields options clusters (MT.centroid_at centroids j) j
    exact ⟨h1, h2, h3, h4, fun hpos =>
      ⟨MTF.mtf_updated_quotient options clusters _ j hpos,
        fun hbytes hsmall => MTF.mtf_updated_rounded_mean options clusters _ j hbytes hpos hsmall⟩⟩
  · intro j hj hpos
    rw [STF.stf_centroid_at_update st_centroids st_clusters st_options hlen_st j hj]
    refine ⟨?_, fun hbytes hsmall =>
      ⟨STF.stf_new_channel_rounded_mean _ _ 0 hbytes hpos hsmall,
        STF.stf_new_channel_rounded_mean _ _ 1 hbytes hpos hsmall,
        STF.stf_new_channel_rounded_mean _ _ 2 hbytes hpos hsmall⟩⟩
    simp only [STF.updated, STF.new_channel, gt_iff_lt, hpos, if_true, and_self]
  · intro j hj
    rw [MT.centroid_at_update centroids clusters options hlen hr.2.1 j hj]
    obtain ⟨h1, h2, h3, h4⟩ := MT.updated_fields options clusters (MT.centroid_at centroids j) j
    exact ⟨h1, h2, h3, h4, MT.updated_mean options clusters _ j⟩
  · intro j hj hpos
    rw [ST.st_centroid_at_update st_centroids st_clusters st_options hlen_st j hj]
    exact ⟨ST.new_channel_mean _ _ 0 hpos, ST.new_channel_mean _ _ 1 hpos,
      ST.new_channel_mean _ _ 2 hpos⟩

/-- C2 (amended) at the five grey pixels 20, 20, 20, 20, 21, all assigned to
the single centroid: the hypotheses hold, and the centroid gets the count 5,
the saved colour 20 and the red value 5295309/262144, the mean 101/5 rounded to
binary32. -/
theorem C2_witness :
    five_grey_mt_options.in_range ∧
      ([⟨0, 20, 20, 20, 0, 0, 0⟩] : List MT.Centroid).length =
        five_grey_mt_options.cluster_count ∧
      ([0, 0, 0, 0, 0] : List Int).length = five_grey_mt_options.image_len ∧
      (∀ a ∈ ([0, 0, 0, 0, 0] : List Int),
        0 ≤ a ∧ a < (five_grey_mt_options.cluster_count : Int)) ∧
      five_grey_st_options.in_range ∧
      ([⟨20, 20, 20⟩] : List ST.Centroid).length = five_grey_st_options.cluster_count ∧
      ([[0, 4, 8, 12, 16]] : List (List Nat)).length = five_grey_st_options.cluster_count ∧
      (∀ v ∈ ([[0, 4, 8, 12, 16]] : List (List Nat)), ∀ point ∈ v,
        ∃ i, i < five_grey_st_options.image_len ∧ point = 4 * i) ∧
      0 < (MT.members five_grey_mt_options [0, 0, 0, 0, 0] 0).length ∧
      (∀ b ∈ five_grey_mt_options.image, b ≤ 255) ∧
      (MT.members five_grey_mt_options [0, 0, 0, 0, 0] 0).length ≤ 65793 ∧
      f32 (channel_mean five_grey_mt_options.image
        (MT.members five_grey_mt_options [0, 0, 0, 0, 0] 0) 0) = 5295309 / 262144 ∧
      (MT.centroid_at (MTF.update_centroids [⟨0, 20, 20, 20, 0, 0, 0⟩] [0, 0, 0, 0, 0]
        five_grey_mt_options).1 0).count =
        (MT.members five_grey_mt_options [0, 0, 0, 0, 0] 0).length ∧
      (MT.centroid_at (MTF.update_centroids [⟨0, 20, 20, 20, 0, 0, 0⟩] [0, 0, 0, 0, 0]
        five_grey_mt_options).1 0).r =
        f32 (channel_mean five_grey_mt_options.image
          (MT.members five_grey_mt_options [0, 0, 0, 0, 0] 0) 0) :=
  ⟨by decide, by decide, by decide, by decide, by decide, by decide, by decide, by decide,
    by decide, by decide, by decide, by decide!,
    ((C2_update_centroids_binary32_mean_count_prev five_grey_mt_options
      [⟨0, 20, 20, 20, 0, 0, 0⟩] [0, 0, 0, 0, 0] five_grey_st_options [⟨20, 20, 20⟩]
      [[0, 4, 8, 12, 16]] (by decide) (by decide) (by decide) (by decide) (by decide)
      (by decide) (by decide) (by decide)).1 0 (by decide)).1,
    ((((C2_update_centroids_binary32_mean_count_prev five_grey_mt_options
      [⟨0, 20, 20, 20, 0, 0, 0⟩] [0, 0, 0, 0, 0] five_grey_st_options [⟨20, 20, 20⟩]
      [[0, 4, 8, 12, 16]] (by decide) (by decide) (by decide) (by decide) (by decide)
      (by decide) (by decide) (by decide)).1 0 (by decide)).2.2.2.2 (by decide)).2 (by decide)
      (by decide)).1⟩

/-- C4: `kmeans` runs at most `iteration_limit` passes (assignment and update),
and whenever it returns a count r, then 1 ≤ r ≤ iteration_limit, r is the
number of passes performed, the r-th update reported no change and every
earlier update reported a change.  The trace of the run lists the value
reported by each pass performed. -/
theorem C4_returned_count_is_number_of_passes
    (options : MT.QuantizeOptions) (centroids0 : List MT.Centroid) (clusters0 : List Int)
    (st_options : ST.QuantizeOptions) (st_centroids0 : List ST.Centroid) :
    ((MT.kmeans options centroids0 clusters0).trace.length ≤ options.iteration_limit ∧
      (∀ k, k < (MT.kmeans options centroids0 clusters0).trace.length →
        (MT.kmeans options centroids0 clusters0).trace[k]? =
          some (MT.changed_at options centroids0 clusters0 k)) ∧
      ∀ r, (MT.kmeans options centroids0 clusters0).outcome = Outcome.returned r →
        1 ≤ r ∧ r ≤ options.iteration_limit ∧
          (MT.kmeans options centroids0 clusters0).trace.length = r ∧
          MT.changed_at options centroids0 clusters0 (r - 1) = false ∧
          ∀ k, k + 1 < r → MT.changed_at options centroids0 clusters0 k = true) ∧
    ((ST.kmeans st_options st_centroids0).trace.length ≤ st_options.iteration_limit ∧
      (∀ k, k < (ST.kmeans st_options st_centroids0).trace.length →
        (ST.kmeans st_options st_centroids0).trace[k]? =
          some (ST.changed_at st_options st_centroids0 k)) ∧
      ∀ r, (ST.kmeans st_options st_centroids0).outcome = Outcome.returned r →
        1 ≤ r ∧ r ≤ st_options.iteration_limit ∧
          (ST.kmeans st_options st_centroids0).trace.length = r ∧
          ST.changed_at st_options st_centroids0 (r - 1) = false ∧
          ∀ k, k + 1 < r → ST.changed_at st_options st_centroids0 k = true) := by
  constructor
  · obtain ⟨m, hm, htr, _, hall, hout⟩ := MT.kmeans_spec options centroids0 clusters0
    have hlen : (MT.kmeans options centroids0 clusters0).trace.length = m := by
      rw [htr, List.length_map, List.length_range]
    refine ⟨by omega, ?_, ?_⟩
    · intro k hk
      rw [htr]
      exact trace_getElem? _ m k (by omega)
    · intro r hr
      rcases hout with ⟨a, b, c, _⟩ | ⟨a, _⟩
      · rw [a] at hr
        have hmr : m = r := by injection hr
        subst hmr
        exact ⟨b, hm, hlen, c, hall⟩
      · rw [a] at hr
        cases hr
  · obtain ⟨m, hm, htr, _, hall, hout⟩ := ST.st_kmeans_spec st_options st_centroids0
    have hlen : (ST.kmeans st_options st_centroids0).trace.length = m := by
      rw [htr, List.length_map, List.length_range]
    refine ⟨by omega, ?_, ?_⟩
    · intro k hk
      rw [htr]
      exact trace_getElem? _ m k (by omega)
    · intro r hr
      rcases hout with ⟨a, b, c, _⟩ | ⟨a, _⟩
      · rw [a] at hr
        have hmr : m = r := by injection hr
        subst hmr
        exact ⟨b, hm, hlen, c, hall⟩
      · rw [a] at hr
        cases hr

/-- C4 at the grey run: `kmeans` returns 2 in both variants, which is the
number of passes performed; the first pass reported a change and the second
reported none. -/
theorem C4_witness :
    (MT.kmeans grey_mt_options grey_mt_centroids grey_clusters0).outcome = Outcome.returned 2 ∧
      (ST.kmeans grey_st_options grey_st_centroids).outcome = Outcome.returned 2 ∧
      (1 ≤ 2 ∧ 2 ≤ grey_mt_options.iteration_limit ∧
        (MT.kmeans grey_mt_options grey_mt_centroids grey_clusters0).trace.length = 2 ∧
        MT.changed_at grey_mt_options grey_mt_centroids grey_clusters0 (2 - 1) = false ∧
        ∀ k, k + 1 < 2 → MT.changed_at grey_mt_options grey_mt_centroids grey_clusters0 k = true) ∧
      (1 ≤ 2 ∧ 2 ≤ grey_st_options.iteration_limit ∧
        (ST.kmeans grey_st_options grey_st_centroids).trace.length = 2 ∧
        ST.changed_at grey_st_options grey_st_centroids (2 - 1) = false ∧
        ∀ k, k + 1 < 2 → ST.changed_at grey_st_options grey_st_centroids k = true) :=
  ⟨by decide!, by decide!,
    (C4_returned_count_is_number_of_passes grey_mt_options grey_mt_centroids grey_clusters0
      grey_st_options grey_st_centroids).1.2.2 2 (by decide!),
    (C4_returned_count_is_number_of_passes grey_mt_options grey_mt_centroids grey_clusters0
      grey_st_options grey_st_centroids).2.2.2 2 (by decide!)⟩

/-- C5: `kmeans` ends in the failure outcome ("Did not converge") exactly when
every one of the first `iteration_limit` passes reports a change, in particular
whenever `iteration_limit` is 0; in every other case it returns an iteration
count.  It performs no pass beyond the limit.  The outcome is a function of the
pixel buffer, the cluster count, the initial centroids and the limit alone: in
the multi-threaded variant it depends neither on the number of worker threads
(at least one) nor on the initial content of the array `clusters`; the
single-threaded `kmeans` has no other input. -/
theorem C5_failure_iff_all_passes_change
    (options : MT.QuantizeOptions) (centroids0 : List MT.Centroid) (clusters0 : List Int)
    (st_options : ST.QuantizeOptions) (st_centroids0 : List ST.Centroid) :
    (((MT.kmeans options centroids0 clusters0).outcome = Outcome.did_not_converge ↔
        ∀ k, k < options.iteration_limit →
          MT.changed_at options centroids0 clusters0 k = true) ∧
      ((MT.kmeans options centroids0 clusters0).outcome ≠ Outcome.did_not_converge →
        ∃ r, (MT.kmeans options centroids0 clusters0).outcome = Outcome.returned r ∧
          1 ≤ r ∧ r ≤ options.iteration_limit) ∧
      (options.iteration_limit = 0 →
        (MT.kmeans options centroids0 clusters0).outcome = Outcome.did_not_converge) ∧
      (MT.kmeans options centroids0 clusters0).trace.length ≤ options.iteration_limit ∧
      ∀ (options' : MT.QuantizeOptions) (clusters0' : List Int),
        options'.image = options.image → options'.image_len = options.image_len →
        options'.cluster_count = options.cluster_count →
        options'.iteration_limit = options.iteration_limit →
        options.in_range → options'.in_range →
        1 ≤ options.thread_count → 1 ≤ options'.thread_count →
        clusters0.length = options.image_len → clusters0'.length = options.image_len →
        (MT.kmeans options' centroids0 clusters0').outcome =
          (MT.kmeans options centroids0 clusters0).outcome) ∧
    (((ST.kmeans st_options st_centroids0).outcome = Outcome.did_not_converge ↔
        ∀ k, k < st_options.iteration_limit →
          ST.changed_at st_options st_centroids0 k = true) ∧
      ((ST.kmeans st_options st_centroids0).outcome ≠ Outcome.did_not_converge →
        ∃ r, (ST.kmeans st_options st_centroids0).outcome = Outcome.returned r ∧
          1 ≤ r ∧ r ≤ st_options.iteration_limit) ∧
      (st_options.iteration_limit = 0 →
        (ST.kmeans st_options st_centroids0).outcome = Outcome.did_not_converge) ∧
      (ST.kmeans st_options st_centroids0).trace.length ≤ st_options.iteration_limit ∧
      ∀ (st_options' : ST.QuantizeOptions),
        st_options'.image = st_options.image → st_options'.image_len = st_options.image_len →
        st_options'.cluster_count = st_options.cluster_count →
        st_options'.iteration_limit = st_options.iteration_limit →
        (ST.kmeans st_options' st_centroids0).outcome =
          (ST.kmeans st_options st_centroids0).outcome) := by
  constructor
  · obtain ⟨m, hm, htr, _, _, hout⟩ := MT.kmeans_spec options centroids0 clusters0
    have hlen : (MT.kmeans options centroids0 clusters0).trace.length = m := by
      rw [htr, List.length_map, List.length_range]
    have h3 : ((MT.kmeans options centroids0 clusters0).outcome = Outcome.returned m ∧ 0 < m ∧
          MT.changed_at options centroids0 clusters0 (m - 1) = false) ∨
        ((MT.kmeans options centroids0 clusters0).outcome = Outcome.did_not_converge ∧
          m = options.iteration_limit ∧
          ∀ k, k < m → MT.changed_at options centroids0 clusters0 k = true) := by
      rcases hout with ⟨a, b, c, _⟩ | ⟨a, b, c, _⟩
      · exact Or.inl ⟨a, b, c⟩
      · exact Or.inr ⟨a, b, c⟩
    obtain ⟨i1, i2, i3⟩ := outcome_iff _ options.iteration_limit m _ hm h3
    refine ⟨i1, i2, i3, by omega, ?_⟩
    intro options' clusters0' e1 e2 e3 e4 hr hr' hT hT' hcl hcl'
    exact MT.kmeans_outcome_congr options options' centroids0 clusters0 clusters0' ⟨e1, e2, e3⟩ e4
      hr hr' hT hT' hcl hcl'
  · obtain ⟨m, hm, htr, _, _, hout⟩ := ST.st_kmeans_spec st_options st_centroids0
    have hlen : (ST.kmeans st_options st_centroids0).trace.length = m := by
      rw [htr, List.length_map, List.length_range]
    have h3 : ((ST.kmeans st_options st_centroids0).outcome = Outcome.returned m ∧ 0 < m ∧
          ST.changed_at st_options st_centroids0 (m - 1) = false) ∨
        ((ST.kmeans st_options st_centroids0).outcome = Outcome.did_not_converge ∧
          m = st_options.iteration_limit ∧
          ∀ k, k < m → ST.changed_at st_options st_centroids0 k = true) := by
      rcases hout with ⟨a, b, c, _⟩ | ⟨a, b, c, _⟩
      · exact Or.inl ⟨a, b, c⟩
      · exact Or.inr ⟨a, b, c⟩
    obtain ⟨i1, i2, i3⟩ := outcome_iff _ st_options.iteration_limit m _ hm h3
    refine ⟨i1, i2, i3, by omega, ?_⟩
    intro st_options' e1 e2 e3 e4
    cases st_options with
    | mk img N K L =>
      cases st_options' with
      | mk img' N' K' L' =>
        simp only at e1 e2 e3 e4
        subst e1 e2 e3 e4
        rfl

/-- C5 at the grey run: with one worker thread instead of two and another
initial content of `clusters`, the outcome of `kmeans` is the same. -/
theorem C5_witness :
    grey_mt_options_single.image = grey_mt_options.image ∧
      grey_mt_options_single.image_len = grey_mt_options.image_len ∧
      grey_mt_options_single.cluster_count = grey_mt_options.cluster_count ∧
      grey_mt_options_single.iteration_limit = grey_mt_options.iteration_limit ∧
      grey_mt_options.in_range ∧ grey_mt_options_single.in_range ∧
      1 ≤ grey_mt_options.thread_count ∧ 1 ≤ grey_mt_options_single.thread_count ∧
      grey_clusters0.length = grey_mt_options.image_len ∧
      ([7, 7, 7, 7, 7] : List Int).length = grey_mt_options.image_len ∧
      (MT.kmeans grey_mt_options_single grey_mt_centroids [7, 7, 7, 7, 7]).outcome =
        (MT.kmeans grey_mt_options grey_mt_centroids grey_clusters0).outcome :=
  ⟨by decide, by decide, by decide, by decide, by decide, by decide, by decide, by decide,
    by decide, by decide,
    (C5_failure_iff_all_passes_change grey_mt_options grey_mt_centroids grey_clusters0
      grey_st_options grey_st_centroids).1.2.2.2.2 grey_mt_options_single [7, 7, 7, 7, 7]
      (by decide) (by decide) (by decide) (by decide) (by decide) (by decide) (by decide)
      (by decide) (by decide) (by decide)⟩

/-- C6: after `kmeans` returns successfully with K ≥ 1, the (R,G,B) bytes of
every pixel equal the byte-converted colour of the final centroid at the index
last assigned to that pixel (the nearest centroid computed in the last pass, an
index in [0,K)), and therefore the output image contains at most K distinct
(R,G,B) colours. -/
theorem C6_output_pixels_are_final_centroid_colours
    (options : MT.QuantizeOptions) (centroids0 : List MT.Centroid) (clusters0 : List Int)
    (st_options : ST.QuantizeOptions) (st_centroids0 : List ST.Centroid) (r st_r : Nat)
    (hr : options.in_range) (hK : 1 ≤ options.cluster_count) (hT : 1 ≤ options.thread_count)
    (hcs : centroids0.length = options.cluster_count)
    (hcl : clusters0.length = options.image_len)
    (hret : (MT.kmeans options centroids0 clusters0).outcome = Outcome.returned r)
    (hr_st : st_options.in_range) (hK_st : 1 ≤ st_options.cluster_count)
    (hcs_st : st_centroids0.length = st_options.cluster_count)
    (hret_st : (ST.kmeans st_options st_centroids0).outcome = Outcome.returned st_r) :
    ((∀ i, i < options.image_len →
        (MT.kmeans options centroids0 clusters0).clusters.getD i 0 =
            MT.chunk_min_idx options (MT.state_after options centroids0 clusters0 (r - 1)).1 i ∧
          0 ≤ (MT.kmeans options centroids0 clusters0).clusters.getD i 0 ∧
          (MT.kmeans options centroids0 clusters0).clusters.getD i 0 <
            (options.cluster_count : Int) ∧
          pixel_rgb (MT.kmeans options centroids0 clusters0).image i =
            MT.byte_colour (MT.centroid_at_int (MT.kmeans options centroids0 clusters0).centroids
              ((MT.kmeans options centroids0 clusters0).clusters.getD i 0))) ∧
      ((List.range options.image_len).map
        (pixel_rgb (MT.kmeans options centroids0 clusters0).image)).toFinset.card ≤
          options.cluster_count) ∧
    ((∀ i, i < st_options.image_len →
        0 ≤ ST.kmeans_min_idx st_options
            (ST.state_after st_options st_centroids0 (st_r - 1)).1 i ∧
          ST.kmeans_min_idx st_options (ST.state_after st_options st_centroids0 (st_r - 1)).1 i <
            (st_options.cluster_count : Int) ∧
          4 * i ∈ (ST.kmeans st_options st_centroids0).clusters.getD
            (ST.kmeans_min_idx st_options
              (ST.state_after st_options st_centroids0 (st_r - 1)).1 i).toNat [] ∧
          pixel_rgb (ST.kmeans st_options st_centroids0).image i =
            ST.byte_colour (ST.centroid_at (ST.kmeans st_options st_centroids0).centroids
              (ST.kmeans_min_idx st_options
                (ST.state_after st_options st_centroids0 (st_r - 1)).1 i).toNat)) ∧
      ((List.range st_options.image_len).map
        (pixel_rgb (ST.kmeans st_options st_centroids0).image)).toFinset.card ≤
          st_options.cluster_count) := by
  constructor
  · obtain ⟨himg, hcls, _, _⟩ := MT.kmeans_returned options centroids0 clusters0 r hr hT hcl hret
    have hpix : ∀ i, i < options.image_len →
        (MT.kmeans options centroids0 clusters0).clusters.getD i 0 =
            MT.chunk_min_idx options (MT.state_after options centroids0 clusters0 (r - 1)).1 i ∧
          0 ≤ (MT.kmeans options centroids0 clusters0).clusters.getD i 0 ∧
          (MT.kmeans options centroids0 clusters0).clusters.getD i 0 <
            (options.cluster_count : Int) ∧
          pixel_rgb (MT.kmeans options centroids0 clusters0).image i =
            MT.byte_colour (MT.centroid_at_int (MT.kmeans options centroids0 clusters0).centroids
              ((MT.kmeans options centroids0 clusters0).clusters.getD i 0)) := by
      intro i hi
      have hidx : (MT.kmeans options centroids0 clusters0).clusters.getD i 0 =
          MT.chunk_min_idx options (MT.state_after options centroids0 clusters0 (r - 1)).1 i := by
        rw [hcls]
        exact getD_map_range _ _ _ _ hi
      obtain ⟨h0, hlt, _, _⟩ := MT.min_idx_spec options
        (MT.state_after options centroids0 clusters0 (r - 1)).1 hr hK i hi
      refine ⟨hidx, by rw [hidx]; exact h0, by rw [hidx]; exact hlt, ?_⟩
      rw [himg]
      exact MT.write_back_pixel options _ _ hr i hi
    refine ⟨hpix, ?_⟩
    apply card_le_of_forall_mem _
      (fun j => MT.byte_colour (MT.centroid_at (MT.kmeans options centroids0 clusters0).centroids j))
    intro x hx
    obtain ⟨i, hi, rfl⟩ := List.mem_map.mp hx
    obtain ⟨_, h0, hlt, hp⟩ := hpix i (List.mem_range.mp hi)
    refine ⟨((MT.kmeans options centroids0 clusters0).clusters.getD i 0).toNat, by omega, ?_⟩
    rw [hp, MT.centroid_at_int_eq _ _ h0]
  · obtain ⟨himg, hcls, _, _⟩ := ST.st_kmeans_returned st_options st_centroids0 st_r hret_st
    have hpix : ∀ i, i < st_options.image_len →
        0 ≤ ST.kmeans_min_idx st_options
            (ST.state_after st_options st_centroids0 (st_r - 1)).1 i ∧
          ST.kmeans_min_idx st_options (ST.state_after st_options st_centroids0 (st_r - 1)).1 i <
            (st_options.cluster_count : Int) ∧
          4 * i ∈ (ST.kmeans st_options st_centroids0).clusters.getD
            (ST.kmeans_min_idx st_options
              (ST.state_after st_options st_centroids0 (st_r - 1)).1 i).toNat [] ∧
          pixel_rgb (ST.kmeans st_options st_centroids0).image i =
            ST.byte_colour (ST.centroid_at (ST.kmeans st_options st_centroids0).centroids
              (ST.kmeans_min_idx st_options
                (ST.state_after st_options st_centroids0 (st_r - 1)).1 i).toNat) := by
      intro i hi
      obtain ⟨h0, hlt, _, _⟩ := ST.st_min_idx_spec st_options
        (ST.state_after st_options st_centroids0 (st_r - 1)).1 hr_st hK_st i hi
      refine ⟨h0, hlt, ?_, ?_⟩
      · rw [hcls, getD_map_range _ _ _ _ (by omega)]
        refine List.mem_map.mpr ⟨i, ?_, point_off_of_le i _ hi hr_st.2.1⟩
        unfold ST.members
        exact List.mem_filter.mpr ⟨List.mem_range.mpr hi, by simp; omega⟩
      · rw [himg, hcls]
        exact ST.st_write_back_pixel st_options _ _ hr_st hK_st i hi
    refine ⟨hpix, ?_⟩
    apply card_le_of_forall_mem _
      (fun j => ST.byte_colour (ST.centroid_at (ST.kmeans st_options st_centroids0).centroids j))
    intro x hx
    obtain ⟨i, hi, rfl⟩ := List.mem_map.mp hx
    obtain ⟨h0, hlt, _, hp⟩ := hpix i (List.mem_range.mp hi)
    exact ⟨_, by omega, hp⟩

/-- C6 at the grey run: the hypotheses hold (`kmeans` returns 2 in both
variants), pixel 1 has the bytes of its final centroid and the output has at
most three colours. -/
theorem C6_witness :
    grey_mt_options.in_range ∧ 1 ≤ grey_mt_options.cluster_count ∧
      1 ≤ grey_mt_options.thread_count ∧
      grey_mt_centroids.length = grey_mt_options.cluster_count ∧
      grey_clusters0.length = grey_mt_options.image_len ∧
      (MT.kmeans grey_mt_options grey_mt_centroids grey_clusters0).outcome = Outcome.returned 2 ∧
      grey_st_options.in_range ∧ 1 ≤ grey_st_options.cluster_count ∧
      grey_st_centroids.length = grey_st_options.cluster_count ∧
      (ST.kmeans grey_st_options grey_st_centroids).outcome = Outcome.returned 2 ∧
      pixel_rgb (MT.kmeans grey_mt_options grey_mt_centroids grey_clusters0).image 1 =
        MT.byte_colour
          (MT.centroid_at_int (MT.kmeans grey_mt_options grey_mt_centroids grey_clusters0).centroids
            ((MT.kmeans grey_mt_options grey_mt_centroids grey_clusters0).clusters.getD 1 0)) ∧
      ((List.range grey_mt_options.image_len).map
        (pixel_rgb (MT.kmeans grey_mt_options grey_mt_centroids grey_clusters0).image)).toFinset.card ≤
          grey_mt_options.cluster_count ∧
      ((List.range grey_st_options.image_len).map
        (pixel_rgb (ST.kmeans grey_st_options grey_st_centroids).image)).toFinset.card ≤
          grey_st_options.cluster_count :=
  ⟨by decide, by decide, by decide, by decide, by decide, by decide!, by decide, by decide,
    by decide, by decide!,
    ((C6_output_pixels_are_final_centroid_colours grey_mt_options grey_mt_centroids grey_clusters0
      grey_st_options grey_st_centroids 2 2 (by decide) (by decide) (by decide) (by decide)
      (by decide) (by decide!) (by decide) (by decide) (by decide) (by decide!)).1.1 1 (by decide)).2.2.2,
    (C6_output_pixels_are_final_centroid_colours grey_mt_options grey_mt_centroids grey_clusters0
      grey_st_options grey_st_centroids 2 2 (by decide) (by decide) (by decide) (by decide)
      (by decide) (by decide!) (by decide) (by decide) (by decide) (by decide!)).1.2,
    (C6_output_pixels_are_final_centroid_colours grey_mt_options grey_mt_centroids grey_clusters0
      grey_st_options grey_st_centroids 2 2 (by decide) (by decide) (by decide) (by decide)
      (by decide) (by decide!) (by decide) (by decide) (by decide) (by decide!)).2.2⟩

/-- C7, as stated, fails: in the grey run `kmeans` returns after two passes,
pixel 1 is assigned to centroid 0 whose red channel is 2/3, a value in [0,255]
whose nearest integer is 1, and the red byte of the pixel is 0, in both
variants. -/
theorem C7_counterexample :
    ((MT.kmeans grey_mt_options grey_mt_centroids grey_clusters0).outcome = Outcome.returned 2 ∧
      (MT.kmeans grey_mt_options grey_mt_centroids grey_clusters0).clusters.getD 1 0 = 0 ∧
      (MT.centroid_at (MT.kmeans grey_mt_options grey_mt_centroids grey_clusters0).centroids 0).r =
        2 / 3 ∧
      byte_at (MT.kmeans grey_mt_options grey_mt_centroids grey_clusters0).image (4 * 1) = 0 ∧
      (byte_at (MT.kmeans grey_mt_options grey_mt_centroids grey_clusters0).image (4 * 1) : Int) ≠
        round (MT.centroid_at
          (MT.kmeans grey_mt_options grey_mt_centroids grey_clusters0).centroids 0).r) ∧
    ((ST.kmeans grey_st_options grey_st_centroids).outcome = Outcome.returned 2 ∧
      4 * 1 ∈ (ST.kmeans grey_st_options grey_st_centroids).clusters.getD 0 [] ∧
      (ST.centroid_at (ST.kmeans grey_st_options grey_st_centroids).centroids 0).c0 = 2 / 3 ∧
      byte_at (ST.kmeans grey_st_options grey_st_centroids).image (4 * 1) = 0 ∧
      (byte_at (ST.kmeans grey_st_options grey_st_centroids).image (4 * 1) : Int) ≠
        round (ST.centroid_at (ST.kmeans grey_st_options grey_st_centroids).centroids 0).c0) := by
  decide!

/-- C7 (amended): after `kmeans` returns successfully, each of a pixel's R, G
and B bytes equals the corresponding channel of its assigned centroid truncated
toward zero (its integer part, not the nearest integer), for every centroid
channel value in [0,255]. -/
theorem C7_output_bytes_are_truncated_channels
    (options : MT.QuantizeOptions) (centroids0 : List MT.Centroid) (clusters0 : List Int)
    (st_options : ST.QuantizeOptions) (st_centroids0 : List ST.Centroid) (r st_r : Nat)
    (hr : options.in_range) (hK : 1 ≤ options.cluster_count) (hT : 1 ≤ options.thread_count)
    (hcs : centroids0.length = options.cluster_count)
    (hcl : clusters0.length = options.image_len)
    (hret : (MT.kmeans options centroids0 clusters0).outcome = Outcome.returned r)
    (hr_st : st_options.in_range) (hK_st : 1 ≤ st_options.cluster_count)
    (hcs_st : st_centroids0.length = st_options.cluster_count)
    (hret_st : (ST.kmeans st_options st_centroids0).outcome = Outcome.returned st_r) :
    (∀ i, i < options.image_len →
      ((0 ≤ (MT.centroid_at_int (MT.kmeans options centroids0 clusters0).centroids
            ((MT.kmeans options centroids0 clusters0).clusters.getD i 0)).r ∧
          (MT.centroid_at_int (MT.kmeans options centroids0 clusters0).centroids
            ((MT.kmeans options centroids0 clusters0).clusters.getD i 0)).r ≤ 255) →
        (byte_at (MT.kmeans options centroids0 clusters0).image (4 * i) : Int) =
          ⌊(MT.centroid_at_int (MT.kmeans options centroids0 clusters0).centroids
            ((MT.kmeans options centroids0 clusters0).clusters.getD i 0)).r⌋) ∧
      ((0 ≤ (MT.centroid_at_int (MT.kmeans options centroids0 clusters0).centroids
            ((MT.kmeans options centroids0 clusters0).clusters.getD i 0)).g ∧
          (MT.centroid_at_int (MT.kmeans options centroids0 clusters0).centroids
            ((MT.kmeans options centroids0 clusters0).clusters.getD i 0)).g ≤ 255) →
        (byte_at (MT.kmeans options centroids0 clusters0).image (4 * i + 1) : Int) =
          ⌊(MT.centroid_at_int (MT.kmeans options centroids0 clusters0).centroids
            ((MT.kmeans options centroids0 clusters0).clusters.getD i 0)).g⌋) ∧
      ((0 ≤ (MT.centroid_at_int (MT.kmeans options centroids0 clusters0).centroids
            ((MT.kmeans options centroids0 clusters0).clusters.getD i 0)).b ∧
          (MT.centroid_at_int (MT.kmeans options centroids0 clusters0).centroids
            ((MT.kmeans options centroids0 clusters0).clusters.getD i 0)).b ≤ 255) →
        (byte_at (MT.kmeans options centroids0 clusters0).image (4 * i + 2) : Int) =
          ⌊(MT.centroid_at_int (MT.kmeans options centroids0 clusters0).centroids
            ((MT.kmeans options centroids0 clusters0).clusters.getD i 0)).b⌋)) ∧
    (∀ i j, i < st_options.image_len → j < st_options.cluster_count →
      4 * i ∈ (ST.kmeans st_options st_centroids0).clusters.getD j [] →
      ((0 ≤ (ST.centroid_at (ST.kmeans st_options st_centroids0).centroids j).c0 ∧
          (ST.centroid_at (ST.kmeans st_options st_centroids0).centroids j).c0 ≤ 255) →
        (byte_at (ST.kmeans st_options st_centroids0).image (4 * i) : Int) =
          ⌊(ST.centroid_at (ST.kmeans st_options st_centroids0).centroids j).c0⌋) ∧
      ((0 ≤ (ST.centroid_at (ST.kmeans st_options st_centroids0).centroids j).c1 ∧
          (ST.centroid_at (ST.kmeans st_options st_centroids0).centroids j).c1 ≤ 255) →
        (byte_at (ST.kmeans st_options st_centroids0).image (4 * i + 1) : Int) =
          ⌊(ST.centroid_at (ST.kmeans st_options st_centroids0).centroids j).c1⌋) ∧
      ((0 ≤ (ST.centroid_at (ST.kmeans st_options st_centroids0).centroids j).c2 ∧
          (ST.centroid_at (ST.kmeans st_options st_centroids0).centroids j).c2 ≤ 255) →
        (byte_at (ST.kmeans st_options st_centroids0).image (4 * i + 2) : Int) =
          ⌊(ST.centroid_at (ST.kmeans st_options st_centroids0).centroids j).c2⌋)) := by
  constructor
  · intro i hi
    obtain ⟨himg, _, _, _⟩ := MT.kmeans_returned options centroids0 clusters0 r hr hT hcl hret
    have hp := MT.write_back_pixel options (MT.kmeans options centroids0 clusters0).centroids
      (MT.kmeans options centroids0 clusters0).clusters hr i hi
    rw [← himg] at hp
    unfold pixel_rgb MT.byte_colour at hp
    obtain ⟨e1, e23⟩ := Prod.mk.inj hp
    obtain ⟨e2, e3⟩ := Prod.mk.inj e23
    refine ⟨fun h => ?_, fun h => ?_, fun h => ?_⟩
    · rw [e1]; exact to_uchar_floor _ h.1 h.2
    · rw [e2]; exact to_uchar_floor _ h.1 h.2
    · rw [e3]; exact to_uchar_floor _ h.1 h.2
  · intro i j hi hj hmem
    obtain ⟨himg, hcls, _, _⟩ := ST.st_kmeans_returned st_options st_centroids0 st_r hret_st
    have hp := ST.st_write_back_pixel st_options (ST.kmeans st_options st_centroids0).centroids
      (ST.state_after st_options st_centroids0 (st_r - 1)).1 hr_st hK_st i hi
    rw [← hcls, ← himg] at hp
    have hidx : ST.kmeans_min_idx st_options
        (ST.state_after st_options st_centroids0 (st_r - 1)).1 i = (j : Int) := by
      rw [hcls, getD_map_range _ _ _ _ hj] at hmem
      obtain ⟨i', hi', he⟩ := List.mem_map.mp hmem
      unfold ST.members at hi'
      obtain ⟨hi1, hi2⟩ := List.mem_filter.mp hi'
      rw [point_off_of_le i' _ (List.mem_range.mp hi1) hr_st.2.1] at he
      have : i' = i := by omega
      subst this
      simpa using hi2
    rw [hidx, Int.toNat_ofNat] at hp
    unfold pixel_rgb ST.byte_colour at hp
    obtain ⟨e1, e23⟩ := Prod.mk.inj hp
    obtain ⟨e2, e3⟩ := Prod.mk.inj e23
    refine ⟨fun h => ?_, fun h => ?_, fun h => ?_⟩
    · rw [e1]; exact to_uchar_floor _ h.1 h.2
    · rw [e2]; exact to_uchar_floor _ h.1 h.2
    · rw [e3]; exact to_uchar_floor _ h.1 h.2

/-- C7 (amended) at the grey run: the hypotheses hold, the red channel 2/3 of
the centroid of pixel 1 lies in [0,255], and the red byte of pixel 1 is its
integer part. -/
theorem C7_witness :
    grey_mt_options.in_range ∧ 1 ≤ grey_mt_options.cluster_count ∧
      1 ≤ grey_mt_options.thread_count ∧
      grey_mt_centroids.length = grey_mt_options.cluster_count ∧
      grey_clusters0.length = grey_mt_options.image_len ∧
      (MT.kmeans grey_mt_options grey_mt_centroids grey_clusters0).outcome = Outcome.returned 2 ∧
      grey_st_options.in_range ∧ 1 ≤ grey_st_options.cluster_count ∧
      grey_st_centroids.length = grey_st_options.cluster_count ∧
      (ST.kmeans grey_st_options grey_st_centroids).outcome = Outcome.returned 2 ∧
      (byte_at (MT.kmeans grey_mt_options grey_mt_centroids grey_clusters0).image (4 * 1) : Int) =
        ⌊(MT.centroid_at_int (MT.kmeans grey_mt_options grey_mt_centroids grey_clusters0).centroids
          ((MT.kmeans grey_mt_options grey_mt_centroids grey_clusters0).clusters.getD 1 0)).r⌋ ∧
      (byte_at (ST.kmeans grey_st_options grey_st_centroids).image (4 * 1) : Int) =
        ⌊(ST.centroid_at (ST.kmeans grey_st_options grey_st_centroids).centroids 0).c0⌋ :=
  ⟨by decide, by decide, by decide, by decide, by decide, by decide!, by decide, by decide,
    by decide, by decide!,
    ((C7_output_bytes_are_truncated_channels grey_mt_options grey_mt_centroids grey_clusters0
      grey_st_options grey_st_centroids 2 2 (by decide) (by decide) (by decide) (by decide)
      (by decide) (by decide!) (by decide) (by decide) (by decide) (by decide!)).1 1 (by decide)).1 (by decide!),
    ((C7_output_bytes_are_truncated_channels grey_mt_options grey_mt_centroids grey_clusters0
      grey_st_options grey_st_centroids 2 2 (by decide) (by decide) (by decide) (by decide)
      (by decide) (by decide!) (by decide) (by decide) (by decide) (by decide!)).2 1 0 (by decide) (by decide)
      (by decide!)).1 (by decide!)⟩

/-- C8: for an RGBA pixel buffer of N pixels, `kmeans` leaves the buffer length
4N unchanged and leaves the fourth (alpha) byte of every pixel, at byte offset
4i+3, unchanged; only bytes at offsets 4i, 4i+1, 4i+2 of the pixels i < N may
differ between input and output, whether `kmeans` returns or throws. -/
theorem C8_alpha_and_length_unchanged
    (options : MT.QuantizeOptions) (centroids0 : List MT.Centroid) (clusters0 : List Int)
    (st_options : ST.QuantizeOptions) (st_centroids0 : List ST.Centroid)
    (hlen : options.image.length = 4 * options.image_len)
    (hlen_st : st_options.image.length = 4 * st_options.image_len) :
    ((MT.kmeans options centroids0 clusters0).image.length = 4 * options.image_len ∧
      (∀ i, (MT.kmeans options centroids0 clusters0).image[4 * i + 3]? =
        options.image[4 * i + 3]?) ∧
      ∀ q, (MT.kmeans options centroids0 clusters0).image[q]? ≠ options.image[q]? →
        ∃ i c, i < options.image_len ∧ c < 3 ∧ q = 4 * i + c) ∧
    ((ST.kmeans st_options st_centroids0).image.length = 4 * st_options.image_len ∧
      (∀ i, (ST.kmeans st_options st_centroids0).image[4 * i + 3]? =
        st_options.image[4 * i + 3]?) ∧
      ∀ q, (ST.kmeans st_options st_centroids0).image[q]? ≠ st_options.image[q]? →
        ∃ i c, i < st_options.image_len ∧ c < 3 ∧ q = 4 * i + c) := by
  constructor
  · obtain ⟨m, _, _, _, _, hout⟩ := MT.kmeans_spec options centroids0 clusters0
    rcases hout with ⟨_, _, _, d⟩ | ⟨_, _, _, d⟩
    · rw [d, MT.write_back_eq]
      obtain ⟨h1, h2, h3⟩ := store_all_only_rgb _ options.image options.image_len
        (MT.writes_mul options (MT.kmeans options centroids0 clusters0).centroids
          (MT.kmeans options centroids0 clusters0).clusters)
      exact ⟨by rw [h1, hlen], h2, h3⟩
    · rw [d]
      exact ⟨hlen, fun _ => rfl, fun q hq => absurd rfl hq⟩
  · obtain ⟨m, _, _, _, _, hout⟩ := ST.st_kmeans_spec st_options st_centroids0
    rcases hout with ⟨a, _, _, _⟩ | ⟨_, _, _, d⟩
    · obtain ⟨himg, hcls, _, _⟩ := ST.st_kmeans_returned st_options st_centroids0 m a
      rw [himg, hcls, ST.st_write_back_eq]
      obtain ⟨h1, h2, h3⟩ := store_all_only_rgb _ st_options.image st_options.image_len
        (ST.st_writes_mul st_options (ST.kmeans st_options st_centroids0).centroids
          (ST.state_after st_options st_centroids0 (m - 1)).1)
      exact ⟨by rw [h1, hlen_st], h2, h3⟩
    · rw [d]
      exact ⟨hlen_st, fun _ => rfl, fun q hq => absurd rfl hq⟩

/-- C8 at the grey run: the buffers hold five RGBA pixels, and the alpha byte
of pixel 1 is unchanged in both variants. -/
theorem C8_witness :
    grey_mt_options.image.length = 4 * grey_mt_options.image_len ∧
      grey_st_options.image.length = 4 * grey_st_options.image_len ∧
      (MT.kmeans grey_mt_options grey_mt_centroids grey_clusters0).image[4 * 1 + 3]? =
        grey_mt_options.image[4 * 1 + 3]? ∧
      (ST.kmeans grey_st_options grey_st_centroids).image[4 * 1 + 3]? =
        grey_st_options.image[4 * 1 + 3]? :=
  ⟨by decide, by decide,
    (C8_alpha_and_length_unchanged grey_mt_options grey_mt_centroids grey_clusters0
      grey_st_options grey_st_centroids (by decide) (by decide)).1.2.1 1,
    (C8_alpha_and_length_unchanged grey_mt_options grey_mt_centroids grey_clusters0
      grey_st_options grey_st_centroids (by decide) (by decide)).2.2.1 1⟩

/-- C9, as stated, fails: with the three pixels of the example all assigned to
centroid 0, centroid 1 has no assigned pixel and its colour (9, 9, 9) is not
kept by `update_centroids`, in either variant. -/
theorem C9_counterexample :
    (∀ a ∈ [(0 : Int), 0, 0], 0 ≤ a ∧ a < (example_mt_options.cluster_count : Int)) ∧
      MT.members example_mt_options [0, 0, 0] 1 = [] ∧
      (MT.centroid_at example_mt_centroids 1).r = 9 ∧
      (MT.centroid_at
        (MT.update_centroids example_mt_centroids [0, 0, 0] example_mt_options).1 1).r = 0 ∧
      (MT.centroid_at
        (MT.update_centroids example_mt_centroids [0, 0, 0] example_mt_options).1 1).r ≠
        (MT.centroid_at example_mt_centroids 1).r ∧
      ([[0, 4, 8], []] : List (List Nat)).getD 1 [] = [] ∧
      (ST.centroid_at example_st_centroids 1).c0 = 9 ∧
      (ST.centroid_at
        (ST.update_centroids example_st_centroids [[0, 4, 8], []] example_st_options).1 1).c0 =
        0 ∧
      (ST.centroid_at
        (ST.update_centroids example_st_centroids [[0, 4, 8], []] example_st_options).1 1).c0 ≠
        (ST.centroid_at example_st_centroids 1).c0 := by
  decide!

/-- C9 (amended): for a pixel buffer and a valid assignment in which the
centroid `j` has zero assigned pixels, `update_centroids` sets the colour
(r, g, b) of that centroid to (0, 0, 0), with count 0 and, in the
multi-threaded variant, `prev_r`, `prev_g`, `prev_b` holding the colour it had
before the update; no division is performed for it (the centroid is as the
summation loop left it); and every other centroid is updated exactly as it
would otherwise: it is given by the same closed form and does not depend on
the colour the empty centroid had. -/
theorem C9_empty_centroid_becomes_zero
    (options : MT.QuantizeOptions) (centroids : List MT.Centroid) (clusters : List Int)
    (st_options : ST.QuantizeOptions) (st_centroids : List ST.Centroid)
    (st_clusters : List (List Nat)) (j st_j : Nat)
    (hr : options.in_range) (hlen : centroids.length = options.cluster_count)
    (hcl : clusters.length = options.image_len)
    (hvalid : ∀ a ∈ clusters, 0 ≤ a ∧ a < (options.cluster_count : Int))
    (hj : j < options.cluster_count) (hempty : MT.members options clusters j = [])
    (hr_st : st_options.in_range)
    (hlen_st : st_centroids.length = st_options.cluster_count)
    (hcl_st : st_clusters.length = st_options.cluster_count)
    (hvalid_st : ∀ v ∈ st_clusters, ∀ point ∈ v,
      ∃ i, i < st_options.image_len ∧ point = 4 * i)
    (hj_st : st_j < st_options.cluster_count) (hempty_st : st_clusters.getD st_j [] = []) :
    (MT.centroid_at (MT.update_centroids centroids clusters options).1 j =
        { count := 0, r := 0, g := 0, b := 0, prev_r := (MT.centroid_at centroids j).r,
          prev_g := (MT.centroid_at centroids j).g, prev_b := (MT.centroid_at centroids j).b } ∧
      MT.centroid_at (MT.update_centroids centroids clusters options).1 j =
        MT.centroid_at (MT.accumulated centroids clusters options) j ∧
      ∀ i, i < options.cluster_count → i ≠ j →
        MT.centroid_at (MT.update_centroids centroids clusters options).1 i =
            MT.updated options clusters (MT.centroid_at centroids i) i ∧
          ∀ x, MT.centroid_at (MT.update_centroids (centroids.set j x) clusters options).1 i =
            MT.centroid_at (MT.update_centroids centroids clusters options).1 i) ∧
    (ST.centroid_at (ST.update_centroids st_centroids st_clusters st_options).1 st_j =
        { c0 := 0, c1 := 0, c2 := 0 } ∧
      (∀ channel, ST.new_channel st_options.image (st_clusters.getD st_j []) channel =
        ST.channel_sum st_options.image (st_clusters.getD st_j []) channel) ∧
      ∀ i, i < st_options.cluster_count → i ≠ st_j →
        ST.centroid_at (ST.update_centroids st_centroids st_clusters st_options).1 i =
            ST.updated st_options st_clusters i ∧
          ∀ x, ST.centroid_at
              (ST.update_centroids (st_centroids.set st_j x) st_clusters st_options).1 i =
            ST.centroid_at (ST.update_centroids st_centroids st_clusters st_options).1 i) := by
  have hN := hr.2.1
  refine ⟨⟨?_, ?_, ?_⟩, ⟨?_, ?_, ?_⟩⟩
  · rw [MT.centroid_at_update centroids clusters options hlen hN j hj,
      MT.updated_empty options clusters _ j hempty]
  · rw [MT.centroid_at_update centroids clusters options hlen hN j hj,
      MT.updated_empty options clusters _ j hempty,
      MT.centroid_at_accumulated centroids clusters options hlen hN j hj, hempty]
    simp [channel_total]
  · intro i hi hij
    refine ⟨MT.centroid_at_update centroids clusters options hlen hN i hi, fun x => ?_⟩
    rw [MT.centroid_at_update centroids clusters options hlen hN i hi,
      MT.centroid_at_update (centroids.set j x) clusters options (by simpa using hlen) hN i hi,
      MT.centroid_at_set_ne _ _ _ _ (fun h => hij h.symm)]
  · rw [ST.st_centroid_at_update st_centroids st_clusters st_options hlen_st st_j hj_st]
    unfold ST.updated
    rw [hempty_st, (ST.new_channel_empty _ 0).1, (ST.new_channel_empty _ 1).1,
      (ST.new_channel_empty _ 2).1]
  · intro channel
    rw [hempty_st]
    exact (ST.new_channel_empty _ channel).2
  · intro i hi hij
    refine ⟨ST.st_centroid_at_update st_centroids st_clusters st_options hlen_st i hi, fun x => ?_⟩
    rw [ST.st_centroid_at_update st_centroids st_clusters st_options hlen_st i hi,
      ST.st_centroid_at_update (st_centroids.set st_j x) st_clusters st_options
        (by simpa using hlen_st) i hi]

/-- C9 (amended) at the example with all pixels assigned to centroid 0: the
hypotheses hold and centroid 1, which has no pixel, becomes (0, 0, 0). -/
theorem C9_witness :
    example_mt_options.in_range ∧
      example_mt_centroids.length = example_mt_options.cluster_count ∧
      ([0, 0, 0] : List Int).length = example_mt_options.image_len ∧
      (∀ a ∈ ([0, 0, 0] : List Int), 0 ≤ a ∧ a < (example_mt_options.cluster_count : Int)) ∧
      1 < example_mt_options.cluster_count ∧
      MT.members example_mt_options [0, 0, 0] 1 = [] ∧
      example_st_options.in_range ∧
      example_st_centroids.length = example_st_options.cluster_count ∧
      ([[0, 4, 8], []] : List (List Nat)).length = example_st_options.cluster_count ∧
      (∀ v ∈ ([[0, 4, 8], []] : List (List Nat)), ∀ point ∈ v,
        ∃ i, i < example_st_options.image_len ∧ point = 4 * i) ∧
      1 < example_st_options.cluster_count ∧
      ([[0, 4, 8], []] : List (List Nat)).getD 1 [] = [] ∧
      MT.centroid_at (MT.update_centroids example_mt_centroids [0, 0, 0] example_mt_options).1 1 =
        { count := 0, r := 0, g := 0, b := 0, prev_r := (MT.centroid_at example_mt_centroids 1).r,
          prev_g := (MT.centroid_at example_mt_centroids 1).g,
          prev_b := (MT.centroid_at example_mt_centroids 1).b } ∧
      ST.centroid_at
        (ST.update_centroids example_st_centroids [[0, 4, 8], []] example_st_options).1 1 =
        { c0 := 0, c1 := 0, c2 := 0 } :=
  ⟨by decide, by decide, by decide, by decide, by decide, by decide, by decide, by decide,
    by decide, by decide, by decide, by decide,
    (C9_empty_centroid_becomes_zero example_mt_options example_mt_centroids [0, 0, 0]
      example_st_options example_st_centroids [[0, 4, 8], []] 1 1 (by decide) (by decide)
      (by decide) (by decide) (by decide) (by decide) (by decide) (by decide) (by decide)
      (by decide) (by decide) (by decide)).1.1,
    (C9_empty_centroid_becomes_zero example_mt_options example_mt_centroids [0, 0, 0]
      example_st_options example_st_centroids [[0, 4, 8], []] 1 1 (by decide) (by decide)
      (by decide) (by decide) (by decide) (by decide) (by decide) (by decide) (by decide)
      (by decide) (by decide) (by decide)).2.1⟩

/-- C10: for a pixel buffer of N pixels and an assignment whose entries are all
in [0,K), after `update_centroids` the member counts of the K centroids add up
to exactly N.  In the single-threaded variant, where the member count of a
centroid is the size of its cluster vector, the sizes of the K vectors add up
to N after the assignment loop. -/
theorem C10_member_counts_sum_to_pixel_count
    (options : MT.QuantizeOptions) (centroids : List MT.Centroid) (clusters : List Int)
    (st_options : ST.QuantizeOptions) (st_centroids : List ST.Centroid)
    (st_clusters : List (List Nat))
    (hr : options.in_range) (hlen : centroids.length = options.cluster_count)
    (hcl : clusters.length = options.image_len)
    (hvalid : ∀ a ∈ clusters, 0 ≤ a ∧ a < (options.cluster_count : Int))
    (hr_st : st_options.in_range) (hK_st : 1 ≤ st_options.cluster_count)
    (hcs_st : st_centroids.length = st_options.cluster_count)
    (hcl_st : st_clusters.length = st_options.cluster_count) :
    (((MT.update_centroids centroids clusters options).1.map (fun c => c.count)).sum =
        options.image_len) ∧
      (((ST.assign_points st_options st_centroids
          (ST.init_clusters st_clusters st_options)).map List.length).sum =
        st_options.image_len) := by
  constructor
  · rw [MT.update_centroids_eq_map centroids clusters options hlen hr.2.1, List.map_map]
    have hf : ((fun c : MT.Centroid => c.count) ∘
        fun j => MT.updated options clusters (MT.centroid_at centroids j) j) =
        fun j => (MT.members options clusters j).length := by
      funext j
      exact (MT.updated_fields options clusters (MT.centroid_at centroids j) j).1
    rw [hf]
    exact MT.sum_members options clusters hcl hvalid
  · rw [ST.assigned_eq st_options st_centroids st_clusters hcl_st, List.map_map]
    have hf : (List.length ∘ fun j => (ST.members st_options st_centroids j).map point_off) =
        fun j => (ST.members st_options st_centroids j).length := by
      funext j
      simp
    rw [hf]
    exact ST.st_sum_members st_options st_centroids hr_st hK_st

/-- C10 at the example assignment: the hypotheses hold and the member counts
add up to the three pixels. -/
theorem C10_witness :
    example_mt_options.in_range ∧
      example_mt_centroids.length = example_mt_options.cluster_count ∧
      example_clusters.length = example_mt_options.image_len ∧
      (∀ a ∈ example_clusters, 0 ≤ a ∧ a < (example_mt_options.cluster_count : Int)) ∧
      example_st_options.in_range ∧ 1 ≤ example_st_options.cluster_count ∧
      example_st_centroids.length = example_st_options.cluster_count ∧
      example_st_clusters.length = example_st_options.cluster_count ∧
      ((MT.update_centroids example_mt_centroids example_clusters example_mt_options).1.map
        (fun c => c.count)).sum = example_mt_options.image_len ∧
      ((ST.assign_points example_st_options example_st_centroids
        (ST.init_clusters example_st_clusters example_st_options)).map List.length).sum =
        example_st_options.image_len :=
  ⟨by decide, by decide, by decide, by decide, by decide, by decide, by decide, by decide,
    (C10_member_counts_sum_to_pixel_count example_mt_options example_mt_centroids example_clusters
      example_st_options example_st_centroids example_st_clusters (by decide) (by decide)
      (by decide) (by decide) (by decide) (by decide) (by decide) (by decide)).1,
    (C10_member_counts_sum_to_pixel_count example_mt_options example_mt_centroids example_clusters
      example_st_options example_st_centroids example_st_clusters (by decide) (by decide)
      (by decide) (by decide) (by decide) (by decide) (by decide) (by decide)).2⟩

/-- C11: for thread_count ≥ 1 the worker ranges computed in `chunk` (worker t
handles the indices from t*p up to (t+1)*p, cut off at N, with
p = N / thread_count + 1) are pairwise disjoint and their union is exactly
[0,N); each range lists an index once, so one assignment phase writes each
pixel's assignment exactly once, with the value of the per-pixel loop; and for
fixed initial centroids the whole result of `kmeans` (assignments, centroids,
iteration count, output image) is the same for every thread_count. -/
theorem C11_worker_ranges_partition_thread_count_irrelevant
    (options options' : MT.QuantizeOptions) (centroids0 : List MT.Centroid)
    (clusters0 : List Int)
    (hr : options.in_range) (hT : 1 ≤ options.thread_count)
    (hr' : options'.in_range) (hT' : 1 ≤ options'.thread_count)
    (himage : options'.image = options.image)
    (himage_len : options'.image_len = options.image_len)
    (hcluster_count : options'.cluster_count = options.cluster_count)
    (hlimit : options'.iteration_limit = options.iteration_limit)
    (hcl : clusters0.length = options.image_len) :
    (∀ t, t < options.thread_count →
      MT.chunk_points t options =
        List.range' (t * (options.image_len / options.thread_count + 1))
          (min (options.image_len / options.thread_count + 1)
            (options.image_len - t * (options.image_len / options.thread_count + 1)))) ∧
    (∀ t t', t < options.thread_count → t' < options.thread_count → t ≠ t' →
      ∀ i, i ∈ MT.chunk_points t options → i ∉ MT.chunk_points t' options) ∧
    (∀ i, (∃ t, t < options.thread_count ∧ i ∈ MT.chunk_points t options) ↔
      i < options.image_len) ∧
    (∀ t, t < options.thread_count → (MT.chunk_points t options).Nodup) ∧
    (∀ centroids, MT.assignment_phase options centroids clusters0 =
      (List.range options.image_len).map (MT.chunk_min_idx options centroids)) ∧
    MT.kmeans options' centroids0 clusters0 = MT.kmeans options centroids0 clusters0 := by
  refine ⟨fun t ht => MT.chunk_points_eq options hr hT t ht,
    fun t t' ht ht' hne i hi => MT.chunk_points_disjoint options hr hT t t' ht ht' hne i hi,
    fun i => MT.chunk_points_union options hr hT i,
    fun t _ => MT.chunk_points_nodup options t,
    fun centroids => MT.assignment_phase_eq options centroids clusters0 hr hT hcl,
    MT.kmeans_congr options options' centroids0 clusters0
      ⟨himage, himage_len, hcluster_count⟩ hlimit hr hr' hT hT' hcl⟩

/-- C11 at the grey run: with one worker thread instead of two the result of
`kmeans` is the same, and the ranges of the two workers are [0,3) and [3,5). -/
theorem C11_witness :
    grey_mt_options.in_range ∧ 1 ≤ grey_mt_options.thread_count ∧
      grey_mt_options_single.in_range ∧ 1 ≤ grey_mt_options_single.thread_count ∧
      grey_mt_options_single.image = grey_mt_options.image ∧
      grey_mt_options_single.image_len = grey_mt_options.image_len ∧
      grey_mt_options_single.cluster_count = grey_mt_options.cluster_count ∧
      grey_mt_options_single.iteration_limit = grey_mt_options.iteration_limit ∧
      grey_clusters0.length = grey_mt_options.image_len ∧
      MT.chunk_points 0 grey_mt_options = [0, 1, 2] ∧
      MT.chunk_points 1 grey_mt_options = [3, 4] ∧
      MT.kmeans grey_mt_options_single grey_mt_centroids grey_clusters0 =
        MT.kmeans grey_mt_options grey_mt_centroids grey_clusters0 :=
  ⟨by decide, by decide, by decide, by decide, by decide, by decide, by decide, by decide,
    by decide, by decide, by decide,
    (C11_worker_ranges_partition_thread_count_irrelevant grey_mt_options grey_mt_options_single
      grey_mt_centroids grey_clusters0 (by decide) (by decide) (by decide) (by decide)
      (by decide) (by decide) (by decide) (by decide) (by decide)).2.2.2.2.2⟩

/-- C12, counterexample: for the three pixels (0,0,0), (1,1,1), (1,1,1) with
K = 1, `init_centroids` draws the colour (1,1,1) of pixel 1 when `std::rand()`
returns 16384 with RAND_MAX = 32767; the first update moves the centroid to the
mean of the pixels (2/3 over exact arithmetic, 11184811/16777216 in binary32)
and reports a change, so `kmeans` returns 2 with an iteration limit of 10 and
fails to converge with an iteration limit of 1, in binary32 as over exact
arithmetic. -/
theorem C12_counterexample :
    single_mt_options.cluster_count = 1 ∧ 1 ≤ single_mt_options.image_len ∧
      1 ≤ single_mt_options.iteration_limit ∧ 1 ≤ single_mt_options_limit1.iteration_limit ∧
      MT.init_centroids single_mt_options 32767 (fun _ => 16384) = [⟨0, 1, 1, 1, 0, 0, 0⟩] ∧
      pixel_rgb single_mt_options.image 1 = (1, 1, 1) ∧
      (MT.kmeans_with_init single_mt_options 32767 (fun _ => 16384) [0, 0, 0]).outcome =
        Outcome.returned 2 ∧
      (MT.kmeans_with_init single_mt_options 32767 (fun _ => 16384) [0, 0, 0]).outcome ≠
        Outcome.returned 1 ∧
      (MT.kmeans_with_init single_mt_options 32767 (fun _ => 16384) [0, 0, 0]).trace =
        [true, false] ∧
      (MT.kmeans_with_init single_mt_options_limit1 32767 (fun _ => 16384) [0, 0, 0]).outcome =
        Outcome.did_not_converge ∧
      (MTF.kmeans single_mt_options (MT.init_centroids single_mt_options 32767 (fun _ => 16384))
        [0, 0, 0]).outcome = Outcome.returned 2 ∧
      (MTF.kmeans single_mt_options (MT.init_centroids single_mt_options 32767 (fun _ => 16384))
        [0, 0, 0]).trace = [true, false] ∧
      (MTF.kmeans single_mt_options (MT.init_centroids single_mt_options 32767 (fun _ => 16384))
        [0, 0, 0]).centroids =
        [⟨3, 11184811 / 16777216, 11184811 / 16777216, 11184811 / 16777216,
          11184811 / 16777216, 11184811 / 16777216, 11184811 / 16777216⟩] ∧
      (MTF.kmeans single_mt_options_limit1
        (MT.init_centroids single_mt_options_limit1 32767 (fun _ => 16384))
        [0, 0, 0]).outcome = Outcome.did_not_converge := by
  decide!

/-- C12 (amended): for a pixel buffer of N ≥ 1 pixels with K = 1, `kmeans`
performs at most two iterations, for every initial centroid: it returns 1 when
the first update reports no change (for no channel
`abs((mean - initial) / initial) > 0.01f` in binary32, `mean` being the value
that `update_centroids` computes); otherwise it returns 2 when
iteration_limit ≥ 2 and ends with "Did not converge" when iteration_limit = 1.
Whenever it returns, every channel of the single centroid is the mean of all
pixels as `update_centroids` computes it in binary32 (the channel sum
accumulated in binary32, divided by N), which for N ≤ 65793 is the exact
channel-wise mean rounded to the nearest binary32 number. -/
theorem C12_single_cluster_converges_within_two_iterations
    (options : MT.QuantizeOptions) (centroids0 : List MT.Centroid) (clusters0 : List Int)
    (hr : options.in_range) (hT : 1 ≤ options.thread_count)
    (hK : options.cluster_count = 1) (hN : 1 ≤ options.image_len)
    (hlen : centroids0.length = 1) (hcl : clusters0.length = options.image_len) :
    (1 ≤ options.iteration_limit →
      MTF.first_update_changes options (MT.centroid_at centroids0 0) = false →
      (MTF.kmeans options centroids0 clusters0).outcome = Outcome.returned 1) ∧
    (2 ≤ options.iteration_limit →
      MTF.first_update_changes options (MT.centroid_at centroids0 0) = true →
      (MTF.kmeans options centroids0 clusters0).outcome = Outcome.returned 2) ∧
    (options.iteration_limit = 1 →
      MTF.first_update_changes options (MT.centroid_at centroids0 0) = true →
      (MTF.kmeans options centroids0 clusters0).outcome = Outcome.did_not_converge) ∧
    (∀ r, (MTF.kmeans options centroids0 clusters0).outcome = Outcome.returned r →
      (r = 1 ∨ r = 2) ∧
      ∃ c, (MTF.kmeans options centroids0 clusters0).centroids = [c] ∧
        (c.r = f32 (f32_total options.image (List.range options.image_len) 0 0 /
            f32 (options.image_len : ℚ)) ∧
          c.g = f32 (f32_total options.image (List.range options.image_len) 1 0 /
            f32 (options.image_len : ℚ)) ∧
          c.b = f32 (f32_total options.image (List.range options.image_len) 2 0 /
            f32 (options.image_len : ℚ))) ∧
        ((∀ b ∈ options.image, b ≤ 255) → options.image_len ≤ 65793 →
          c.r = f32 (channel_mean options.image (List.range options.image_len) 0) ∧
            c.g = f32 (channel_mean options.image (List.range options.image_len) 1) ∧
            c.b = f32 (channel_mean options.image (List.range options.image_len) 2))) := by
  have hcases := MTF.mtf_single_cases options centroids0 clusters0 hr hT hK hN hlen hcl
  refine ⟨?_, ?_, ?_, ?_⟩
  · intro hl hf
    rcases hcases with ⟨a, _⟩ | ⟨_, b, _⟩ | ⟨_, b, _⟩ | ⟨_, b⟩
    · exact a
    · rw [hf] at b; cases b
    · rw [hf] at b; cases b
    · omega
  · intro hl hf
    rcases hcases with ⟨_, b, _⟩ | ⟨a, _⟩ | ⟨_, _, b⟩ | ⟨_, b⟩
    · rw [hf] at b; cases b
    · exact a
    · omega
    · omega
  · intro hl hf
    rcases hcases with ⟨_, b, _⟩ | ⟨_, _, b, _⟩ | ⟨a, _⟩ | ⟨_, b⟩
    · rw [hf] at b; cases b
    · omega
    · exact a
    · omega
  · intro r hret
    rcases hcases with ⟨a, _, _, d⟩ | ⟨a, _, _, d⟩ | ⟨a, _⟩ | ⟨a, _⟩
    · rw [a] at hret
      injection hret with hret
      exact ⟨Or.inl hret.symm, _, d, ⟨rfl, rfl, rfl⟩,
        fun hbytes hsmall => MTF.mtf_mean_centroid_rounded options _ hbytes hsmall⟩
    · rw [a] at hret
      injection hret with hret
      exact ⟨Or.inr hret.symm, _, d, ⟨rfl, rfl, rfl⟩,
        fun hbytes hsmall => MTF.mtf_mean_centroid_rounded options _ hbytes hsmall⟩
    · rw [a] at hret; cases hret
    · rw [a] at hret; cases hret

/-- C12 (amended) at the five grey pixels 20, 20, 20, 20, 21 with the initial
centroid 20: in binary32 the mean is 5295309/262144, slightly above 20.2, the
first update reports a change and the run returns 2. -/
theorem C12_witness :
    five_grey_mt_options.in_range ∧ 1 ≤ five_grey_mt_options.thread_count ∧
      five_grey_mt_options.cluster_count = 1 ∧ 1 ≤ five_grey_mt_options.image_len ∧
      ([⟨0, 20, 20, 20, 0, 0, 0⟩] : List MT.Centroid).length = 1 ∧
      ([0, 0, 0, 0, 0] : List Int).length = five_grey_mt_options.image_len ∧
      2 ≤ five_grey_mt_options.iteration_limit ∧
      MTF.first_update_changes five_grey_mt_options
        (MT.centroid_at [⟨0, 20, 20, 20, 0, 0, 0⟩] 0) = true ∧
      (MTF.mean_centroid five_grey_mt_options ⟨0, 20, 20, 20, 0, 0, 0⟩).r = 5295309 / 262144 ∧
      (MTF.kmeans five_grey_mt_options [⟨0, 20, 20, 20, 0, 0, 0⟩] [0, 0, 0, 0, 0]).outcome =
        Outcome.returned 2 :=
  ⟨by decide, by decide, by decide, by decide, by decide, by decide, by decide, by decide!,
    by decide!,
    (C12_single_cluster_converges_within_two_iterations five_grey_mt_options
      [⟨0, 20, 20, 20, 0, 0, 0⟩] [0, 0, 0, 0, 0] (by decide) (by decide) (by decide)
      (by decide) (by decide) (by decide)).2.1 (by decide) (by decide!)⟩

/-- C13: for the four-pixel image with the colours (0,0,0), (0,0,0),
(255,255,255), (255,255,255) (whatever its fourth bytes are), K = 2, an
iteration limit of at least 3 and any thread_count ≥ 1, for each of the four
choices of the two initial centroids among the pixel colours, `kmeans`
converges (it returns 1 when the two initial colours differ and 3 when they are
the same) with the final centroids exactly (0,0,0) and (255,255,255) in some
order, the two dark pixels assigned to one centroid and the two light pixels to
the other; the single-threaded `kmeans` ends in the same way. -/
theorem C13_two_tone_image_converges_to_its_two_colours
    (options : MT.QuantizeOptions) (a0 a1 a2 a3 : Nat) (x y : ℚ) (clusters0 : List Int)
    (himage : options.image =
      [0, 0, 0, a0, 0, 0, 0, a1, 255, 255, 255, a2, 255, 255, 255, a3])
    (hN : options.image_len = 4) (hK : options.cluster_count = 2)
    (hlimit : 3 ≤ options.iteration_limit)
    (hT : 1 ≤ options.thread_count) (hT2 : options.thread_count < 4294967296)
    (hx : x = 0 ∨ x = 255) (hy : y = 0 ∨ y = 255) (hcl : clusters0.length = 4) :
    ∃ r, (x ≠ y → r = 1) ∧ (x = y → r = 3) ∧
      (MT.kmeans options (two_tone_centroids x y) clusters0).outcome = Outcome.returned r ∧
      (ST.kmeans (MT.single_threaded options)
        ((two_tone_centroids x y).map MT.colour)).outcome = Outcome.returned r ∧
      (((MT.kmeans options (two_tone_centroids x y) clusters0).centroids.map MT.colour =
            [⟨0, 0, 0⟩, ⟨255, 255, 255⟩] ∧
          (MT.kmeans options (two_tone_centroids x y) clusters0).clusters = [0, 0, 1, 1] ∧
          (ST.kmeans (MT.single_threaded options)
            ((two_tone_centroids x y).map MT.colour)).centroids =
            [⟨0, 0, 0⟩, ⟨255, 255, 255⟩] ∧
          (ST.kmeans (MT.single_threaded options)
            ((two_tone_centroids x y).map MT.colour)).clusters = [[0, 4], [8, 12]]) ∨
        ((MT.kmeans options (two_tone_centroids x y) clusters0).centroids.map MT.colour =
            [⟨255, 255, 255⟩, ⟨0, 0, 0⟩] ∧
          (MT.kmeans options (two_tone_centroids x y) clusters0).clusters = [1, 1, 0, 0] ∧
          (ST.kmeans (MT.single_threaded options)
            ((two_tone_centroids x y).map MT.colour)).centroids =
            [⟨255, 255, 255⟩, ⟨0, 0, 0⟩] ∧
          (ST.kmeans (MT.single_threaded options)
            ((two_tone_centroids x y).map MT.colour)).clusters = [[8, 12], [0, 4]])) := by
  obtain ⟨hv1, hv2⟩ := MT.two_tone_vectors options hN hK
  rcases hx with hx | hx <;> rcases hy with hy | hy <;> subst hx <;> subst hy
  · obtain ⟨h1, h2, h3, h4, h5, h6⟩ := MT.two_tone_transfer options a0 a1 a2 a3 0 0 clusters0
      himage hN hK hlimit hT hT2 hcl 2 (by omega)
      [⟨2, 255, 255, 255, 255, 255, 255⟩, ⟨2, 0, 0, 0, 0, 0, 0⟩] [1, 1, 0, 0]
      (by intro k hk; interval_cases k <;> decide!) (by decide!) (by decide!)
    refine ⟨3, fun h => absurd rfl h, fun _ => rfl, h1, h4, Or.inr ⟨?_, h3, ?_, ?_⟩⟩
    · rw [h2]; rfl
    · rw [h5]; rfl
    · rw [h6, hv2]
  · obtain ⟨h1, h2, h3, h4, h5, h6⟩ := MT.two_tone_transfer options a0 a1 a2 a3 0 255 clusters0
      himage hN hK hlimit hT hT2 hcl 0 (by omega)
      [⟨2, 0, 0, 0, 0, 0, 0⟩, ⟨2, 255, 255, 255, 255, 255, 255⟩] [0, 0, 1, 1]
      (by intro k hk; omega) (by decide!) (by decide!)
    refine ⟨1, fun _ => rfl, fun h => ?_, h1, h4, Or.inl ⟨?_, h3, ?_, ?_⟩⟩
    · norm_num at h
    · rw [h2]; rfl
    · rw [h5]; rfl
    · rw [h6, hv1]
  · obtain ⟨h1, h2, h3, h4, h5, h6⟩ := MT.two_tone_transfer options a0 a1 a2 a3 255 0 clusters0
      himage hN hK hlimit hT hT2 hcl 0 (by omega)
      [⟨2, 255, 255, 255, 255, 255, 255⟩, ⟨2, 0, 0, 0, 0, 0, 0⟩] [1, 1, 0, 0]
      (by intro k hk; omega) (by decide!) (by decide!)
    refine ⟨1, fun _ => rfl, fun h => ?_, h1, h4, Or.inr ⟨?_, h3, ?_, ?_⟩⟩
    · norm_num at h
    · rw [h2]; rfl
    · rw [h5]; rfl
    · rw [h6, hv2]
  · obtain ⟨h1, h2, h3, h4, h5, h6⟩ := MT.two_tone_transfer options a0 a1 a2 a3 255 255 clusters0
      himage hN hK hlimit hT hT2 hcl 2 (by omega)
      [⟨2, 255, 255, 255, 255, 255, 255⟩, ⟨2, 0, 0, 0, 0, 0, 0⟩] [1, 1, 0, 0]
      (by intro k hk; interval_cases k <;> decide!) (by decide!) (by decide!)
    refine ⟨3, fun h => absurd rfl h, fun _ => rfl, h1, h4, Or.inr ⟨?_, h3, ?_, ?_⟩⟩
    · rw [h2]; rfl
    · rw [h5]; rfl
    · rw [h6, hv2]

/-- C13 at the opaque two-tone image with both initial centroids dark: the run
returns 3. -/
theorem C13_witness :
    two_tone_mt_options.image =
        [0, 0, 0, 255, 0, 0, 0, 255, 255, 255, 255, 255, 255, 255, 255, 255] ∧
      two_tone_mt_options.image_len = 4 ∧ two_tone_mt_options.cluster_count = 2 ∧
      3 ≤ two_tone_mt_options.iteration_limit ∧ 1 ≤ two_tone_mt_options.thread_count ∧
      two_tone_mt_options.thread_count < 4294967296 ∧ two_tone_clusters0.length = 4 ∧
      (MT.kmeans two_tone_mt_options (two_tone_centroids 0 0) two_tone_clusters0).outcome =
        Outcome.returned 3 := by
  obtain ⟨r, _, h2, h3, _⟩ := C13_two_tone_image_converges_to_its_two_colours
    two_tone_mt_options 255 255 255 255 0 0 two_tone_clusters0 rfl rfl rfl (by decide)
    (by decide) (by decide) (Or.inl rfl) (Or.inl rfl) rfl
  have hr3 : r = 3 := h2 rfl
  subst hr3
  exact ⟨rfl, rfl, rfl, by decide, by decide, by decide, rfl, h3⟩

/-- C14 fails on the code: on the two-pixel buffer, with RAND_MAX = 32767 and
`rand()` returning 16384, `init_centroids` computes the byte index 2, which is
not the offset of a pixel, and every centroid starts with the colour
(30, 40, 50) made of the blue and alpha bytes of pixel 0 and the red byte of
pixel 1; no pixel of the buffer has this colour.  With fewer than three
clusters the single-threaded `init_centroids` produces no centroid at all. -/
theorem C14_init_centroids_reads_across_pixels :
    rand_index 32767 16384 2 = 2 ∧
      MT.init_centroids two_pixel_mt_options 32767 (fun _ => 16384) =
        [⟨0, 30, 40, 50, 0, 0, 0⟩, ⟨0, 30, 40, 50, 0, 0, 0⟩, ⟨0, 30, 40, 50, 0, 0, 0⟩] ∧
      ST.init_centroids two_pixel_st_options 32767 (fun _ => 16384) =
        some [⟨30, 40, 50⟩, ⟨30, 40, 50⟩, ⟨30, 40, 50⟩] ∧
      (∀ i, i < 2 → pixel_rgb two_pixel_mt_options.image i ≠ (30, 40, 50)) ∧
      pixel_rgb two_pixel_mt_options.image 0 = (10, 20, 30) ∧
      pixel_rgb two_pixel_mt_options.image 1 = (50, 60, 70) ∧
      ST.init_centroids { two_pixel_st_options with cluster_count := 1 } 32767
        (fun _ => 16384) = none := by
  decide!

/-- C15: for a channel whose previous value is exactly 0, the change detection
of `update_centroids` reports the channel as changed whenever the new value is
non-zero and as unchanged when the new value is also 0; hence `update_centroids`
returns true whenever some centroid has a channel that was 0 before the update
and is non-zero after it. -/
theorem C15_zero_previous_channel_change_detection
    (options : MT.QuantizeOptions) (centroids : List MT.Centroid) (clusters : List Int)
    (st_options : ST.QuantizeOptions) (st_centroids : List ST.Centroid)
    (st_clusters : List (List Nat))
    (hr : options.in_range) (hlen : centroids.length = options.cluster_count)
    (hlen_st : st_centroids.length = st_options.cluster_count) :
    (∀ new : ℚ, (new ≠ 0 → rel_change_exceeds new 0 (1 / 100) = true) ∧
      (new = 0 → rel_change_exceeds new 0 (1 / 100) = false)) ∧
    (∀ j, j < options.cluster_count →
      (((MT.centroid_at centroids j).r = 0 ∧
          (MT.centroid_at (MT.update_centroids centroids clusters options).1 j).r ≠ 0) ∨
        ((MT.centroid_at centroids j).g = 0 ∧
          (MT.centroid_at (MT.update_centroids centroids clusters options).1 j).g ≠ 0) ∨
        ((MT.centroid_at centroids j).b = 0 ∧
          (MT.centroid_at (MT.update_centroids centroids clusters options).1 j).b ≠ 0)) →
      (MT.update_centroids centroids clusters options).2 = true) ∧
    (∀ j, j < st_options.cluster_count →
      (((ST.centroid_at st_centroids j).c0 = 0 ∧
          (ST.centroid_at (ST.update_centroids st_centroids st_clusters st_options).1 j).c0 ≠
            0) ∨
        ((ST.centroid_at st_centroids j).c1 = 0 ∧
          (ST.centroid_at (ST.update_centroids st_centroids st_clusters st_options).1 j).c1 ≠
            0) ∨
        ((ST.centroid_at st_centroids j).c2 = 0 ∧
          (ST.centroid_at (ST.update_centroids st_centroids st_clusters st_options).1 j).c2 ≠
            0)) →
      (ST.update_centroids st_centroids st_clusters st_options).2 = true) := by
  refine ⟨fun new => ⟨fun h => (rel_change_exceeds_zero_prev new _).mpr h, fun h => ?_⟩, ?_, ?_⟩
  · have := (rel_change_exceeds_zero_prev new (1 / 100)).not.mpr (not_not.mpr h)
    simpa using this
  · intro j hj h
    rw [MT.update_centroids_snd centroids clusters options hlen hr.2.1, List.any_eq_true]
    refine ⟨j, List.mem_range.mpr hj, MT.exceeds_of_zero_prev _ _ ?_⟩
    rw [MT.centroid_at_update centroids clusters options hlen hr.2.1 j hj] at h
    obtain ⟨_, h2, h3, h4⟩ := MT.updated_fields options clusters (MT.centroid_at centroids j) j
    rw [h2, h3, h4]
    exact h
  · intro j hj h
    rw [ST.st_update_centroids_snd st_centroids st_clusters st_options, List.any_eq_true]
    refine ⟨j, List.mem_range.mpr hj, ST.st_exceeds_of_zero_prev _ _ _ ?_⟩
    rw [ST.st_centroid_at_update st_centroids st_clusters st_options hlen_st j hj] at h
    exact h

/-- C15 at the example assignment with a black first centroid: its red channel
is 0 before the update and 1/2 after it, and `update_centroids` returns true in
both variants. -/
theorem C15_witness :
    example_mt_options.in_range ∧
      black_mt_centroids.length = example_mt_options.cluster_count ∧
      black_st_centroids.length = example_st_options.cluster_count ∧
      (MT.centroid_at black_mt_centroids 0).r = 0 ∧
      (MT.centroid_at
        (MT.update_centroids black_mt_centroids example_clusters example_mt_options).1 0).r ≠ 0 ∧
      (MT.update_centroids black_mt_centroids example_clusters example_mt_options).2 = true ∧
      (ST.update_centroids black_st_centroids example_st_clusters example_st_options).2 = true :=
  ⟨by decide, by decide, by decide, by decide!, by decide!,
    (C15_zero_previous_channel_change_detection example_mt_options black_mt_centroids
      example_clusters example_st_options black_st_centroids example_st_clusters (by decide)
      (by decide) (by decide)).2.1 0 (by decide) (Or.inl (by decide!)),
    (C15_zero_previous_channel_change_detection example_mt_options black_mt_centroids
      example_clusters example_st_options black_st_centroids example_st_clusters (by decide)
      (by decide) (by decide)).2.2 0 (by decide) (Or.inl (by decide!))⟩

/-- C16, as stated, fails: with cluster_count = 0 and image_len = 0 (and also
with thread_count = 0) `kmeans` does not end with a configuration error; it
runs one pass, which reports no change, and returns 1. -/
theorem C16_counterexample :
    ((MT.kmeans_with_init empty_mt_options 32767 (fun _ => 0) []).outcome = Outcome.returned 1 ∧
      (MT.kmeans_with_init empty_mt_options 32767 (fun _ => 0) []).trace = [false]) ∧
    ((MT.kmeans_with_init { empty_mt_options with thread_count := 0 } 32767
        (fun _ => 0) []).outcome = Outcome.returned 1) ∧
    ((ST.kmeans_with_init empty_st_options 32767 (fun _ => 0)).map (fun res => res.outcome) =
        some (Outcome.returned 1) ∧
      (ST.kmeans_with_init empty_st_options 32767 (fun _ => 0)).map (fun res => res.trace) =
        some [false]) := by
  decide!

/-- C16 (amended): `kmeans` does not validate its configuration and has no
configuration-error outcome.  For an input with cluster_count = 0 and
image_len = 0, whatever thread_count is, it runs the loop as for any other
input: with iteration_limit ≥ 1 it performs one assignment and update pass,
which reports no change, and returns 1; with iteration_limit = 0 it ends with
"Did not converge"; and it does not modify the pixel buffer. -/
theorem C16_no_validation_empty_configuration
    (options : MT.QuantizeOptions) (st_options : ST.QuantizeOptions) (rand_max : Nat)
    (rand : Nat → Nat)
    (hK : options.cluster_count = 0) (hN : options.image_len = 0)
    (hK_st : st_options.cluster_count = 0) (hN_st : st_options.image_len = 0) :
    ((1 ≤ options.iteration_limit →
        (MT.kmeans_with_init options rand_max rand []).outcome = Outcome.returned 1 ∧
          (MT.kmeans_with_init options rand_max rand []).trace = [false]) ∧
      (options.iteration_limit = 0 →
        (MT.kmeans_with_init options rand_max rand []).outcome = Outcome.did_not_converge ∧
          (MT.kmeans_with_init options rand_max rand []).trace = []) ∧
      (MT.kmeans_with_init options rand_max rand []).image = options.image) ∧
    (∃ res, ST.kmeans_with_init st_options rand_max rand = some res ∧
      (1 ≤ st_options.iteration_limit →
        res.outcome = Outcome.returned 1 ∧ res.trace = [false]) ∧
      (st_options.iteration_limit = 0 →
        res.outcome = Outcome.did_not_converge ∧ res.trace = []) ∧
      res.image = st_options.image) := by
  constructor
  · have hinit : MT.init_centroids options rand_max rand = [] := by
      unfold MT.init_centroids
      rw [hK]
      rfl
    unfold MT.kmeans_with_init
    rw [hinit]
    rcases Nat.eq_zero_or_pos options.iteration_limit with h0 | hpos
    · have hk : MT.kmeans options [] [] =
          { outcome := Outcome.did_not_converge, image := options.image, centroids := [],
            clusters := [], trace := [] } := by
        unfold MT.kmeans
        rw [h0]
        rfl
      rw [hk]
      exact ⟨fun h => by omega, fun _ => ⟨rfl, rfl⟩, rfl⟩
    · obtain ⟨n, hn⟩ : ∃ n, options.iteration_limit = n + 1 := ⟨options.iteration_limit - 1, by omega⟩
      have hk : MT.kmeans options [] [] =
          { outcome := Outcome.returned 1, image := MT.write_back options [] [],
            centroids := [], clusters := [], trace := [false] } := by
        unfold MT.kmeans
        rw [hn]
        simp [MT.kmeans_loop, MT.pass_empty options [] hK hN]
      rw [hk]
      refine ⟨fun _ => ⟨rfl, rfl⟩, fun h => by omega, ?_⟩
      unfold MT.write_back
      rw [hN]
      rfl
  · have hinit : ST.init_centroids st_options rand_max rand = some [] := by
      unfold ST.init_centroids
      rw [hK_st]
      rfl
    unfold ST.kmeans_with_init
    rw [hinit]
    refine ⟨ST.kmeans st_options [], rfl, ?_⟩
    have hcl : ST.init_clusters (List.replicate st_options.cluster_count []) st_options = [] := by
      rw [hK_st]
      unfold ST.init_clusters
      rw [hK_st]
      rfl
    rcases Nat.eq_zero_or_pos st_options.iteration_limit with h0 | hpos
    · have hk : ST.kmeans st_options [] =
          { outcome := Outcome.did_not_converge, image := st_options.image, centroids := [],
            clusters := [], trace := [] } := by
        unfold ST.kmeans
        rw [h0, hcl]
        rfl
      rw [hk]
      exact ⟨fun h => by omega, fun _ => ⟨rfl, rfl⟩, rfl⟩
    · obtain ⟨n, hn⟩ : ∃ n, st_options.iteration_limit = n + 1 :=
        ⟨st_options.iteration_limit - 1, by omega⟩
      have hk : ST.kmeans st_options [] =
          { outcome := Outcome.returned 1, image := ST.write_back st_options [] [],
            centroids := [], clusters := [], trace := [false] } := by
        unfold ST.kmeans
        rw [hn, hcl]
        simp [ST.kmeans_loop, ST.st_pass_empty st_options [] hK_st hN_st]
      rw [hk]
      refine ⟨fun _ => ⟨rfl, rfl⟩, fun h => by omega, ?_⟩
      unfold ST.write_back
      rw [hK_st]
      rfl

/-- C16 (amended) at the empty configuration: the hypotheses hold and `kmeans`
returns 1 in both variants. -/
theorem C16_witness :
    empty_mt_options.cluster_count = 0 ∧ empty_mt_options.image_len = 0 ∧
      empty_st_options.cluster_count = 0 ∧ empty_st_options.image_len = 0 ∧
      1 ≤ empty_mt_options.iteration_limit ∧
      (MT.kmeans_with_init empty_mt_options 32767 (fun _ => 0) []).outcome =
        Outcome.returned 1 ∧
      (MT.kmeans_with_init empty_mt_options 32767 (fun _ => 0) []).image =
        empty_mt_options.image :=
  ⟨by decide, by decide, by decide, by decide, by decide,
    ((C16_no_validation_empty_configuration empty_mt_options empty_st_options 32767
      (fun _ => 0) (by decide) (by decide) (by decide) (by decide)).1.1 (by decide)).1,
    (C16_no_validation_empty_configuration empty_mt_options empty_st_options 32767
      (fun _ => 0) (by decide) (by decide) (by decide) (by decide)).1.2.2⟩

/-- C17: over exact arithmetic, for an input with K ≥ 1 clusters and
thread_count ≥ 1 and the same initial centroids, the single-threaded `kmeans`
(squared distance, per-cluster pixel lists) and the multi-threaded `kmeans`
(square-root distance, assignment array) end in the same way: the same
success or failure with the same iteration count, the same output pixel
buffer, the same sequence of `anyChanged` values and the same final centroid
colours.  With the calls of `init_centroids` included and the same values of
`std::rand()`, this holds for K ≥ 3, where the single-threaded
`init_centroids` produces its centroids. -/
theorem C17_single_and_multi_threaded_kmeans_agree
    (options : MT.QuantizeOptions) (centroids0 : List MT.Centroid) (clusters0 : List Int)
    (hr : options.in_range) (hT : 1 ≤ options.thread_count)
    (hK : 1 ≤ options.cluster_count) (hlen : centroids0.length = options.cluster_count)
    (hcl : clusters0.length = options.image_len) :
    ((ST.kmeans (MT.single_threaded options) (centroids0.map MT.colour)).outcome =
        (MT.kmeans options centroids0 clusters0).outcome ∧
      (ST.kmeans (MT.single_threaded options) (centroids0.map MT.colour)).image =
        (MT.kmeans options centroids0 clusters0).image ∧
      (ST.kmeans (MT.single_threaded options) (centroids0.map MT.colour)).trace =
        (MT.kmeans options centroids0 clusters0).trace ∧
      (ST.kmeans (MT.single_threaded options) (centroids0.map MT.colour)).centroids =
        (MT.kmeans options centroids0 clusters0).centroids.map MT.colour) ∧
    ∀ (rand_max : Nat) (rand : Nat → Nat), 3 ≤ options.cluster_count →
      ∃ result, ST.kmeans_with_init (MT.single_threaded options) rand_max rand = some result ∧
        result.outcome = (MT.kmeans_with_init options rand_max rand clusters0).outcome ∧
        result.image = (MT.kmeans_with_init options rand_max rand clusters0).image := by
  refine ⟨MT.kmeans_colour options centroids0 clusters0 hr hT hK hlen hcl, ?_⟩
  intro rand_max rand hK3
  have hinit := MT.init_centroids_colour options rand_max rand hK3
  have hl : (MT.init_centroids options rand_max rand).length = options.cluster_count := by
    unfold MT.init_centroids
    rw [List.length_map, List.length_range]
  obtain ⟨h1, h2, _, _⟩ := MT.kmeans_colour options (MT.init_centroids options rand_max rand)
    clusters0 hr hT hK hl hcl
  refine ⟨ST.kmeans (MT.single_threaded options)
    ((MT.init_centroids options rand_max rand).map MT.colour), ?_, h1, h2⟩
  unfold ST.kmeans_with_init
  rw [hinit]
  rfl

/-- C17 at the grey run (five pixels, three clusters, two worker threads):
both variants return 2 and leave the same pixel buffer. -/
theorem C17_witness :
    grey_mt_options.in_range ∧ 1 ≤ grey_mt_options.thread_count ∧
      1 ≤ grey_mt_options.cluster_count ∧
      grey_mt_centroids.length = grey_mt_options.cluster_count ∧
      grey_clusters0.length = grey_mt_options.image_len ∧
      MT.single_threaded grey_mt_options = grey_st_options ∧
      grey_mt_centroids.map MT.colour = grey_st_centroids ∧
      (ST.kmeans grey_st_options grey_st_centroids).outcome =
        (MT.kmeans grey_mt_options grey_mt_centroids grey_clusters0).outcome ∧
      (ST.kmeans grey_st_options grey_st_centroids).image =
        (MT.kmeans grey_mt_options grey_mt_centroids grey_clusters0).image :=
  ⟨by decide, by decide, by decide, by decide, by decide, by decide, by decide!,
    (C17_single_and_multi_threaded_kmeans_agree grey_mt_options grey_mt_centroids grey_clusters0
      (by decide) (by decide) (by decide) (by decide) (by decide)).1.1,
    (C17_single_and_multi_threaded_kmeans_agree grey_mt_options grey_mt_centroids grey_clusters0
      (by decide) (by decide) (by decide) (by decide) (by decide)).1.2.1⟩

/-- C18: over exact arithmetic, one pass of `kmeans` never increases the
clustering cost.  For centroids c of an input with K ≥ 1, let a be the
assignment computed from c, c' the centroids after `update_centroids` on a, and
a' the assignment computed from c'; then for the sum over the pixels of the
squared (R,G,B) distance to the assigned centroid,
cost(c', a') ≤ cost(c', a) ≤ cost(c, a), also when some centroids have no
assigned pixels.  The same holds for the cluster vectors and centroids of the
single-threaded variant. -/
theorem C18_pass_does_not_increase_cost
    (options : MT.QuantizeOptions) (centroids : List MT.Centroid) (clusters0 : List Int)
    (vectors0 : List (List Nat))
    (hr : options.in_range) (hT : 1 ≤ options.thread_count) (hK : 1 ≤ options.cluster_count)
    (hlen : centroids.length = options.cluster_count)
    (hcl : clusters0.length = options.image_len)
    (hv : vectors0.length = options.cluster_count) :
    (MT.cost options (MT.pass options centroids clusters0).1.1
          (MT.pass options (MT.pass options centroids clusters0).1.1
            (MT.pass options centroids clusters0).1.2).1.2 ≤
        MT.cost options (MT.pass options centroids clusters0).1.1
          (MT.pass options centroids clusters0).1.2 ∧
      MT.cost options (MT.pass options centroids clusters0).1.1
          (MT.pass options centroids clusters0).1.2 ≤
        MT.cost options centroids (MT.pass options centroids clusters0).1.2) ∧
    (ST.cost (MT.single_threaded options)
          (ST.pass (MT.single_threaded options) (centroids.map MT.colour) vectors0).1.1
          (ST.pass (MT.single_threaded options)
            (ST.pass (MT.single_threaded options) (centroids.map MT.colour) vectors0).1.1
            (ST.pass (MT.single_threaded options) (centroids.map MT.colour) vectors0).1.2).1.2 ≤
        ST.cost (MT.single_threaded options)
          (ST.pass (MT.single_threaded options) (centroids.map MT.colour) vectors0).1.1
          (ST.pass (MT.single_threaded options) (centroids.map MT.colour) vectors0).1.2 ∧
      ST.cost (MT.single_threaded options)
          (ST.pass (MT.single_threaded options) (centroids.map MT.colour) vectors0).1.1
          (ST.pass (MT.single_threaded options) (centroids.map MT.colour) vectors0).1.2 ≤
        ST.cost (MT.single_threaded options) (centroids.map MT.colour)
          (ST.pass (MT.single_threaded options) (centroids.map MT.colour) vectors0).1.2) := by
  obtain ⟨ha, hc⟩ := MT.pass_clusters_eq options centroids clusters0 hr hT hcl
  have hva := MT.phase_valid options centroids hr hK
  rw [← ha] at hva
  have hal : (MT.pass options centroids clusters0).1.2.length = options.image_len := by
    rw [MT.pass_clusters_length, hcl]
  have hcl' : (MT.pass options centroids clusters0).1.1.length = options.cluster_count := by
    rw [hc, MT.update_centroids_length, hlen]
  obtain ⟨ha', _⟩ := MT.pass_clusters_eq options (MT.pass options centroids clusters0).1.1
    (MT.pass options centroids clusters0).1.2 hr hT hal
  have hva' := MT.phase_valid options (MT.pass options centroids clusters0).1.1 hr hK
  rw [← ha'] at hva'
  have h1 : MT.cost options (MT.pass options centroids clusters0).1.1
      (MT.pass options (MT.pass options centroids clusters0).1.1
        (MT.pass options centroids clusters0).1.2).1.2 ≤
      MT.cost options (MT.pass options centroids clusters0).1.1
        (MT.pass options centroids clusters0).1.2 := by
    rw [ha']
    exact MT.cost_assignment_le options _ _ hr hK hva
  have h2 : MT.cost options (MT.pass options centroids clusters0).1.1
      (MT.pass options centroids clusters0).1.2 ≤
      MT.cost options centroids (MT.pass options centroids clusters0).1.2 := by
    have := MT.cost_update_le options centroids (MT.pass options centroids clusters0).1.2 hr hlen
      hva
    rw [ha] at this ⊢
    rw [hc]
    exact this
  refine ⟨⟨h1, h2⟩, ?_⟩
  have hp1 := MT.pass_colour options centroids clusters0 vectors0 hr hT hlen hcl hv
  have hp2 := MT.pass_colour options (MT.pass options centroids clusters0).1.1
    (MT.pass options centroids clusters0).1.2
    (MT.cluster_vectors options (MT.pass options centroids clusters0).1.2) hr hT hcl' hal
    (by unfold MT.cluster_vectors; rw [List.length_map, List.length_range])
  rw [hp1]
  simp only
  rw [hp2]
  simp only
  rw [MT.cost_colour options _ _ hr.2.1 hva', MT.cost_colour options _ _ hr.2.1 hva,
    MT.cost_colour options _ _ hr.2.1 hva]
  exact ⟨h1, h2⟩

/-- C18 at the grey run, whose first update lowers the cost from 3 to 2. -/
theorem C18_witness :
    grey_mt_options.in_range ∧ 1 ≤ grey_mt_options.thread_count ∧
      1 ≤ grey_mt_options.cluster_count ∧
      grey_mt_centroids.length = grey_mt_options.cluster_count ∧
      grey_clusters0.length = grey_mt_options.image_len ∧
      MT.cost grey_mt_options grey_mt_centroids
        (MT.pass grey_mt_options grey_mt_centroids grey_clusters0).1.2 = 3 ∧
      MT.cost grey_mt_options (MT.pass grey_mt_options grey_mt_centroids grey_clusters0).1.1
        (MT.pass grey_mt_options grey_mt_centroids grey_clusters0).1.2 = 2 ∧
      MT.cost grey_mt_options (MT.pass grey_mt_options grey_mt_centroids grey_clusters0).1.1
          (MT.pass grey_mt_options grey_mt_centroids grey_clusters0).1.2 ≤
        MT.cost grey_mt_options grey_mt_centroids
          (MT.pass grey_mt_options grey_mt_centroids grey_clusters0).1.2 :=
  ⟨by decide, by decide, by decide, by decide, by decide, by decide!, by decide!,
    (C18_pass_does_not_increase_cost grey_mt_options grey_mt_centroids grey_clusters0
      [[], [], []] (by decide) (by decide) (by decide) (by decide) (by decide)
      (by decide)).1.2⟩

/-- C19: when `kmeans` ends in the "Did not converge" failure, the pixel buffer
is byte-for-byte identical to the input: the passes of the loop write no pixel,
and the write-back of the centroid colours is reached only once convergence has
been established (a buffer that differs from the input implies that `kmeans`
returned). -/
theorem C19_failure_leaves_buffer_unchanged
    (options : MT.QuantizeOptions) (centroids0 : List MT.Centroid) (clusters0 : List Int)
    (st_options : ST.QuantizeOptions) (st_centroids0 : List ST.Centroid)
    (hfail : (MT.kmeans options centroids0 clusters0).outcome = Outcome.did_not_converge)
    (hfail_st : (ST.kmeans st_options st_centroids0).outcome = Outcome.did_not_converge) :
    (MT.kmeans options centroids0 clusters0).image = options.image ∧
      (ST.kmeans st_options st_centroids0).image = st_options.image := by
  constructor
  · obtain ⟨m, _, _, _, _, hout⟩ := MT.kmeans_spec options centroids0 clusters0
    rcases hout with ⟨a, _⟩ | ⟨_, _, _, d⟩
    · rw [a] at hfail
      cases hfail
    · exact d
  · obtain ⟨m, _, _, _, _, hout⟩ := ST.st_kmeans_spec st_options st_centroids0
    rcases hout with ⟨a, _⟩ | ⟨_, _, _, d⟩
    · rw [a] at hfail_st
      cases hfail_st
    · exact d

/-- C19 at the grey run with an iteration limit of 1: `kmeans` fails in both
variants and the buffers are unchanged. -/
theorem C19_witness :
    (MT.kmeans grey_mt_options_limit1 grey_mt_centroids grey_clusters0).outcome =
        Outcome.did_not_converge ∧
      (ST.kmeans grey_st_options_limit1 grey_st_centroids).outcome = Outcome.did_not_converge ∧
      (MT.kmeans grey_mt_options_limit1 grey_mt_centroids grey_clusters0).image =
        grey_mt_options_limit1.image ∧
      (ST.kmeans grey_st_options_limit1 grey_st_centroids).image = grey_st_options_limit1.image :=
  ⟨by decide!, by decide!,
    (C19_failure_leaves_buffer_unchanged grey_mt_options_limit1 grey_mt_centroids grey_clusters0
      grey_st_options_limit1 grey_st_centroids (by decide!) (by decide!)).1,
    (C19_failure_leaves_buffer_unchanged grey_mt_options_limit1 grey_mt_centroids grey_clusters0
      grey_st_options_limit1 grey_st_centroids (by decide!) (by decide!)).2⟩

/-- C20: for `image_len` N ≥ 1 and a value v of `rand()` with 0 ≤ v ≤ RAND_MAX,
the byte index `randIndex` computed by `init_centroids` is, over exact
arithmetic, the floor of `4 * (v / RAND_MAX) * (N - 1)` and satisfies
0 ≤ randIndex ≤ 4(N-1), so the three reads at randIndex, randIndex+1 and
randIndex+2 are inside the 4N-byte RGBA buffer.  N is such that the index fits
in an `int`. -/
theorem C20_rand_index_inside_buffer (rand_max v N : Nat) (image : List Nat)
    (hR : 0 < rand_max) (hv : v ≤ rand_max) (hN : 1 ≤ N) (hsize : 4 * N ≤ 2147483648)
    (hlen : image.length = 4 * N) :
    rand_index rand_max v N = ⌊4 * ((v : ℚ) / (rand_max : ℚ)) * ((N - 1 : Nat) : ℚ)⌋ ∧
      0 ≤ rand_index rand_max v N ∧ rand_index rand_max v N ≤ 4 * ((N - 1 : Nat) : Int) ∧
      (rand_index rand_max v N).toNat < image.length ∧
      (rand_index rand_max v N + 1).toNat < image.length ∧
      (rand_index rand_max v N + 2).toNat < image.length := by
  obtain ⟨h1, h2, h3⟩ := rand_index_bounds rand_max v N hR hv hN hsize
  refine ⟨h1, h2, h3, ?_, ?_, ?_⟩ <;> omega

/-- C20 at the two-pixel buffer with RAND_MAX = 32767 and `rand()` = 16384: the
hypotheses hold and the index is 2. -/
theorem C20_witness :
    0 < 32767 ∧ 16384 ≤ 32767 ∧ 1 ≤ 2 ∧ 4 * 2 ≤ 2147483648 ∧
      two_pixel_mt_options.image.length = 4 * 2 ∧
      0 ≤ rand_index 32767 16384 2 ∧ rand_index 32767 16384 2 ≤ 4 * ((2 - 1 : Nat) : Int) ∧
      (rand_index 32767 16384 2 + 2).toNat < two_pixel_mt_options.image.length :=
  ⟨by decide, by decide, by decide, by decide, by decide,
    (C20_rand_index_inside_buffer 32767 16384 2 two_pixel_mt_options.image (by decide)
      (by decide) (by decide) (by decide) (by decide)).2.1,
    (C20_rand_index_inside_buffer 32767 16384 2 two_pixel_mt_options.image (by decide)
      (by decide) (by decide) (by decide) (by decide)).2.2.1,
    (C20_rand_index_inside_buffer 32767 16384 2 two_pixel_mt_options.image (by decide)
      (by decide) (by decide) (by decide) (by decide)).2.2.2.2.2⟩

end ColorQuantization
